import Mathlib

/-!
# NetCosm master: request protocol

A shallow embedding of the master side of the NetCosm MUD server
(`src/server_reqs.c`, `src/server.c`): the packet writer `send_packet`, the
request handlers, the request table and the dispatcher `handle_child_req`.

Conventions of the embedding.

* C strings and packet payloads are lists of bytes (`List Nat`).
* The master is one value of type `Master`; every C function that touches
  global state is a function `Master → Master`.
* Each worker's outgoing pipe is observed through `Master.sent`, the list of
  packets written so far, each tagged with the pid of the worker it was
  written to.
* Undefined behaviour that is visible in the source (a dereferenced NULL, an
  index outside an array, a failed `assert`) stops the master: it sets
  `Master.fault`, and a faulted master performs no further step. The read
  `state[child->state]` of `req_send_clientinfo` outside the table is the
  exception: what it gives (a stop, or some bytes) is a parameter of the build,
  `Env.state_oob`.
-/

namespace NetCosm

/-! ## Bytes and C strings -/

/-- Bytes of a string literal. -/
def str (s : String) : List Nat := s.toList.map Char.toNat

/-- The C string that starts at the head of `mem`: the bytes before the first NUL. -/
def cstr (mem : List Nat) : List Nat := mem.takeWhile (fun b => b != 0)

/-- Little-endian value of a block of bytes, unsigned. -/
def le_nat : List Nat → Nat
  | [] => 0
  | b :: bs => b % 256 + 256 * le_nat bs

/-- A 32-bit two's complement integer read from the first four bytes of `mem`
(`*((int*)data)`, `memcpy(&pid, packet, sizeof(pid_t))`); missing bytes read as 0. -/
def le_int32 (mem : List Nat) : Int :=
  let n := le_nat (mem.take 4)
  if n < 2 ^ 31 then (n : Int) else (n : Int) - 2 ^ 32

/-- The four bytes of a 32-bit integer, little-endian. -/
def int32_bytes (i : Int) : List Nat :=
  let n := (i % 2 ^ 32).toNat
  [n % 256, n / 256 % 256, n / 65536 % 256, n / 16777216 % 256]

/-- Platform sizes (LP64): `sizeof(pid_t)`. -/
def sizeof_pid_t : Nat := 4

/-- Platform sizes (LP64): `sizeof(int)`, also the size of an enum. -/
def sizeof_int : Nat := 4

/-- Platform sizes: `sizeof(bool)`. -/
def sizeof_bool : Nat := 1

/-- Modelled from the spec: `room_id` (declared in room.h, not in src/) is a small
integer; it is taken to be a 32-bit `int`. -/
def sizeof_room_id : Nat := 4

/-- Modelled from the spec: `ROOM_NONE` (room.h, not in src/), the room id that
means "no adjacency". -/
def ROOM_NONE : Int := -1

/-! ## Request codes

Modelled from the spec: the `REQ_*` codes are declared in server_reqs.h, which is
not in src/. Only their being pairwise distinct bytes is used. -/

def REQ_NOP : Nat := 0
def REQ_BCASTMSG : Nat := 1
def REQ_LISTCLIENTS : Nat := 2
def REQ_CHANGESTATE : Nat := 3
def REQ_CHANGEUSER : Nat := 4
def REQ_KICK : Nat := 6
def REQ_WAIT : Nat := 7
def REQ_GETROOMDESC : Nat := 8
def REQ_SETROOM : Nat := 9
def REQ_MOVE : Nat := 10
def REQ_GETROOMNAME : Nat := 11
def REQ_GETUSERDATA : Nat := 13
def REQ_DELUSERDATA : Nat := 14
def REQ_ADDUSERDATA : Nat := 15
def REQ_KICKALL : Nat := 16
def REQ_LOOKAT : Nat := 17
def REQ_TAKE : Nat := 18
def REQ_PRINTINVENTORY : Nat := 19
def REQ_DROP : Nat := 20
def REQ_LISTUSERS : Nat := 21
def REQ_EXECVERB : Nat := 22
def REQ_RAWMODE : Nat := 23
def REQ_PRINTNEWLINE : Nat := 24
def REQ_ALLDONE : Nat := 25

/-! ## Data model -/

/-- An object instance (`struct object_t`). `ptr` is the address of the instance:
two instances are the same object exactly when their `ptr` agree. -/
structure object_t where
  ptr : Nat
  name : List Nat
  cls : Nat
  list : Bool
  hidden : Bool
  default_article : Bool
  userdata : Nat
  deriving DecidableEq, Repr

/-- An entry of a multimap: the key it is filed under and the object. -/
structure multimap_list where
  key : List Nat
  val : object_t
  deriving DecidableEq, Repr

/-- Modelled from the spec: the multimap `noun → object instance` (multimap.h is not
in src/): entries in insertion order, duplicates allowed. -/
abbrev multimap := List multimap_list

/-- A record of the user database (`struct userdata_t`). -/
structure userdata_t where
  username : List Nat
  salt : List Nat
  passhash : List Nat
  priv : Int
  last_login : Nat
  objects : multimap
  userdata : Nat
  deriving DecidableEq, Repr

/-- Modelled from the spec: the master's record of one worker (`struct child_data`,
declared in server.h, not in src/), with the fields the sources use. -/
structure child_data where
  pid : Int
  addr : Nat
  state : Int
  user : Option (List Nat)
  room : Int
  raw_mode_cb : Option Nat
  deriving DecidableEq, Repr

/-- A verb (`struct verb_t`): its name and the id of its class. -/
structure verb_t where
  name : List Nat
  cls : Nat
  deriving DecidableEq, Repr

/-- Modelled from the spec: a room (`struct room_t`, room.h is not in src/). The
hooks of the room live in `Env`. -/
structure room_t where
  name : Option (List Nat)
  desc : List Nat
  adjacent : List Int
  objects : multimap
  users : List Int
  verbs : List verb_t
  deriving DecidableEq, Repr

/-- A packet written to a worker: the pid of the worker and the bytes
(`cmd` first, then the payload). -/
structure sent_packet where
  dest : Int
  bytes : List Nat
  deriving DecidableEq, Repr

/-- An entry of the trace of handler invocations made by the dispatcher:
`req->handle_child(data, len, sender, child)` or `req->finalize(data, len, sender)`,
with the code of the request. -/
inductive call where
  | handle_child (code : Nat) (sender child : Int)
  | finalize (code : Nat) (sender : Int)
  deriving DecidableEq, Repr

/-- The whole state of the master process. `packet` is the static receive buffer
of `handle_child_req`, `save_n` the static counter of `server_save_state`,
`saves` counts the saves to disk, `next_ptr` is the next free address for an
object, `sent` and `calls` are the traces of packets written and handlers
invoked, `fault` tells that the master has stopped on a fault, and
`assert_failed` that the fault was the assertion of `send_packet`. -/
structure Master where
  are_child : Bool
  child_map : List child_data
  num_clients : Int
  world : List room_t
  world_verbs : List verb_t
  userdb : List userdata_t
  save_n : Nat
  saves : Nat
  packet : List Nat
  next_ptr : Nat
  sent : List sent_packet
  calls : List call
  fault : Bool
  assert_failed : Bool
  deriving DecidableEq, Repr

/-- Hooks of an object class (`struct obj_class_t`), as far as the master's
request handlers use them. -/
structure obj_class_t where
  hook_take : Option (object_t → child_data → Bool)
  hook_drop : Option (object_t → child_data → Bool)
  hook_desc : Option (object_t → child_data → List Nat)

/-- What the handlers take from outside `src/`: build constants, the world
module's hooks, and library formatting routines. The field `state_oob` is what the
read `state[i]` of `req_send_clientinfo` gives for an index outside the table:
the behaviour is undefined in C, and in a given build the read either stops the
master (`none`) or comes back with some bytes that `%s` prints. -/
structure Env where
  MSG_MAX : Nat
  sizeof_userdata : Nat
  userdata_bytes : userdata_t → List Nat
  userdata_of_bytes : List Nat → userdata_t
  obj_class : Nat → obj_class_t
  hook_enter : Int → Option (Int → child_data → Bool)
  hook_leave : Int → Option (Int → child_data → Bool)
  hook_exec : verb_t → Option (List Nat) → Int → Master → Master
  raw_cb : Nat → Int → List Nat → Nat → Master → Master
  inet_ntoa : Nat → List Nat
  ctime : Nat → List Nat
  is_vowel : Nat → Bool
  format_noun : List Nat → Nat → Bool → Bool → List Nat
  state_oob : Int → Option (List Nat)

/-! ## Faults -/

/-- The master stops (segmentation fault, failed assertion). -/
def die (st : Master) : Master := { st with fault := true }

/-- The master stops on the failed assertion of `send_packet`. -/
def assert_fail (st : Master) : Master := { st with fault := true, assert_failed := true }

/-! ## send_packet -/

/-- The `write` of one packet to the pipe of worker `child`. -/
def write_packet (st : Master) (child : Int) (pkt : List Nat) : Master :=
  if st.fault then st else { st with sent := st.sent ++ [⟨child, pkt⟩] }

/-- The `while(ptr < stop)` loop of `send_packet`: `off` is `ptr - data`, and
`send` is the recursive call of `send_packet`. -/
def send_split (send : Master → List Nat → Nat → Master) (MSG_MAX : Nat) :
    Nat → Master → List Nat → Nat → Nat → Master
  | 0, st, _, _, _ => die st
  | fuel + 1, st, d, off, datalen =>
    if off < datalen then
      send_split send MSG_MAX fuel
        (send st (d.drop off) (min (datalen - off) (MSG_MAX - 1)))
        d (off + (MSG_MAX - 1)) datalen
    else st

/-- The body of `send_packet`, with a bound on the depth of the recursion. -/
def send_packet_fuel (env : Env) (child : Int) (cmd : Nat) :
    Nat → Master → Option (List Nat) → Nat → Master
  | 0, st, _, _ => die st
  | fuel + 1, st, data, datalen =>
    if st.fault then st
    else if ¬ (datalen < env.MSG_MAX ∨ cmd = REQ_BCASTMSG) then assert_fail st
    else
      match data with
      | none =>
        if cmd = REQ_BCASTMSG ∧ 0 + 1 > env.MSG_MAX then die st
        else write_packet st child [cmd]
      | some d =>
        if d.length < datalen then die st
        else if cmd = REQ_BCASTMSG ∧ datalen + 1 > env.MSG_MAX then
          send_split (fun s p n => send_packet_fuel env child cmd fuel s (some p) n)
            env.MSG_MAX (datalen + 1) st d 0 datalen
        else write_packet st child (cmd :: d.take datalen)

/-- Function `send_packet(child, cmd, data, datalen)`. -/
def send_packet (env : Env) (st : Master) (child : Int) (cmd : Nat)
    (data : Option (List Nat)) (datalen : Nat) : Master :=
  send_packet_fuel env child cmd 2 st data datalen

/-- Function `send_msg(child, fmt, ...)`: the formatted text goes out as `REQ_BCASTMSG`. -/
def send_msg (env : Env) (st : Master) (child : Int) (msg : List Nat) : Master :=
  send_packet env st child REQ_BCASTMSG (some msg) msg.length

/-! ## Helpers from outside `src/` -/

/-- Decimal digits of a natural number (`%zu`). -/
def fmt_u (n : Nat) : List Nat := (Nat.toDigits 10 n).map Char.toNat

/-- Decimal text of an integer (`%d`). -/
def fmt_d (i : Int) : List Nat :=
  if i < 0 then 45 :: fmt_u (-i).toNat else fmt_u i.toNat

/-- Function `strlcat(dst, src, siz)` on a buffer of `siz` bytes. -/
def strlcat (dst src : List Nat) (siz : Nat) : List Nat :=
  if dst.length < siz then (dst ++ cstr src).take (siz - 1) else dst

/-- Modelled from the spec: `hash_lookup(child_map, &pid)` (hash.h is not in
src/): the record of the worker with this pid, if any. -/
def hash_lookup (m : List child_data) (pid : Int) : Option child_data :=
  m.find? (fun c => c.pid = pid)

/-- Writes through a `struct child_data *`: the record with this pid is changed
in place. -/
def child_update (st : Master) (pid : Int) (f : child_data → child_data) : Master :=
  if st.fault then st
  else { st with child_map := st.child_map.map (fun c => if c.pid = pid then f c else c) }

/-- Modelled from the spec: `room_get(id)` (room.h is not in src/): rooms are
numbered from 0 in the world array; an id outside the array gives no room. -/
def room_get (world : List room_t) (id : Int) : Option room_t :=
  if 0 ≤ id then world[id.toNat]? else none

/-- Replaces the room with this id by `f` of it. -/
def room_update (st : Master) (id : Int) (f : room_t → room_t) : Master :=
  if st.fault then st
  else if 0 ≤ id then { st with world := st.world.modify f id.toNat }
  else st

/-- Lower case of an ASCII byte. -/
def to_lower (b : Nat) : Nat := if 65 ≤ b ∧ b ≤ 90 then b + 32 else b

/-- Modelled from the spec: keys of a multimap are nouns, compared without
regard to case. -/
def key_eq (a b : List Nat) : Bool := a.map to_lower == b.map to_lower

/-- Modelled from the spec: `multimap_lookup(map, key, &n)` (multimap.h is not in
src/): the entries filed under `key`; the count is the length of the list. -/
def multimap_lookup (m : multimap) (key : List Nat) : List multimap_list :=
  m.filter (fun e => key_eq e.key key)

/-- Modelled from the spec: `multimap_insert`: duplicates are allowed. -/
def multimap_insert (m : multimap) (key : List Nat) (val : object_t) : multimap :=
  m ++ [⟨key, val⟩]

/-- Modelled from the spec: deletion from a multimap by identity pointer. -/
def multimap_delete_ptr (m : multimap) (ptr : Nat) : multimap :=
  m.filter (fun e => e.val.ptr != ptr)

/-- The first entry under each distinct key, in the order of the map. -/
def multimap_heads (m : multimap) : List multimap_list :=
  m.foldl (fun acc e => if acc.any (fun h => key_eq h.key e.key) then acc else acc ++ [e]) []

/-- Modelled from the spec: `multimap_iterate`: one step for each distinct key,
giving the head of the list under the key and the number of entries under it. -/
def multimap_iterate (m : multimap) : List (multimap_list × Nat) :=
  (multimap_heads m).map (fun e => (e, (multimap_lookup m e.key).length))

/-- Modelled from the spec: `userdb_lookup(name)` (userdb.c is not in src/):
userdb.h says it "returns NULL upon failure"; names compare case-sensitively.
A NULL name finds nothing. -/
def userdb_lookup (db : List userdata_t) (name : Option (List Nat)) : Option userdata_t :=
  match name with
  | none => none
  | some n => db.find? (fun u => u.username = n)

/-- Modelled from the spec: `userdb_remove(name)`. -/
def userdb_remove (st : Master) (name : List Nat) : Bool × Master :=
  if st.fault then (false, st)
  else
    ((userdb_lookup st.userdb (some name)).isSome,
      { st with userdb := st.userdb.filter (fun u => u.username != name) })

/-- Modelled from the spec: `userdb_add(user)`: "if it already exists, OVERWRITE"
(userdb.h); adding returns success. -/
def userdb_add (st : Master) (u : userdata_t) : Bool × Master :=
  if st.fault then (false, st)
  else
    let db := st.userdb.filter (fun v => v.username != u.username) ++ [u]
    (true, { st with userdb := db })

/-- Changes the inventory of the user with this name. -/
def userdb_set_objects (st : Master) (name : List Nat) (f : multimap → multimap) : Master :=
  if st.fault then st
  else
    let upd := fun (u : userdata_t) =>
      if u.username = name then { u with objects := f u.objects } else u
    { st with userdb := st.userdb.map upd }

/-- Modelled from the spec: `userdb_add_obj(name, obj)`: files the object in the
user's inventory under its name; nothing happens for an unknown user. -/
def userdb_add_obj (st : Master) (name : Option (List Nat)) (obj : object_t) : Master :=
  match name, userdb_lookup st.userdb name with
  | some n, some _ => userdb_set_objects st n (fun m => multimap_insert m obj.name obj)
  | _, _ => st

/-- Modelled from the spec: `userdb_del_obj_by_ptr(name, obj)`. -/
def userdb_del_obj_by_ptr (st : Master) (name : Option (List Nat)) (obj : object_t) : Master :=
  match name, userdb_lookup st.userdb name with
  | some n, some _ => userdb_set_objects st n (fun m => multimap_delete_ptr m obj.ptr)
  | _, _ => st

/-- Modelled from the spec: `room_obj_add(room, obj)`: files the object in the
room's multimap under its name; an unknown room stops the master. -/
def room_obj_add (st : Master) (room : Int) (obj : object_t) : Master :=
  match room_get st.world room with
  | none => die st
  | some _ => room_update st room
      (fun r => { r with objects := multimap_insert r.objects obj.name obj })

/-- Modelled from the spec: `room_obj_del_by_ptr(room, obj)`: deletion by
identity pointer. -/
def room_obj_del_by_ptr (st : Master) (room : Int) (obj : object_t) : Master :=
  match room_get st.world room with
  | none => die st
  | some _ => room_update st room
      (fun r => { r with objects := multimap_delete_ptr r.objects obj.ptr })

/-- Modelled from the spec: `room_user_add(id, child)`: the worker joins the
user list of the room. -/
def room_user_add (st : Master) (id : Int) (pid : Int) : Master :=
  match room_get st.world id with
  | none => die st
  | some _ => room_update st id (fun r => { r with users := r.users ++ [pid] })

/-- Modelled from the spec: `room_user_del(id, child)`: the worker leaves the
user list of the room. -/
def room_user_del (st : Master) (id : Int) (pid : Int) : Master :=
  match room_get st.world id with
  | none => die st
  | some _ => room_update st id (fun r => { r with users := r.users.filter (fun p => p != pid) })

/-- Modelled from the spec: `obj_dup(obj)` (obj.c is not in src/): "make a
duplicate of an object" (obj.h): a new instance with the same fields at a
fresh address. -/
def obj_dup (st : Master) (obj : object_t) : object_t × Master :=
  ({ obj with ptr := st.next_ptr },
    if st.fault then st else { st with next_ptr := st.next_ptr + 1 })

/-! ## server.c: saving -/

/-- The constant `SAVE_INTERVAL` of server.c. -/
def SAVE_INTERVAL : Nat := 10

/-- Function `server_save_state(force)`: `saves` counts the calls of `world_save` and
`userdb_write`. -/
def server_save_state (st : Master) (force : Bool) : Master :=
  if st.fault then st
  else if !st.are_child then
    let n := (st.save_n + 1) % SAVE_INTERVAL
    if n = 0 ∨ force = true then { st with save_n := n, saves := st.saves + 1 }
    else { st with save_n := n }
  else st

/-! ## server_reqs.c: the request handlers

A handler receives `data` (the memory from the payload pointer to the end of
the receive buffer), `datalen`, and the pids of `sender` and `child`. -/

/-- Function `child_toggle_rawmode(child, cb)`. -/
def child_toggle_rawmode (env : Env) (st : Master) (child : Int) (cb : Option Nat) : Master :=
  if !st.are_child then
    let st1 := send_packet env st child REQ_RAWMODE none 0
    match hash_lookup st1.child_map child with
    | none => st1
    | some c =>
      if c.raw_mode_cb.isNone then child_update st1 child (fun c => { c with raw_mode_cb := cb })
      else child_update st1 child (fun c => { c with raw_mode_cb := none })
  else st

/-- Function `req_pass_msg`. -/
def req_pass_msg (env : Env) (data : List Nat) (datalen : Nat) (sender child : Int)
    (st : Master) : Master :=
  let st1 := send_packet env st child REQ_BCASTMSG (some data) datalen
  if child ≠ sender then send_packet env st1 child REQ_ALLDONE none 0 else st1

/-- The table `state[]` of `req_send_clientinfo`. -/
def state_names : List (List Nat) :=
  [str "INIT", str "LOGIN SCREEN", str "CHECKING CREDENTIALS", str "LOGGED IN AS USER",
   str "LOGGED IN AS ADMIN", str "ACCESS DENIED"]

/-- The read `state[i]` of `req_send_clientinfo`; the index is not checked. Inside the
table it gives the name of the state. Outside the table the behaviour is
undefined: the build decides (`env.state_oob`) whether the master stops there or
goes on with whatever bytes the read finds. -/
def state_read (env : Env) (i : Int) : Option (List Nat) :=
  if 0 ≤ i ∧ i.toNat < state_names.length then state_names[i.toNat]? else env.state_oob i

/-- Function `req_send_clientinfo`: `buf` has 128 bytes. -/
def req_send_clientinfo (env : Env) (_data : List Nat) (_datalen : Nat) (sender child : Int)
    (st : Master) : Master :=
  match hash_lookup st.child_map child with
  | none => st
  | some c =>
    match state_read env c.state with
    | none => die st
    | some nm =>
      let head := str "Client " ++ env.inet_ntoa c.addr ++ str " PID " ++ fmt_d c.pid
        ++ str " [" ++ nm ++ str "]"
      let line := match c.user with
        | some u => head ++ str " USER " ++ u
        | none => head
      let buf := line.take 127
      let tail := if sender = c.pid then str " [YOU]\n" else str "\n"
      let buf := buf ++ tail.take (128 - buf.length - 1)
      send_packet env st sender REQ_BCASTMSG (some buf) buf.length

/-- Function `req_change_state`. -/
def req_change_state (_env : Env) (data : List Nat) (datalen : Nat) (sender _child : Int)
    (st : Master) : Master :=
  if datalen = sizeof_int then
    child_update st sender (fun c => { c with state := le_int32 data })
  else st

/-- Function `req_change_user`: `strdup((char*)data)`. -/
def req_change_user (_env : Env) (data : List Nat) (_datalen : Nat) (sender _child : Int)
    (st : Master) : Master :=
  child_update st sender (fun c => { c with user := some (cstr data) })

/-- Function `req_kick_client`. -/
def req_kick_client (env : Env) (data : List Nat) (datalen : Nat) (sender child : Int)
    (st : Master) : Master :=
  if datalen ≥ sizeof_pid_t then
    let kicked_pid := le_int32 data
    if kicked_pid = child then
      let st1 := send_packet env st child REQ_KICK (some (data.drop sizeof_pid_t))
        (datalen - sizeof_pid_t)
      send_msg env st1 sender (str "Success.\n")
    else st
  else st

/-- Function `req_wait`: `sleep(10)` changes nothing in the master. -/
def req_wait (_env : Env) (_data : List Nat) (_datalen : Nat) (_sender : Int)
    (st : Master) : Master := st

/-- The line that `req_send_desc` builds in `buf` for one key of the room. -/
def desc_line (env : Env) (name : List Nat) (obj : object_t) (n_objs : Nat) : List Nat :=
  let siz := env.MSG_MAX
  if name = obj.name then
    if n_objs = 1 then
      let article := if env.is_vowel (name.headD 0) then str "an" else str "a"
      let buf := strlcat [] (str "There is ") siz
      let buf := if obj.default_article then strlcat (strlcat buf article siz) (str " ") siz
                 else buf
      let buf := strlcat buf name siz
      strlcat buf (str " here.\n") siz
    else
      let buf := strlcat [] (str "There are ") siz
      let n := (fmt_u n_objs ++ str " ").take 31
      let buf := strlcat buf n siz
      let buf := strlcat buf name siz
      strlcat buf (str "s here.\n") siz
  else []

/-- Function `req_send_desc`. -/
def req_send_desc (env : Env) (_data : List Nat) (_datalen : Nat) (sender : Int)
    (st : Master) : Master :=
  match hash_lookup st.child_map sender with
  | none => st
  | some s =>
    match room_get st.world s.room with
    | none => die st
    | some room =>
      let st1 := send_packet env st sender REQ_BCASTMSG (some room.desc) room.desc.length
      let st2 := send_packet env st1 sender REQ_PRINTNEWLINE none 0
      (multimap_iterate room.objects).foldl
        (fun acc it =>
          if !it.1.val.hidden then send_msg env acc sender (desc_line env it.1.key it.1.val it.2)
          else acc)
        st2

/-- Function `req_send_roomname`. -/
def req_send_roomname (env : Env) (_data : List Nat) (_datalen : Nat) (sender : Int)
    (st : Master) : Master :=
  match hash_lookup st.child_map sender with
  | none => st
  | some s =>
    match room_get st.world s.room with
    | none => die st
    | some room =>
      match room.name with
      | some nm =>
        let st1 := send_packet env st sender REQ_BCASTMSG (some nm) nm.length
        send_packet env st1 sender REQ_PRINTNEWLINE none 0
      | none => st

/-- Function `child_set_room`. -/
def child_set_room (st : Master) (child : Int) (id : Int) : Master :=
  room_user_add (child_update st child (fun c => { c with room := id })) id child

/-- Function `req_set_room`: the room id is read from `data` whatever `datalen` is. -/
def req_set_room (_env : Env) (data : List Nat) (_datalen : Nat) (sender : Int)
    (st : Master) : Master :=
  child_set_room st sender (le_int32 data)

/-- The first conjunct of the `if` of `req_move_room`: the destination has no
enter hook, or the hook returns true. -/
def enter_allowed (env : Env) (new : Int) (s : child_data) : Bool :=
  match env.hook_enter new with
  | none => true
  | some hook => hook new s

/-- The second conjunct of the `if` of `req_move_room`: the current room has no
leave hook, or the hook returns true. -/
def leave_allowed (env : Env) (s : child_data) : Bool :=
  match env.hook_leave s.room with
  | none => true
  | some hook => hook s.room s

/-- Function `req_move_room`: the direction is read from `data` whatever `datalen` is, and
indexes `current->adjacent` unchecked. -/
def req_move_room (env : Env) (data : List Nat) (_datalen : Nat) (sender : Int)
    (st : Master) : Master :=
  match hash_lookup st.child_map sender with
  | none => st
  | some s =>
    let dir := le_int32 data
    match room_get st.world s.room with
    | none => die st
    | some current =>
      match (if 0 ≤ dir then current.adjacent[dir.toNat]? else none) with
      | none => die st
      | some new =>
        if new = ROOM_NONE then
          let st1 := send_msg env st sender (str "You cannot go that way.\n")
          send_packet env st1 sender REQ_MOVE (some (int32_bytes 0)) sizeof_int
        else
          match room_get st.world new with
          | none => die st
          | some _ =>
            if enter_allowed env new s && leave_allowed env s then
              let st1 := room_user_del st s.room sender
              let st2 := child_set_room st1 sender new
              send_packet env st2 sender REQ_MOVE (some (int32_bytes 1)) sizeof_int
            else
              send_packet env st sender REQ_MOVE (some (int32_bytes 0)) sizeof_int

/-- Function `req_send_user`. -/
def req_send_user (env : Env) (data : List Nat) (datalen : Nat) (sender : Int)
    (st : Master) : Master :=
  if datalen ≠ 0 then
    match userdb_lookup st.userdb (some (cstr data)) with
    | some user =>
      send_packet env st sender REQ_GETUSERDATA (some (env.userdata_bytes user))
        env.sizeof_userdata
    | none => st
  else st

/-- Function `req_del_user`. -/
def req_del_user (env : Env) (data : List Nat) (datalen : Nat) (sender : Int)
    (st : Master) : Master :=
  let r := if datalen ≠ 0 then userdb_remove st (cstr data) else (false, st)
  send_packet env r.2 sender REQ_DELUSERDATA (some [if r.1 then 1 else 0]) sizeof_bool

/-- Function `req_add_user`. -/
def req_add_user (env : Env) (data : List Nat) (datalen : Nat) (sender : Int)
    (st : Master) : Master :=
  let r := if datalen = env.sizeof_userdata
    then userdb_add st (env.userdata_of_bytes (data.take datalen)) else (false, st)
  send_packet env r.2 sender REQ_ADDUSERDATA (some [if r.1 then 1 else 0]) sizeof_bool

/-- Function `req_send_geninfo`. -/
def req_send_geninfo (env : Env) (_data : List Nat) (_datalen : Nat) (sender : Int)
    (st : Master) : Master :=
  send_msg env st sender (str "Total clients: " ++ fmt_d st.num_clients ++ str "\n")

/-- Function `req_kick_always`. -/
def req_kick_always (env : Env) (data : List Nat) (datalen : Nat) (_sender child : Int)
    (st : Master) : Master :=
  send_packet env st child REQ_KICK (some data) datalen

/-- One step of the loop of `print_objlist`; the state carries `idx`. -/
def print_obj (env : Env) (sender : child_data) (n_objs : Nat) (acc : Master × Int)
    (e : multimap_list) : Master × Int :=
  match (env.obj_class e.val.cls).hook_desc with
  | none => (die acc.1, acc.2)
  | some hook =>
    let desc := hook e.val sender
    if n_objs > 1 then
      (send_msg env acc.1 sender.pid (fmt_d acc.2 ++ str ") " ++ desc ++ str "\n"), acc.2 + 1)
    else (send_msg env acc.1 sender.pid (desc ++ str "\n"), acc.2)

/-- Function `print_objlist`. -/
def print_objlist (env : Env) (st : Master) (sender : child_data) (list : List multimap_list)
    (idx : Int) (n_objs : Nat) : Master × Int :=
  list.foldl (print_obj env sender n_objs) (st, idx)

/-- Function `req_look_at`: the result of `userdb_lookup` is dereferenced unchecked. -/
def req_look_at (env : Env) (data : List Nat) (_datalen : Nat) (sender : Int)
    (st : Master) : Master :=
  match hash_lookup st.child_map sender with
  | none => st
  | some s =>
    match room_get st.world s.room with
    | none => die st
    | some room =>
      let room_list := multimap_lookup room.objects (cstr data)
      match userdb_lookup st.userdb s.user with
      | none => die st
      | some user =>
        let inv_list := multimap_lookup user.objects (cstr data)
        let n_objs := room_list.length + inv_list.length
        let r1 := if room_list ≠ [] then
            print_objlist env (send_msg env st sender (str "In room:\n")) s room_list 1 n_objs
          else (st, 1)
        let st2 := if inv_list ≠ [] then
            (print_objlist env (send_msg env r1.1 sender (str "In inventory:\n")) s inv_list
              r1.2 n_objs).1
          else r1.1
        if room_list = [] ∧ inv_list = [] then
          send_msg env st2 sender (str "I don't know what that is.\n")
        else st2

/-- One step of the loop of `req_take`. -/
def take_obj (env : Env) (s : child_data) (acc : Master) (e : multimap_list) : Master :=
  let obj := e.val
  let veto := match (env.obj_class obj.cls).hook_take with
    | some hook => !hook obj s
    | none => false
  if veto then send_msg env acc s.pid (str "You can't take that.\n")
  else
    let st1 := userdb_add_obj acc s.user obj
    let st2 := room_obj_del_by_ptr st1 s.room obj
    send_msg env st2 s.pid (str "Taken.\n")

/-- Function `req_take`. -/
def req_take (env : Env) (data : List Nat) (_datalen : Nat) (sender : Int)
    (st : Master) : Master :=
  match hash_lookup st.child_map sender with
  | none => st
  | some s =>
    match room_get st.world s.room with
    | none => die st
    | some room =>
      let iter := multimap_lookup room.objects (cstr data)
      if iter ≠ [] then
        server_save_state (iter.foldl (take_obj env s) st) false
      else send_msg env st sender (str "I don't know what that is.\n")

/-- One step of the loop of `req_inventory`. -/
def inventory_line (env : Env) (sender : Int) (acc : Master) (it : multimap_list × Nat) : Master :=
  let name := it.1.key
  let obj := it.1.val
  if name = obj.name then
    let buf := (env.format_noun name it.2 obj.default_article true).take (env.MSG_MAX - 1)
    let buf := strlcat buf (str "\n") env.MSG_MAX
    send_packet env acc sender REQ_BCASTMSG (some buf) buf.length
  else acc

/-- Function `req_inventory`: the result of `userdb_lookup` is dereferenced unchecked. -/
def req_inventory (env : Env) (_data : List Nat) (_datalen : Nat) (sender : Int)
    (st : Master) : Master :=
  match hash_lookup st.child_map sender with
  | none => st
  | some s =>
    match userdb_lookup st.userdb s.user with
    | none => die st
    | some user =>
      let st1 := send_msg env st sender (str "You currently have:\n")
      let st2 := (multimap_iterate user.objects).foldl (inventory_line env sender) st1
      if user.objects = [] then send_msg env st2 sender (str "Nothing!\n") else st2

/-- One step of the loop of `req_drop`. -/
def drop_obj (env : Env) (s : child_data) (acc : Master) (e : multimap_list) : Master :=
  let obj := e.val
  let d1 := obj_dup acc obj
  let st1 := room_obj_add d1.2 s.room d1.1
  let st2 := userdb_del_obj_by_ptr st1 s.user obj
  let veto := match (env.obj_class obj.cls).hook_drop with
    | some hook => !hook obj s
    | none => false
  if veto then
    let st3 := send_msg env st2 s.pid (str "You cannot drop that.\n")
    let d2 := obj_dup st3 obj
    let st4 := userdb_add_obj d2.2 s.user d2.1
    room_obj_del_by_ptr st4 s.room obj
  else send_msg env st2 s.pid (str "Dropped.\n")

/-- Function `req_drop`. -/
def req_drop (env : Env) (data : List Nat) (_datalen : Nat) (sender : Int)
    (st : Master) : Master :=
  match hash_lookup st.child_map sender with
  | none => st
  | some s =>
    match userdb_lookup st.userdb s.user with
    | none => st
    | some user =>
      let iter := multimap_lookup user.objects (cstr data)
      if iter = [] then send_msg env st sender (str "You don't have that.\n")
      else server_save_state (iter.foldl (drop_obj env s) st) false

/-- Function `req_listusers`. -/
def req_listusers (env : Env) (_data : List Nat) (_datalen : Nat) (sender : Int)
    (st : Master) : Master :=
  st.userdb.foldl
    (fun acc user => send_msg env acc sender
      (user.username ++ str ": priv: " ++ fmt_d user.priv ++ str " last: "
        ++ env.ctime user.last_login))
    st

/-- The delimiters `" \t"` of `strtok_r` in `req_execverb`. -/
def is_delim (b : Nat) : Bool := b == 32 || b == 9

/-- A call of a hook of the world module that may change the state of the
master (a verb handler or a raw-mode callback). -/
def call_hook (st : Master) (hook : Master → Master) : Master :=
  if st.fault then st else hook st

/-- Writes through the payload pointer: the memory from the payload pointer on
becomes `data`. -/
def poke_data (st : Master) (data : List Nat) : Master :=
  if st.fault then st else { st with packet := st.packet.take (sizeof_pid_t + 1) ++ data }

/-- Function `req_execverb`. `strtok_r` cuts the first word of `data` in place and
`all_lower` lowers it in place; a payload without a word gives a NULL token,
which `all_lower` dereferences. -/
def req_execverb (env : Env) (data : List Nat) (datalen : Nat) (sender : Int)
    (st : Master) : Master :=
  match hash_lookup st.child_map sender with
  | none => st
  | some s =>
    match s.raw_mode_cb with
    | some cb => call_hook st (env.raw_cb cb sender data datalen)
    | none =>
      let i := (data.takeWhile is_delim).length
      let word := (data.drop i).takeWhile (fun b => !is_delim b && b != 0)
      if word = [] then die st
      else
        let j := i + word.length
        let tok := word.map to_lower
        let cut := data.getD j 0 != 0
        let save := if cut then j + 1 else j
        let data1 := data.take i ++ tok ++ (if cut then 0 :: data.drop (j + 1) else data.drop j)
        let st1 := poke_data st data1
        match room_get st1.world s.room with
        | none => die st1
        | some room =>
          let found := match room.verbs.find? (fun v => v.name = tok) with
            | some v => some v
            | none => st1.world_verbs.find? (fun v => v.name = tok)
          match found with
          | none => send_msg env st1 sender (str "I don't know what that means.\n")
          | some verb =>
            let rest := cstr (data1.drop save)
            let args := if rest = [] then none else some rest
            call_hook st1 (env.hook_exec verb args sender)

/-! ## The request table and the dispatcher -/

/-- The `which` field of a request: the sessions the handler ranges over. -/
inductive which_t where
  | CHILD_NONE
  | CHILD_SENDER
  | CHILD_ALL_BUT_SENDER
  | CHILD_ALL
  deriving DecidableEq, Repr

open which_t

/-- An entry of the request table (`struct child_request`). -/
structure child_request where
  code : Nat
  havedata : Bool
  which : which_t
  handle_child : Option (Env → List Nat → Nat → Int → Int → Master → Master)
  finalize : Option (Env → List Nat → Nat → Int → Master → Master)

/-- The table `requests[]`. -/
def requests : List child_request :=
  [ ⟨REQ_NOP, false, CHILD_NONE, none, none⟩,
    ⟨REQ_BCASTMSG, true, CHILD_ALL, some req_pass_msg, none⟩,
    ⟨REQ_CHANGESTATE, true, CHILD_SENDER, some req_change_state, none⟩,
    ⟨REQ_CHANGEUSER, true, CHILD_SENDER, some req_change_user, none⟩,
    ⟨REQ_KICK, true, CHILD_ALL, some req_kick_client, none⟩,
    ⟨REQ_KICKALL, true, CHILD_ALL_BUT_SENDER, some req_kick_always, none⟩,
    ⟨REQ_LISTCLIENTS, false, CHILD_ALL, some req_send_clientinfo, some req_send_geninfo⟩,
    ⟨REQ_SETROOM, true, CHILD_NONE, none, some req_set_room⟩,
    ⟨REQ_MOVE, true, CHILD_NONE, none, some req_move_room⟩,
    ⟨REQ_GETUSERDATA, true, CHILD_NONE, none, some req_send_user⟩,
    ⟨REQ_DELUSERDATA, true, CHILD_NONE, none, some req_del_user⟩,
    ⟨REQ_ADDUSERDATA, true, CHILD_NONE, none, some req_add_user⟩,
    ⟨REQ_LOOKAT, true, CHILD_NONE, none, some req_look_at⟩,
    ⟨REQ_TAKE, true, CHILD_NONE, none, some req_take⟩,
    ⟨REQ_DROP, true, CHILD_NONE, none, some req_drop⟩,
    ⟨REQ_EXECVERB, true, CHILD_NONE, none, some req_execverb⟩,
    ⟨REQ_WAIT, false, CHILD_NONE, none, some req_wait⟩,
    ⟨REQ_GETROOMDESC, false, CHILD_NONE, none, some req_send_desc⟩,
    ⟨REQ_GETROOMNAME, false, CHILD_NONE, none, some req_send_roomname⟩,
    ⟨REQ_PRINTINVENTORY, false, CHILD_NONE, none, some req_inventory⟩,
    ⟨REQ_LISTUSERS, false, CHILD_NONE, none, some req_listusers⟩ ]

/-- The call `hash_lookup(request_map, &cmd)` after `reqmap_init`. -/
def request_lookup (cmd : Nat) : Option child_request :=
  requests.find? (fun r => r.code = cmd)

/-- Enters an invocation in the trace `calls`. -/
def log_call (st : Master) (c : call) : Master := { st with calls := st.calls ++ [c] }

/-- The call `req->handle_child(data, datalen, sender, child)`; the call is
entered in the trace. -/
def call_handle_child (env : Env) (req : child_request) (datalen : Nat) (sender child : Int)
    (st : Master) : Master :=
  if st.fault then st
  else
    match req.handle_child with
    | none => die st
    | some h =>
      h env (st.packet.drop (sizeof_pid_t + 1)) datalen sender child
        (log_call st (call.handle_child req.code sender child))

/-- The call `req->finalize(data, datalen, sender)` under `finish:`. -/
def call_finalize (env : Env) (req : child_request) (datalen : Nat) (sender : Int)
    (st : Master) : Master :=
  if st.fault then st
  else
    match req.finalize with
    | none => st
    | some f =>
      f env (st.packet.drop (sizeof_pid_t + 1)) datalen sender
        (log_call st (call.finalize req.code sender))

/-- The body of the `do ... while(1)` loop of `handle_child_req` for one record
of the client table. -/
def iterate_step (env : Env) (req : child_request) (datalen : Nat) (sender : Int)
    (acc : Master) (child : child_data) : Master :=
  if child.pid = sender then acc
  else
    match req.which with
    | CHILD_ALL => call_handle_child env req datalen sender child.pid acc
    | CHILD_ALL_BUT_SENDER => call_handle_child env req datalen sender child.pid acc
    | _ => acc

/-- The `do ... while(1)` loop of `handle_child_req` over the client table. -/
def iterate_children (env : Env) (req : child_request) (datalen : Nat) (sender : Int)
    (st : Master) : Master :=
  st.child_map.foldl (iterate_step env req datalen sender) st

/-- The per-child part of one request: the `switch` on `req->which` and the loop
over the client table, up to the label `finish:`. -/
def fan_out (env : Env) (req : child_request) (datalen : Nat) (sender : Int)
    (st : Master) : Master :=
  match req.which with
  | CHILD_SENDER => call_handle_child env req datalen sender sender st
  | CHILD_ALL =>
    iterate_children env req datalen sender (call_handle_child env req datalen sender sender st)
  | CHILD_NONE => st
  | CHILD_ALL_BUT_SENDER => iterate_children env req datalen sender st

/-- The handlers of one request: the per-child part, then the finalizer under
`finish:`. -/
def run_request (env : Env) (req : child_request) (datalen : Nat) (sender : Int)
    (st : Master) : Master :=
  call_finalize env req datalen sender (fan_out env req datalen sender st)

/-- The bytes of a packet land at the start of the static buffer `packet`; the
rest of the buffer keeps what earlier packets left there. -/
def recv (st : Master) (bytes : List Nat) : Master :=
  { st with packet := bytes ++ st.packet.drop bytes.length }

/-- The call `read(in_fd, packet, MSG_MAX)`: `none` is the error return -1, `some bytes`
a packet, of which at most `MSG_MAX` bytes are read. The result is `packet_len`
and the new state. -/
def read_packet (env : Env) (st : Master) (rd : Option (List Nat)) : Int × Master :=
  match rd with
  | none => (-1, st)
  | some bytes =>
    let got := bytes.take env.MSG_MAX
    ((got.length : Int), recv st got)

/-- The cast `(size_t)` of a `ssize_t` (64 bits). -/
def to_size_t (i : Int) : Nat := (i % 2 ^ 64).toNat

/-- Function `handle_child_req(in_fd)`: the result is the returned flag and the new state. -/
def handle_child_req (env : Env) (st : Master) (rd : Option (List Nat)) : Bool × Master :=
  let r := read_packet env st rd
  let packet_len := r.1
  let st1 := r.2
  if to_size_t packet_len < sizeof_pid_t + 1 then (false, st1)
  else
    let sender_pid := le_int32 st1.packet
    match hash_lookup st1.child_map sender_pid with
    | none => (true, st1)
    | some sender =>
      let cmd := st1.packet.getD sizeof_pid_t 0
      let datalen := to_size_t (packet_len - sizeof_pid_t - 1)
      match request_lookup cmd with
      | none => (true, send_packet env st1 sender.pid REQ_ALLDONE none 0)
      | some req =>
        let st2 := run_request env req datalen sender.pid st1
        (true, send_packet env st2 sender.pid REQ_ALLDONE none 0)

/-! ## Concrete worlds

A small build (`MSG_MAX = 64`), a world of two rooms, and two connected
workers with pids 7 and 9, used to run the handlers on concrete requests. -/

/-- A build with `MSG_MAX = 64` and a world module without hooks. -/
def env0 : Env where
  MSG_MAX := 64
  sizeof_userdata := 8
  userdata_bytes := fun u => (u.username ++ List.replicate 8 0).take 8
  userdata_of_bytes := fun b => ⟨cstr b, [], [], 0, 0, [], 0⟩
  obj_class := fun _ => ⟨none, none, some (fun o _ => o.name)⟩
  hook_enter := fun _ => none
  hook_leave := fun _ => none
  hook_exec := fun _ _ _ st => st
  raw_cb := fun _ _ _ _ st => st
  inet_ntoa := fun _ => str "10.0.0.1"
  ctime := fun _ => str "Thu Jan  1 00:00:00 1970\n"
  is_vowel := fun b => (str "aeiouAEIOU").contains b
  format_noun := fun n _ _ _ => n
  state_oob := fun _ => none

/-- The build `env0` with a world module whose object classes refuse both
taking and dropping. -/
def env_veto : Env :=
  { env0 with obj_class := fun _ =>
      ⟨some (fun _ _ => false), some (fun _ _ => false), some (fun o _ => o.name)⟩ }

/-- The build `env0` with a world module in which room 1 refuses entry. -/
def env_noenter : Env :=
  { env0 with hook_enter := fun id => if id = 1 then some (fun _ _ => false) else none }

/-- The build `env0` with a world module in which room 0 refuses to let go. -/
def env_noleave : Env :=
  { env0 with hook_leave := fun id => if id = 0 then some (fun _ _ => false) else none }

/-- An object "lamp" at address 100. -/
def lamp : object_t := ⟨100, str "lamp", 0, true, false, true, 0⟩

/-- Room 0: it holds the lamp and leads to room 1 in direction 0. -/
def hall : room_t := ⟨some (str "Hall"), str "A hall.", [1, -1], [⟨str "lamp", lamp⟩], [7, 9], []⟩

/-- Room 1: it leads back to room 0 in direction 1. -/
def yard : room_t := ⟨some (str "Yard"), str "A yard.", [-1, 0], [], [], []⟩

/-- A master with two workers (pids 7 and 9) in room 0, fresh from start-up:
room 0 holds the lamp and leads to room 1 in direction 0, the user database
has the user "alice", and the receive buffer is all zero. -/
def st0 : Master where
  are_child := false
  child_map := [⟨7, 0, 0, none, 0, none⟩, ⟨9, 0, 0, none, 0, none⟩]
  num_clients := 2
  world := [hall, yard]
  world_verbs := []
  userdb := [⟨str "alice", [], [], 1337, 0, [], 0⟩]
  save_n := 0
  saves := 0
  packet := List.replicate 65 0
  next_ptr := 1000
  sent := []
  calls := []
  fault := false
  assert_failed := false

/-- The master `st0` after worker 7 has logged in as "alice". -/
def st_alice : Master :=
  { st0 with child_map := [⟨7, 0, 3, some (str "alice"), 0, none⟩, ⟨9, 0, 0, none, 0, none⟩] }

/-- The master `st_alice` with the lamp in alice's inventory instead of room 0. -/
def st_carry : Master :=
  { st_alice with
    world := [{ hall with objects := [] }, yard]
    userdb := [⟨str "alice", [], [], 1337, 0, [⟨str "lamp", lamp⟩], 0⟩] }

/-- A worker→master packet: the pid of the sender, the request code, the payload. -/
def mk_packet (pid : Int) (cmd : Nat) (payload : List Nat) : List Nat :=
  int32_bytes pid ++ cmd :: payload

/-- The master `st0` after worker 7 has sent CHANGEUSER "ghost": its user name is
one that the user database does not hold. -/
def st_ghost : Master :=
  (handle_child_req env0 st0 (some (mk_packet 7 REQ_CHANGEUSER (str "ghost")))).2

/-- The master `st0` after worker 7 has sent NOP: the receive buffer still holds
that packet. -/
def st_nop : Master :=
  (handle_child_req env0 st0 (some (mk_packet 7 REQ_NOP []))).2

/-- The C string that a handler reads at the payload pointer of a request: the
payload up to its first NUL byte and, when the payload has none, on into what
earlier packets left in the receive buffer. -/
def payload_cstr (st : Master) (payload : List Nat) : List Nat :=
  cstr (payload ++ st.packet.drop (sizeof_pid_t + 1 + payload.length))

/-- The packets written since the trace had `n` entries. -/
def sent_since (n : Nat) (st : Master) : List sent_packet := st.sent.drop n

/-- The packets among `l` that were written to worker `pid`. -/
def sent_to (pid : Int) (l : List sent_packet) : List sent_packet :=
  l.filter (fun p => p.dest = pid)

/-- An object without its address: what structural comparison sees. -/
def obj_fields (o : object_t) : object_t := { o with ptr := 0 }

/-- The contents of a multimap up to the addresses of the objects. -/
def multimap_contents (m : multimap) : multimap :=
  m.map (fun e => ⟨e.key, obj_fields e.val⟩)

/-- The state `st'` has the packets of `st` and after them only packets that are
not an ALLDONE for worker `sender`. -/
def no_alldone_to (sender : Int) (st st' : Master) : Prop :=
  ∃ extra : List sent_packet, st'.sent = st.sent ++ extra ∧
    ∀ p ∈ extra, p.dest = sender → p.bytes.head? ≠ some REQ_ALLDONE

/-- The assumption that the hooks of the world module that run inside
`req_execverb` (verb handlers and raw-mode callbacks) send no packet themselves. -/
def hooks_send_nothing (env : Env) : Prop :=
  (∀ verb args sender st, (env.hook_exec verb args sender st).sent = st.sent) ∧
  (∀ cb sender data datalen st, (env.raw_cb cb sender data datalen st).sent = st.sent)

/-- Modelled from the spec (§4.5): the first session state, `INIT`, is the state
of a session that has just been accepted; it has index 0 in the table `state[]`. -/
def STATE_INIT : Int := 0

/-- Modelled from the spec (§4.5): the session state `LOGGED_IN_ADMIN`; it has
index 4 in the table `state[]`. -/
def STATE_ADMIN : Int := 4

/-- Modelled from the spec: `hash_insert(child_map, pidbuf, new)` (hash.h is not in
src/): the client table is indexed by worker identity, so a pid that is already
a key keeps its record. -/
def hash_insert (m : List child_data) (c : child_data) : List child_data :=
  if (hash_lookup m c.pid).isSome then m else m ++ [c]

/-- Modelled from the spec: `hash_remove(child_map, &pid)`. -/
def hash_remove (m : List child_data) (pid : Int) : List child_data :=
  m.filter (fun c => c.pid != pid)

/-- Function `new_connection_cb` of server.c, in the process that runs it: `new_sock` is
the result of `accept`, `pipes` tells whether the two channels could be made,
`addr` is the address of the client and `pid` the result of `fork`. The function
`error` ends the process; the forked worker (`pid = 0`) runs the client and exits. -/
def new_connection_cb (st : Master) (new_sock : Int) (pipes : Bool) (addr : Nat) (pid : Int) :
    Master :=
  if st.fault then st
  else if new_sock < 0 then die st
  else
    let st1 := { st with num_clients := st.num_clients + 1 }
    if !pipes then die st1
    else if pid < 0 then die st1
    else if pid = 0 then die { st1 with are_child := true, child_map := [] }
    else { st1 with child_map := hash_insert st1.child_map ⟨pid, addr, STATE_INIT, none, 0, none⟩ }

/-- The body of the loop of `handle_disconnects` for one pid returned by `waitpid`:
the record is looked up and used unchecked. -/
def reap_child (st : Master) (pid : Int) : Master :=
  if st.fault then st
  else
    match hash_lookup st.child_map pid with
    | none => die st
    | some child =>
      let st1 := room_user_del st child.room child.pid
      if st1.fault then st1
      else { st1 with num_clients := st1.num_clients - 1
                      child_map := hash_remove st1.child_map pid }

/-- Function `handle_disconnects` of server.c: `reaped` lists the positive pids that
`waitpid` returns before it returns a value that is not positive. -/
def handle_disconnects (st : Master) (reaped : List Int) : Master :=
  reaped.foldl reap_child st

/-- What the event loop of the master does in one step. -/
inductive event where
  | accept (new_sock : Int) (pipes : Bool) (addr : Nat) (pid : Int)
  | reap (reaped : List Int)
  | request (rd : Option (List Nat))

/-- One step of the event loop; a master that has stopped makes no step. -/
def step (env : Env) (st : Master) (ev : event) : Master :=
  if st.fault then st
  else
    match ev with
    | event.accept new_sock pipes addr pid => new_connection_cb st new_sock pipes addr pid
    | event.reap reaped => handle_disconnects st reaped
    | event.request rd => (handle_child_req env st rd).2

/-- What the operating system guarantees for a step: `fork` returns a pid that no
worker still in the client table has (a pid is free again only once the worker
has been reaped), and `waitpid` returns each exited worker once; the workers
reaped are in the client table. -/
def admissible (st : Master) : event → Prop
  | event.accept _ _ _ pid => hash_lookup st.child_map pid = none
  | event.reap reaped =>
    reaped.Nodup ∧ ∀ pid ∈ reaped, pid ∈ st.child_map.map (fun c => c.pid)
  | event.request _ => True

instance admissible_decidable (st : Master) (ev : event) : Decidable (admissible st ev) := by
  cases ev <;> unfold admissible <;> infer_instance

/-- The master states that the event loop reaches from the state `init`. -/
inductive reachable (env : Env) (init : Master) : Master → Prop where
  | init : reachable env init init
  | step (st : Master) (ev : event) :
    reachable env init st → admissible st ev → reachable env init (step env st ev)

/-- The pids of the records of the client table. -/
def client_pids (st : Master) : List Int := st.child_map.map (fun c => c.pid)

/-- The client counter and the pids of the client table. -/
def clients (st : Master) : Int × List Int := (st.num_clients, client_pids st)

/-- The master before the first connection: no worker, counter 0. -/
def st_init : Master := { st0 with child_map := [], num_clients := 0 }

/-! ## Components of the state that requests leave alone -/

/-- The assumption that the hooks of the world module that run inside
`req_execverb` (verb handlers and raw-mode callbacks) leave the component `π` of
the master state alone. -/
def hooks_keep {α : Type} (env : Env) (π : Master → α) : Prop :=
  (∀ verb args sender st, π (env.hook_exec verb args sender st) = π st) ∧
  (∀ cb sender data datalen st, π (env.raw_cb cb sender data datalen st) = π st)

/-- The steps out of which the request handlers are made leave the component `π`
of the master state alone; for `send_packet` this is asked only of the calls
with a payload shorter than `B` and of the calls with `REQ_BCASTMSG`. -/
structure frame {α : Type} (env : Env) (B : Nat) (π : Master → α) : Prop where
  k_die : ∀ st, π (die st) = π st
  k_send : ∀ st child cmd data n, (n < B ∨ cmd = REQ_BCASTMSG) →
    π (send_packet env st child cmd data n) = π st
  k_child : ∀ st pid f, (∀ c, (f c).pid = c.pid) → π (child_update st pid f) = π st
  k_room : ∀ st id f, π (room_update st id f) = π st
  k_inventory : ∀ st n f, π (userdb_set_objects st n f) = π st
  k_user_remove : ∀ st n, π (userdb_remove st n).2 = π st
  k_user_add : ∀ st u, π (userdb_add st u).2 = π st
  k_dup : ∀ st o, π (obj_dup st o).2 = π st
  k_save : ∀ st f, π (server_save_state st f) = π st
  k_poke : ∀ st d, π (poke_data st d) = π st
  k_recv : ∀ st b, π (recv st b) = π st

/-- For a sequence of calls of `server_save_state` with the given force flags, from
the state `st`: for each call, whether it wrote the world file and the user
database file (the counter `saves` of the writes went up). -/
def save_trace : Master → List Bool → List Bool
  | _, [] => []
  | st, force :: forces =>
    decide ((server_save_state st force).saves ≠ st.saves)
      :: save_trace (server_save_state st force) forces

/-- The state after a sequence of calls of `server_save_state`. -/
def save_run (st : Master) (forces : List Bool) : Master :=
  forces.foldl server_save_state st

/-- The master `st0` after worker 9 has sent NOP with the eight bytes "XXXXXXXX":
the receive buffer still holds that packet. -/
def st_stale : Master :=
  (handle_child_req env0 st0 (some (mk_packet 9 REQ_NOP (str "XXXXXXXX")))).2

/-! ## server.c: the command line -/

/-- The constant `DEFAULT_PORT` of server.c. -/
def DEFAULT_PORT : Nat := 1234

/-- The static variables of server.c that `parse_args` sets; a `char *` that is NULL
is `none`. The trace `arg_reads` lists the indices `k` of the reads `argv[k]` that
fetch the value of an option (`argv[++i]`), in order. -/
structure cmdline where
  autoconfig : Bool
  autouser : Option (List Nat)
  autopass : Option (List Nat)
  data_prefix : Option (List Nat)
  port : Nat
  world_module : Option (List Nat)
  arg_reads : List Nat
  deriving DecidableEq, Repr

/-- The static variables at the start of `server_main`. -/
def cmdline_init : cmdline where
  autoconfig := false
  autouser := none
  autopass := none
  data_prefix := none
  port := DEFAULT_PORT
  world_module := some (str "build/worlds/dunnet.so")
  arg_reads := []

/-- How `parse_args` ends: it returns to `server_main`; or `print_help` prints the usage
text and calls `exit(0)`; or "Unknown argument" is printed and `exit(0)` is called;
or the process stops on a fault (`strtol` of a NULL pointer, a read outside the
array `argv`). The last case is a loop bound that is used up. -/
inductive parse_result where
  | returned (c : cmdline)
  | usage (c : cmdline)
  | unknown_argument (c : cmdline)
  | fault (c : cmdline)
  | out_of_fuel
  deriving DecidableEq, Repr

/-- The read `argv[k]`: the array `argv` has the `argc` words and then a NULL pointer
(`argv[argc]`); an index beyond that is outside the array. -/
def argv_read (argv : List (List Nat)) (k : Nat) : Option (Option (List Nat)) :=
  if k < argv.length then some argv[k]?
  else if k = argv.length then some none
  else none

/-- Enters the read `argv[k]` of the value of an option in the trace. -/
def log_read (c : cmdline) (k : Nat) : cmdline := { c with arg_reads := c.arg_reads ++ [k] }

/-- The value stored in the `uint16_t port`. -/
def to_uint16 (i : Int) : Nat := (i % 2 ^ 16).toNat

/-- The `for` loop of `parse_args` from the index `i` on; `argc` is the length of `argv`,
and `strtol` is the library function with base 10. -/
def parse_loop (strtol : List Nat → Int) (argv : List (List Nat)) :
    Nat → Nat → cmdline → parse_result
  | 0, _, _ => parse_result.out_of_fuel
  | fuel + 1, i, c =>
    if ¬ i < argv.length then parse_result.returned c
    else
      let arg := argv.getD i []
      if arg.headD 0 = 45 then
        if (cstr arg).length > 1 then
          let ch := arg.getD 1 0
          if ch = 104 ∨ ch = 63 then parse_result.usage c
          else if ch = 97 then
            let c1 := { c with autoconfig := true }
            if i + 2 > argv.length then parse_result.usage c1
            else
              match argv_read argv (i + 1), argv_read argv (i + 2) with
              | some user, some pass =>
                parse_loop strtol argv fuel (i + 3)
                  { log_read (log_read c1 (i + 1)) (i + 2) with
                    autouser := user, autopass := pass }
              | _, _ => parse_result.fault (log_read (log_read c1 (i + 1)) (i + 2))
          else if ch = 100 then
            if i + 1 > argv.length then parse_result.usage c
            else
              match argv_read argv (i + 1) with
              | some v =>
                parse_loop strtol argv fuel (i + 2) { log_read c (i + 1) with data_prefix := v }
              | none => parse_result.fault (log_read c (i + 1))
          else if ch = 112 then
            if i + 1 > argv.length then parse_result.usage c
            else
              match argv_read argv (i + 1) with
              | some (some v) =>
                parse_loop strtol argv fuel (i + 2)
                  { log_read c (i + 1) with port := to_uint16 (strtol v) }
              | _ => parse_result.fault (log_read c (i + 1))
          else if ch = 119 then
            if i + 1 > argv.length then parse_result.usage c
            else
              match argv_read argv (i + 1) with
              | some v =>
                parse_loop strtol argv fuel (i + 2) { log_read c (i + 1) with world_module := v }
              | none => parse_result.fault (log_read c (i + 1))
          else parse_result.usage c
        else parse_loop strtol argv fuel (i + 1) c
      else parse_result.unknown_argument c

/-- Function `parse_args(argc, argv)` of server.c. -/
def parse_args (strtol : List Nat → Int) (argv : List (List Nat)) : parse_result :=
  parse_loop strtol argv (argv.length + 1) 1 cmdline_init

/-- The static variables at the end of `parse_args`, however it ends. -/
def result_cmdline : parse_result → Option cmdline
  | parse_result.returned c => some c
  | parse_result.usage c => some c
  | parse_result.unknown_argument c => some c
  | parse_result.fault c => some c
  | parse_result.out_of_fuel => none

/-- A command line word that is an option with the letter `ch`: it starts with `-`
and has at least two characters, the second being `ch`. -/
def is_option (arg : List Nat) (ch : Nat) : Prop :=
  arg.headD 0 = 45 ∧ (cstr arg).length > 1 ∧ arg.getD 1 0 = ch

/-- The listing line of `GETROOMDESC` in the words of the spec: "There is X here." for
the count 1, with "a " or "an " (by `is_vowel` of the first letter) before X when
the object asks for an article, and "There are N Xs here." otherwise. -/
def spec_listing_line (is_vowel : Nat → Bool) (name : List Nat) (article : Bool) (n : Nat) :
    List Nat :=
  if n = 1 then
    str "There is "
      ++ (if article then (if is_vowel (name.headD 0) then str "an " else str "a ") else [])
      ++ name ++ str " here.\n"
  else str "There are " ++ fmt_u n ++ str " " ++ name ++ str "s here.\n"

/-- The room `hall` with the lamp filed under its name and under the alias "light",
and with a hidden object "key". -/
def hall_alias : room_t :=
  { hall with objects :=
      [⟨str "lamp", lamp⟩, ⟨str "light", lamp⟩,
       ⟨str "key", ⟨101, str "key", 0, true, true, true, 0⟩⟩] }

/-- The master `st0` with the room `hall_alias` as room 0. -/
def st_alias : Master := { st0 with world := [hall_alias, yard] }

/-- The master `st0` after worker 9 has sent CHANGESTATE with the state 6. -/
def st_peer6 : Master :=
  (handle_child_req env0 st0 (some (mk_packet 9 REQ_CHANGESTATE [6, 0, 0, 0]))).2

/-- The build `env0` with `MSG_MAX = 256`. -/
def env_wide : Env := { env0 with MSG_MAX := 256 }

/-- The master `st0` in the build `env_wide`, after worker 7 has sent CHANGEUSER with a
name of 100 letters "x". -/
def st_longname : Master :=
  (handle_child_req env_wide { st0 with packet := List.replicate 257 0 }
    (some (mk_packet 7 REQ_CHANGEUSER (List.replicate 100 120 ++ [0])))).2

/-- The descriptor of a session in the words of the spec: address, pid, the name of the
state, the user name if there is one, the mark "[YOU]" on the descriptor of the
sender, and a newline. -/
def client_descriptor (env : Env) (you : Bool) (c : child_data) : List Nat :=
  str "Client " ++ env.inet_ntoa c.addr ++ str " PID " ++ fmt_d c.pid ++ str " ["
    ++ state_names.getD c.state.toNat [] ++ str "]"
    ++ (match c.user with
        | some u => str " USER " ++ u
        | none => [])
    ++ (if you then str " [YOU]\n" else str "\n")

/-- The per-child invocations among the entries of a trace of calls. -/
def handle_calls (l : List call) : List call :=
  l.filter (fun c => match c with
    | call.handle_child _ _ _ => true
    | call.finalize _ _ => false)

/-- The per-child handler invocations that `handle_child_req` makes for one request
packet: the entries `handle_child` that the call adds to the trace, in order. -/
def invocations (env : Env) (st : Master) (pkt : List Nat) : List call :=
  handle_calls ((handle_child_req env st (some pkt)).2.calls.drop st.calls.length)

/-- The master `st_alice` with the room `hall_alias` as room 0: the lamp is filed under
its name and under the alias "light". -/
def st_alice_alias : Master := { st_alice with world := [hall_alias, yard] }

/-- The master `st_alice_alias` after alice has sent TAKE "lamp". -/
def st_take_lamp : Master :=
  (handle_child_req env0 st_alice_alias (some (mk_packet 7 REQ_TAKE (str "lamp" ++ [0])))).2

/-- The master `st_alice_alias` after alice has sent TAKE "light". -/
def st_take_light : Master :=
  (handle_child_req env0 st_alice_alias (some (mk_packet 7 REQ_TAKE (str "light" ++ [0])))).2

/-- The build `env0`, except that a read of `state[]` outside the table does not stop the
master but comes back with the bytes "?". -/
def env_reads : Env := { env0 with state_oob := fun _ => some (str "?") }

/-- The master `st_alice` with the lamp in alice's inventory, filed under its name and
under the alias "light". -/
def st_carry_alias : Master :=
  { st_alice with
    world := [{ hall with objects := [] }, yard]
    userdb := [⟨str "alice", [], [], 1337, 0, [⟨str "lamp", lamp⟩, ⟨str "light", lamp⟩], 0⟩] }

/-! ## Theorems -/

/-! ### Bytes, `send_packet` and the dispatcher: basic facts -/

theorem int32_bytes_length (i : Int) : (int32_bytes i).length = 4 := rfl

theorem le_int32_int32_bytes (i : Int) (hlo : -2 ^ 31 ≤ i) (hhi : i < 2 ^ 31) (rest : List Nat) :
    le_int32 (int32_bytes i ++ rest) = i := by
  unfold le_int32 int32_bytes
  simp only [List.cons_append, List.nil_append, List.take_succ_cons, List.take_zero, le_nat]
  generalize hn : (i % 2 ^ 32).toNat = n
  have hn1 : (n : Int) = i % 2 ^ 32 := by
    rw [← hn]; exact Int.toNat_of_nonneg (Int.emod_nonneg _ (by norm_num))
  have hn2 : n < 2 ^ 32 := by
    have : i % 2 ^ 32 < 2 ^ 32 := Int.emod_lt_of_pos _ (by norm_num)
    omega
  have hval : n % 256 % 256 + 256 * (n / 256 % 256 % 256 + 256 * (n / 65536 % 256 % 256
      + 256 * (n / 16777216 % 256 % 256 + 256 * 0))) = n := by omega
  rw [hval]
  split
  · omega
  · omega

theorem to_size_t_natCast (n : Nat) (h : n < 2 ^ 64) : to_size_t (n : Int) = n := by
  unfold to_size_t
  have : ((n : Int) % 2 ^ 64) = n := Int.emod_eq_of_lt (by omega) (by exact_mod_cast h)
  rw [this]; simp

theorem send_packet_small (env : Env) (st : Master) (child : Int) (cmd : Nat) (d : List Nat)
    (n : Nat) (hf : st.fault = false) (hn : n < env.MSG_MAX) (hd : n ≤ d.length) :
    send_packet env st child cmd (some d) n
      = { st with sent := st.sent ++ [⟨child, cmd :: d.take n⟩] } := by
  have h1 : ¬ (d.length < n) := by omega
  have h2 : ¬ (n + 1 > env.MSG_MAX) := by omega
  simp [send_packet, send_packet_fuel, hf, h1, h2, hn, write_packet]

theorem send_packet_none (env : Env) (st : Master) (child : Int) (cmd : Nat)
    (hf : st.fault = false) (hM : 1 ≤ env.MSG_MAX) :
    send_packet env st child cmd none 0
      = { st with sent := st.sent ++ [⟨child, [cmd]⟩] } := by
  have h1 : 0 < env.MSG_MAX := by omega
  have h2 : ¬ (1 > env.MSG_MAX) := by omega
  simp [send_packet, send_packet_fuel, hf, h1, h2, write_packet]

theorem send_msg_small (env : Env) (st : Master) (child : Int) (msg : List Nat)
    (hf : st.fault = false) (hn : msg.length < env.MSG_MAX) :
    send_msg env st child msg
      = { st with sent := st.sent ++ [⟨child, REQ_BCASTMSG :: msg⟩] } := by
  unfold send_msg
  rw [send_packet_small env st child _ msg msg.length hf hn (le_refl _)]
  simp


theorem send_packet_fuel_small (env : Env) (child : Int) (st : Master) (p : List Nat) (n : Nat)
    (hf : st.fault = false) (hn : n + 1 ≤ env.MSG_MAX) (hp : n ≤ p.length) :
    send_packet_fuel env child REQ_BCASTMSG 1 st (some p) n
      = { st with sent := st.sent ++ [⟨child, REQ_BCASTMSG :: p.take n⟩] } := by
  have h1 : ¬ (p.length < n) := by omega
  have h2 : ¬ (n + 1 > env.MSG_MAX) := by omega
  simp [send_packet_fuel, hf, h1, h2, write_packet]

theorem chunk_split (x : List Nat) (a k : Nat) :
    x.take (min a k) ++ (x.take a).drop k = x.take a := by
  have : x.take (min a k) = (x.take a).take k := by
    rw [List.take_take, Nat.min_comm]
  rw [this, List.take_append_drop]

theorem send_split_spec (env : Env) (child : Int) (d : List Nat) (datalen : Nat)
    (hM : 2 ≤ env.MSG_MAX) (hd : datalen ≤ d.length) :
    ∀ (fuel : Nat) (st : Master) (off : Nat), st.fault = false → datalen - off < fuel →
      ∃ pkts : List sent_packet,
        send_split (fun s p n => send_packet_fuel env child REQ_BCASTMSG 1 s (some p) n)
            env.MSG_MAX fuel st d off datalen
          = { st with sent := st.sent ++ pkts } ∧
        (∀ p ∈ pkts, p.dest = child ∧ p.bytes.head? = some REQ_BCASTMSG ∧
            p.bytes.length ≤ env.MSG_MAX) ∧
        (pkts.map (fun p => p.bytes.tail)).flatten = (d.take datalen).drop off ∧
        (off < datalen → 1 ≤ pkts.length) ∧
        (off + (env.MSG_MAX - 1) < datalen → 2 ≤ pkts.length) := by
  intro fuel
  induction fuel with
  | zero => intro st off _ h; omega
  | succ fuel ih =>
    intro st off hf hfuel
    by_cases hlt : off < datalen
    · have hn : min (datalen - off) (env.MSG_MAX - 1) + 1 ≤ env.MSG_MAX := by omega
      have hp : min (datalen - off) (env.MSG_MAX - 1) ≤ (d.drop off).length := by
        rw [List.length_drop]; omega
      have hstep := send_packet_fuel_small env child st (d.drop off) _ hf hn hp
      obtain ⟨pkts, hres, hall, hcat, h1, h2⟩ :=
        ih { st with sent := st.sent ++
              [⟨child, REQ_BCASTMSG :: (d.drop off).take (min (datalen - off) (env.MSG_MAX - 1))⟩] }
          (off + (env.MSG_MAX - 1)) hf (by omega)
      refine ⟨⟨child, REQ_BCASTMSG :: (d.drop off).take (min (datalen - off) (env.MSG_MAX - 1))⟩
                :: pkts, ?_, ?_, ?_, ?_, ?_⟩
      · simp only [send_split, hlt, if_true, hstep, hres]
        simp
      · intro p hpmem
        rcases List.mem_cons.mp hpmem with rfl | hpm
        · refine ⟨rfl, rfl, ?_⟩
          simp only [List.length_cons, List.length_take, List.length_drop]
          omega
        · exact hall p hpm
      · simp only [List.map_cons, List.flatten_cons, List.tail_cons, hcat]
        rw [List.drop_take, List.drop_take, ← List.drop_drop]
        have := chunk_split (d.drop off) (datalen - off) (env.MSG_MAX - 1)
        rw [List.drop_take] at this
        rw [show datalen - (off + (env.MSG_MAX - 1)) = datalen - off - (env.MSG_MAX - 1) by omega]
        exact this
      · intro _; simp
      · intro h; have := h1 h; simp; omega
    · refine ⟨[], ?_, ?_, ?_, ?_, ?_⟩
      · simp [send_split, hlt]
      · intro p hp; cases hp
      · simp only [List.map_nil, List.flatten_nil]
        rw [List.drop_take]
        have : datalen - off = 0 := by omega
        simp [this]
      · intro h; exact absurd h hlt
      · intro h; omega


theorem hash_lookup_pid {m : List child_data} {pid : Int} {s : child_data}
    (h : hash_lookup m pid = some s) : s.pid = pid := by
  unfold hash_lookup at h
  have := List.find?_some h
  simpa using this

theorem mk_packet_length (pid : Int) (cmd : Nat) (payload : List Nat) :
    (mk_packet pid cmd payload).length = sizeof_pid_t + 1 + payload.length := by
  simp [mk_packet, int32_bytes_length, sizeof_pid_t]; omega

theorem read_packet_fst (env : Env) (st : Master) (pkt : List Nat) (h : pkt.length ≤ env.MSG_MAX) :
    (read_packet env st (some pkt)).1 = (pkt.length : Int) := by
  simp [read_packet, List.take_of_length_le h]

theorem read_packet_snd (env : Env) (st : Master) (pkt : List Nat) (h : pkt.length ≤ env.MSG_MAX) :
    (read_packet env st (some pkt)).2 = recv st pkt := by
  simp [read_packet, List.take_of_length_le h]

theorem recv_data (st : Master) (sender : Int) (cmd : Nat) (payload : List Nat) :
    (recv st (mk_packet sender cmd payload)).packet.drop (sizeof_pid_t + 1)
      = payload ++ st.packet.drop (sizeof_pid_t + 1 + payload.length) := by
  simp [recv, mk_packet, int32_bytes, sizeof_pid_t]
  congr 1
  omega

theorem handle_child_req_known (env : Env) (st : Master) (sender : Int) (cmd : Nat)
    (payload : List Nat) (req : child_request) (s : child_data)
    (hlo : -2 ^ 31 ≤ sender) (hhi : sender < 2 ^ 31)
    (hs : hash_lookup st.child_map sender = some s)
    (hlen : sizeof_pid_t + 1 + payload.length ≤ env.MSG_MAX) (hM : env.MSG_MAX < 2 ^ 64)
    (hreq : request_lookup cmd = some req) :
    handle_child_req env st (some (mk_packet sender cmd payload)) =
      (true, send_packet env
        (run_request env req payload.length sender (recv st (mk_packet sender cmd payload)))
        sender REQ_ALLDONE none 0) := by
  have hl := mk_packet_length sender cmd payload
  have hle : (mk_packet sender cmd payload).length ≤ env.MSG_MAX := by omega
  have hspid := hash_lookup_pid hs
  unfold handle_child_req
  simp only [read_packet_fst env st _ hle, read_packet_snd env st _ hle]
  have h1 : ¬ (to_size_t ((mk_packet sender cmd payload).length : Int) < sizeof_pid_t + 1) := by
    rw [to_size_t_natCast _ (by omega)]; omega
  have h2 : le_int32 (recv st (mk_packet sender cmd payload)).packet = sender := by
    unfold recv mk_packet
    simp only []
    rw [List.append_assoc]
    exact le_int32_int32_bytes sender hlo hhi _
  have h3 : (recv st (mk_packet sender cmd payload)).packet.getD sizeof_pid_t 0 = cmd := by
    simp [recv, mk_packet, int32_bytes, sizeof_pid_t]
  have h4 : to_size_t (((mk_packet sender cmd payload).length : Int) - (sizeof_pid_t : Int) - 1)
      = payload.length := by
    rw [hl]
    have : ((sizeof_pid_t + 1 + payload.length : Nat) : Int) - (sizeof_pid_t : Int) - 1
        = (payload.length : Int) := by push_cast; ring
    rw [this, to_size_t_natCast _ (by omega)]
  have h5 : (recv st (mk_packet sender cmd payload)).child_map = st.child_map := rfl
  rw [if_neg h1]
  simp only [h2, h5, hs, h3, hreq, h4, hspid]

/-! ### C3: splitting of broadcast messages -/

/-- C3: for a build with `MSG_MAX ≥ 2`, `send_packet` with `cmd = REQ_BCASTMSG` on a
non-null payload of any length returns (the master has not faulted and the
recursion has not run out of depth), changes nothing but the trace of packets,
and appends packets that all go to `child`, all start with the `REQ_BCASTMSG`
byte and are at most `MSG_MAX` bytes long; their payloads concatenated in write
order are the original payload; there is at least one packet, and there are
several exactly when the payload is longer than `MSG_MAX - 1`. -/
theorem send_packet_bcast_split (env : Env) (hM : 2 ≤ env.MSG_MAX) (st : Master)
    (hf : st.fault = false) (child : Int) (payload : List Nat) :
    ∃ pkts : List sent_packet,
      send_packet env st child REQ_BCASTMSG (some payload) payload.length
        = { st with sent := st.sent ++ pkts } ∧
      (send_packet env st child REQ_BCASTMSG (some payload) payload.length).fault = false ∧
      (∀ p ∈ pkts, p.dest = child ∧ p.bytes.head? = some REQ_BCASTMSG ∧
          p.bytes.length ≤ env.MSG_MAX) ∧
      (pkts.map (fun p => p.bytes.tail)).flatten = payload ∧
      1 ≤ pkts.length ∧
      (2 ≤ pkts.length ↔ env.MSG_MAX - 1 < payload.length) := by
  by_cases hsplit : payload.length + 1 > env.MSG_MAX
  · obtain ⟨pkts, hres, hall, hcat, h1, h2⟩ :=
      send_split_spec env child payload payload.length hM (le_refl _)
        (payload.length + 1) st 0 hf (by omega)
    have heq : send_packet env st child REQ_BCASTMSG (some payload) payload.length
        = { st with sent := st.sent ++ pkts } := by
      rw [← hres]
      simp [send_packet, send_packet_fuel, hf, hsplit]
    refine ⟨pkts, heq, ?_, hall, ?_, ?_, ?_⟩
    · rw [heq]; exact hf
    · simpa using hcat
    · exact h1 (by omega)
    · constructor
      · intro _; omega
      · intro _; exact h2 (by omega)
  · have hlt : payload.length < env.MSG_MAX := by omega
    have heq := send_packet_small env st child REQ_BCASTMSG payload payload.length hf hlt
      (le_refl _)
    refine ⟨[⟨child, REQ_BCASTMSG :: payload.take payload.length⟩], heq, ?_, ?_, ?_, ?_, ?_⟩
    · rw [heq]; exact hf
    · intro p hp
      rw [List.mem_singleton] at hp
      subst hp
      refine ⟨rfl, rfl, ?_⟩
      simp only [List.length_cons, List.length_take]
      omega
    · simp
    · simp
    · constructor
      · intro h; simp at h
      · intro h; omega

/-- C3, witness: a payload of 200 bytes under `MSG_MAX = 64`. -/
theorem send_packet_bcast_split_witness :
    2 ≤ env0.MSG_MAX ∧ st0.fault = false ∧
    ∃ pkts : List sent_packet,
      send_packet env0 st0 7 REQ_BCASTMSG (some (List.replicate 200 65))
          (List.replicate 200 65).length
        = { st0 with sent := st0.sent ++ pkts } ∧
      (send_packet env0 st0 7 REQ_BCASTMSG (some (List.replicate 200 65))
          (List.replicate 200 65).length).fault = false ∧
      (∀ p ∈ pkts, p.dest = 7 ∧ p.bytes.head? = some REQ_BCASTMSG ∧
          p.bytes.length ≤ env0.MSG_MAX) ∧
      (pkts.map (fun p => p.bytes.tail)).flatten = List.replicate 200 65 ∧
      1 ≤ pkts.length ∧
      (2 ≤ pkts.length ↔ env0.MSG_MAX - 1 < (List.replicate 200 65).length) :=
  ⟨by decide, rfl, send_packet_bcast_split env0 (by decide) st0 rfl 7 (List.replicate 200 65)⟩
/-! ### Shared facts about the world, the client table and the user database -/

theorem hash_lookup_mem {m : List child_data} {pid : Int} {s : child_data}
    (h : hash_lookup m pid = some s) : pid ∈ m.map (fun c => c.pid) := by
  have h1 := hash_lookup_pid h
  unfold hash_lookup at h
  have h2 := List.mem_of_find?_eq_some h
  rw [← h1]
  exact List.mem_map_of_mem _ h2

theorem room_get_nonneg {w : List room_t} {id : Int} {r : room_t}
    (h : room_get w id = some r) : 0 ≤ id := by
  unfold room_get at h
  by_contra hneg
  simp [hneg] at h

theorem room_get_modify_same (w : List room_t) (id : Int) (r : room_t) (f : room_t → room_t)
    (h : room_get w id = some r) : room_get (w.modify f id.toNat) id = some (f r) := by
  have h0 := room_get_nonneg h
  unfold room_get at h ⊢
  simp only [h0, if_true] at h ⊢
  rw [List.getElem?_modify_eq, h]
  rfl

theorem room_get_modify_other (w : List room_t) (id id' : Int) (f : room_t → room_t)
    (h0 : 0 ≤ id) (hne : id ≠ id') : room_get (w.modify f id.toNat) id' = room_get w id' := by
  unfold room_get
  by_cases h' : 0 ≤ id'
  · simp only [h', if_true]
    rw [List.getElem?_modify_ne]
    omega
  · simp [h']

theorem room_update_eq (st : Master) (id : Int) (f : room_t → room_t) (hf : st.fault = false)
    (h0 : 0 ≤ id) : room_update st id f = { st with world := st.world.modify f id.toNat } := by
  simp [room_update, hf, h0]

theorem child_update_eq (st : Master) (pid : Int) (f : child_data → child_data)
    (hf : st.fault = false) :
    child_update st pid f
      = { st with child_map := st.child_map.map (fun c => if c.pid = pid then f c else c) } := by
  simp [child_update, hf]

theorem hash_lookup_map_update (m : List child_data) (pid : Int) (f : child_data → child_data)
    (hpid : ∀ c, (f c).pid = c.pid) (q : Int) :
    hash_lookup (m.map (fun c => if c.pid = pid then f c else c)) q
      = (hash_lookup m q).map (fun c => if c.pid = pid then f c else c) := by
  unfold hash_lookup
  rw [List.find?_map]
  congr 2
  funext c
  simp only [Function.comp]
  by_cases h : c.pid = pid <;> simp [h, hpid]

theorem userdb_lookup_map_update (db : List userdata_t) (uname : List Nat)
    (f : multimap → multimap) (q : List Nat) :
    userdb_lookup (db.map (fun u => if u.username = uname then { u with objects := f u.objects }
        else u)) (some q)
      = (userdb_lookup db (some q)).map (fun u => if u.username = uname
          then { u with objects := f u.objects } else u) := by
  unfold userdb_lookup
  simp only []
  rw [List.find?_map]
  congr 2
  funext u
  simp only [Function.comp]
  by_cases h : u.username = uname <;> simp [h]

theorem userdb_lookup_name {db : List userdata_t} {n : List Nat} {u : userdata_t}
    (h : userdb_lookup db (some n) = some u) : u.username = n := by
  unfold userdb_lookup at h
  have := List.find?_some h
  simpa using this

theorem cstr_terminated (noun rest : List Nat) (h : ∀ b ∈ noun, b ≠ 0) :
    cstr (noun ++ 0 :: rest) = noun := by
  unfold cstr
  induction noun with
  | nil => simp
  | cons b bs ih =>
    have hb : b ≠ 0 := h b (List.mem_cons_self _ _)
    have hbs : ∀ x ∈ bs, x ≠ 0 := fun x hx => h x (List.mem_cons_of_mem _ hx)
    simp [List.takeWhile_cons, hb, ih hbs]

theorem int32_bytes_take (i : Int) : (int32_bytes i).take 4 = int32_bytes i := rfl

theorem le_int32_dir (d : Nat) (hd : (d : Int) < 2 ^ 31) (rest : List Nat) :
    le_int32 (int32_bytes (d : Int) ++ rest) = (d : Int) :=
  le_int32_int32_bytes _ (by have : (0 : Int) ≤ d := Int.natCast_nonneg d; omega) hd rest

theorem server_save_state_world (st : Master) (force : Bool) :
    (server_save_state st force).world = st.world := by
  simp only [server_save_state]; split_ifs <;> rfl

theorem server_save_state_userdb (st : Master) (force : Bool) :
    (server_save_state st force).userdb = st.userdb := by
  simp only [server_save_state]; split_ifs <;> rfl

theorem server_save_state_sent (st : Master) (force : Bool) :
    (server_save_state st force).sent = st.sent := by
  simp only [server_save_state]; split_ifs <;> rfl

theorem server_save_state_fault (st : Master) (force : Bool) :
    (server_save_state st force).fault = st.fault := by
  simp only [server_save_state]; split_ifs <;> rfl

theorem server_save_state_child_map (st : Master) (force : Bool) :
    (server_save_state st force).child_map = st.child_map := by
  simp only [server_save_state]; split_ifs <;> rfl

theorem server_save_state_packet (st : Master) (force : Bool) :
    (server_save_state st force).packet = st.packet := by
  simp only [server_save_state]; split_ifs <;> rfl

theorem server_save_state_next_ptr (st : Master) (force : Bool) :
    (server_save_state st force).next_ptr = st.next_ptr := by
  simp only [server_save_state]; split_ifs <;> rfl

theorem run_request_finalize (env : Env) (code : Nat) (hd : Bool)
    (f : Env → List Nat → Nat → Int → Master → Master) (n : Nat) (sender : Int) (st : Master)
    (hf : st.fault = false) :
    run_request env ⟨code, hd, which_t.CHILD_NONE, none, some f⟩ n sender st
      = f env (st.packet.drop (sizeof_pid_t + 1)) n sender
          (log_call st (call.finalize code sender)) := by
  simp [run_request, fan_out, call_finalize, hf]

theorem sent_to_append (pid : Int) (l1 l2 : List sent_packet) :
    sent_to pid (l1 ++ l2) = sent_to pid l1 ++ sent_to pid l2 := by
  simp [sent_to]

/-! ### C1: the completion marker -/

/-- C1 (failing input): worker 7 sets its user name to "ghost", a name that is not in
the user database, and then sends LOOKAT "lamp". Both packets are well formed and
the sender is in the client table, yet `req_look_at` dereferences the NULL result
of `userdb_lookup`: the master stops, and no packet at all, in particular no
ALLDONE, is written for the LOOKAT request. -/
theorem lookat_unknown_user_no_alldone :
    st_ghost.fault = false ∧
    hash_lookup st_ghost.child_map 7 = some ⟨7, 0, 0, some (str "ghost"), 0, none⟩ ∧
    userdb_lookup st_ghost.userdb (some (str "ghost")) = none ∧
    (handle_child_req env0 st_ghost (some (mk_packet 7 REQ_LOOKAT (str "lamp")))).2.fault = true ∧
    sent_since st_ghost.sent.length
      (handle_child_req env0 st_ghost (some (mk_packet 7 REQ_LOOKAT (str "lamp")))).2 = [] := by
  decide

/-! ### C2: broadcast -/

/-- C2 (counterexample): worker 7 broadcasts "hi" while worker 9 is connected; worker 9
is sent an ALLDONE packet. -/
theorem bcast_other_session_gets_alldone :
    (⟨9, [REQ_ALLDONE]⟩ : sent_packet) ∈
      (handle_child_req env0 st0 (some (mk_packet 7 REQ_BCASTMSG (str "hi")))).2.sent := by
  decide

theorem request_lookup_bcast :
    request_lookup REQ_BCASTMSG = some ⟨REQ_BCASTMSG, true, which_t.CHILD_ALL, some req_pass_msg, none⟩ := rfl

theorem call_pass_msg_other (env : Env) (sender child : Int) (payload rest : List Nat)
    (hlen : payload.length < env.MSG_MAX) (a : Master) (hf : a.fault = false)
    (hp : a.packet.drop (sizeof_pid_t + 1) = payload ++ rest) (hc : child ≠ sender) :
    call_handle_child env ⟨REQ_BCASTMSG, true, which_t.CHILD_ALL, some req_pass_msg, none⟩
        payload.length sender child a
      = { a with
          sent := a.sent ++ [⟨child, REQ_BCASTMSG :: payload⟩, ⟨child, [REQ_ALLDONE]⟩]
          calls := a.calls ++ [call.handle_child REQ_BCASTMSG sender child] } := by
  have hM : 1 ≤ env.MSG_MAX := by omega
  simp [call_handle_child, log_call, hf, req_pass_msg, hp, hc, send_packet_small,
    send_packet_none, hlen, hM]

theorem call_pass_msg_sender (env : Env) (sender : Int) (payload rest : List Nat)
    (hlen : payload.length < env.MSG_MAX) (a : Master) (hf : a.fault = false)
    (hp : a.packet.drop (sizeof_pid_t + 1) = payload ++ rest) :
    call_handle_child env ⟨REQ_BCASTMSG, true, which_t.CHILD_ALL, some req_pass_msg, none⟩
        payload.length sender sender a
      = { a with
          sent := a.sent ++ [⟨sender, REQ_BCASTMSG :: payload⟩]
          calls := a.calls ++ [call.handle_child REQ_BCASTMSG sender sender] } := by
  simp [call_handle_child, log_call, hf, req_pass_msg, hp, send_packet_small, hlen]

/-- What the broadcast handler writes for the sessions other than the sender. -/
theorem iterate_children_bcast (env : Env) (sender : Int) (payload rest : List Nat)
    (hlen : payload.length < env.MSG_MAX) (L : List child_data) :
    ∀ a : Master, a.fault = false → a.packet.drop (sizeof_pid_t + 1) = payload ++ rest →
      L.foldl (iterate_step env ⟨REQ_BCASTMSG, true, which_t.CHILD_ALL, some req_pass_msg, none⟩
          payload.length sender) a
      = { a with
          sent := a.sent ++ L.flatMap (fun c => if c.pid = sender then [] else
            [⟨c.pid, REQ_BCASTMSG :: payload⟩, ⟨c.pid, [REQ_ALLDONE]⟩])
          calls := a.calls ++ L.flatMap (fun c => if c.pid = sender then [] else
            [call.handle_child REQ_BCASTMSG sender c.pid]) } := by
  induction L with
  | nil => intro a _ _; simp
  | cons c L ih =>
    intro a hf hp
    by_cases hc : c.pid = sender
    · rw [List.foldl_cons]
      have : iterate_step env ⟨REQ_BCASTMSG, true, which_t.CHILD_ALL, some req_pass_msg, none⟩
          payload.length sender a c = a := by simp [iterate_step, hc]
      rw [this, ih a hf hp]
      simp [hc]
    · rw [List.foldl_cons]
      have hstep : iterate_step env
          ⟨REQ_BCASTMSG, true, which_t.CHILD_ALL, some req_pass_msg, none⟩
          payload.length sender a c
          = { a with
              sent := a.sent ++ [⟨c.pid, REQ_BCASTMSG :: payload⟩, ⟨c.pid, [REQ_ALLDONE]⟩]
              calls := a.calls ++ [call.handle_child REQ_BCASTMSG sender c.pid] } := by
        simp only [iterate_step, if_neg hc]
        exact call_pass_msg_other env sender c.pid payload rest hlen a hf hp hc
      rw [hstep, ih]
      · simp [hc]
      · exact hf
      · exact hp

theorem sent_to_fanout_none (s1 s2 : Int) (B A : List Nat) :
    ∀ L : List child_data, s2 ∉ L.map (fun c => c.pid) →
      sent_to s2 (L.flatMap (fun c => if c.pid = s1 then [] else
        [(⟨c.pid, B⟩ : sent_packet), ⟨c.pid, A⟩])) = [] := by
  intro L
  induction L with
  | nil => intro _; rfl
  | cons c L ih =>
    intro h
    simp only [List.map_cons, List.mem_cons, not_or] at h
    rw [List.flatMap_cons, sent_to_append, ih h.2]
    have hc : ¬ c.pid = s2 := fun e => h.1 e.symm
    by_cases hc1 : c.pid = s1 <;> simp [sent_to, hc1, hc]

theorem sent_to_fanout_other (s1 s2 : Int) (B A : List Nat) (hne : s2 ≠ s1) :
    ∀ L : List child_data, (L.map (fun c => c.pid)).Nodup → s2 ∈ L.map (fun c => c.pid) →
      sent_to s2 (L.flatMap (fun c => if c.pid = s1 then [] else
        [(⟨c.pid, B⟩ : sent_packet), ⟨c.pid, A⟩]))
      = [⟨s2, B⟩, ⟨s2, A⟩] := by
  intro L
  induction L with
  | nil => intro _ h; simp at h
  | cons c L ih =>
    intro hnd hmem
    simp only [List.map_cons, List.nodup_cons] at hnd
    rw [List.flatMap_cons, sent_to_append]
    by_cases hc : c.pid = s2
    · have hc1 : ¬ c.pid = s1 := by rw [hc]; exact hne
      rw [sent_to_fanout_none s1 s2 B A L (by rw [← hc]; exact hnd.1)]
      simp [sent_to, hc1, hc, hne]
    · have hmem' : s2 ∈ L.map (fun c => c.pid) := by
        simp only [List.map_cons, List.mem_cons] at hmem
        rcases hmem with h | h
        · exact absurd h.symm hc
        · exact h
      rw [ih hnd.2 hmem']
      by_cases hc1 : c.pid = s1 <;> simp [sent_to, hc1, hc]

theorem sent_to_fanout_sender (s1 : Int) (B A : List Nat) (L : List child_data) :
      sent_to s1 (L.flatMap (fun c => if c.pid = s1 then [] else
        [(⟨c.pid, B⟩ : sent_packet), ⟨c.pid, A⟩])) = [] := by
  induction L with
  | nil => rfl
  | cons c L ih =>
    rw [List.flatMap_cons, sent_to_append, ih]
    by_cases hc1 : c.pid = s1 <;> simp [sent_to, hc1]

/-- C2 (amended): for every BCASTMSG request that fits one packet, sent by a session
`s1` while another session `s2` is in the client table (pids unique), `s2` is sent
exactly two packets: the payload unmodified as one BCASTMSG packet, then one
ALLDONE; the sender `s1` is sent its own copy of the payload and then one ALLDONE.
The master does not fault and the request is not treated as a disconnect. -/
theorem bcast_reaches_every_session (env : Env) (st : Master) (s1 s2 : Int) (payload : List Nat)
    (c1 c2 : child_data)
    (hf : st.fault = false)
    (hlen : sizeof_pid_t + 1 + payload.length ≤ env.MSG_MAX) (hM : env.MSG_MAX < 2 ^ 64)
    (hlo : -2 ^ 31 ≤ s1) (hhi : s1 < 2 ^ 31)
    (h1 : hash_lookup st.child_map s1 = some c1)
    (h2 : hash_lookup st.child_map s2 = some c2)
    (hne : s2 ≠ s1)
    (hnd : (st.child_map.map (fun c => c.pid)).Nodup) :
    (handle_child_req env st (some (mk_packet s1 REQ_BCASTMSG payload))).1 = true ∧
    (handle_child_req env st (some (mk_packet s1 REQ_BCASTMSG payload))).2.fault = false ∧
    sent_to s2 (sent_since st.sent.length
        (handle_child_req env st (some (mk_packet s1 REQ_BCASTMSG payload))).2)
      = [⟨s2, REQ_BCASTMSG :: payload⟩, ⟨s2, [REQ_ALLDONE]⟩] ∧
    sent_to s1 (sent_since st.sent.length
        (handle_child_req env st (some (mk_packet s1 REQ_BCASTMSG payload))).2)
      = [⟨s1, REQ_BCASTMSG :: payload⟩, ⟨s1, [REQ_ALLDONE]⟩] := by
  have hlen' : payload.length < env.MSG_MAX := by unfold sizeof_pid_t at hlen; omega
  have hM1 : 1 ≤ env.MSG_MAX := by omega
  rw [handle_child_req_known env st s1 REQ_BCASTMSG payload _ c1 hlo hhi h1 hlen hM
    request_lookup_bcast]
  obtain ⟨st1, hst1⟩ : ∃ st1 : Master, st1 = recv st (mk_packet s1 REQ_BCASTMSG payload) :=
    ⟨_, rfl⟩
  rw [← hst1]
  have hf1 : st1.fault = false := by rw [hst1]; exact hf
  have hp1 : st1.packet.drop (sizeof_pid_t + 1)
      = payload ++ st.packet.drop (sizeof_pid_t + 1 + payload.length) := by
    rw [hst1]; exact recv_data st s1 REQ_BCASTMSG payload
  have hs1 : st1.sent = st.sent := by rw [hst1]; rfl
  have hc1 : st1.child_map = st.child_map := by rw [hst1]; rfl
  have hrun : run_request env ⟨REQ_BCASTMSG, true, which_t.CHILD_ALL, some req_pass_msg, none⟩
      payload.length s1 st1
      = { st1 with
          sent := st1.sent ++ [⟨s1, REQ_BCASTMSG :: payload⟩] ++
            st1.child_map.flatMap (fun c => if c.pid = s1 then [] else
              [⟨c.pid, REQ_BCASTMSG :: payload⟩, ⟨c.pid, [REQ_ALLDONE]⟩])
          calls := st1.calls ++ [call.handle_child REQ_BCASTMSG s1 s1] ++
            st1.child_map.flatMap (fun c => if c.pid = s1 then [] else
              [call.handle_child REQ_BCASTMSG s1 c.pid]) } := by
    simp only [run_request, fan_out]
    rw [call_pass_msg_sender env s1 payload _ hlen' st1 hf1 hp1]
    simp only [iterate_children]
    rw [iterate_children_bcast env s1 payload _ hlen' st1.child_map]
    · simp [call_finalize, hf1]
    · exact hf1
    · exact hp1
  rw [hrun, send_packet_none env _ s1 REQ_ALLDONE]
  rotate_left
  · exact hf1
  · exact hM1
  refine ⟨rfl, hf1, ?_, ?_⟩
  · simp only [sent_since, hs1, hc1, List.append_assoc, List.drop_left, sent_to_append]
    rw [sent_to_fanout_other s1 s2 _ _ hne st.child_map hnd (hash_lookup_mem h2)]
    simp [sent_to, hne.symm]
  · simp only [sent_since, hs1, hc1, List.append_assoc, List.drop_left, sent_to_append]
    rw [sent_to_fanout_sender s1 _ _ st.child_map]
    simp [sent_to]

/-- C2 (amended), witness: worker 7 broadcasts "hi" to worker 9. -/
theorem bcast_reaches_every_session_witness :
    st0.fault = false ∧ hash_lookup st0.child_map 9 = some ⟨9, 0, 0, none, 0, none⟩ ∧
    sent_to 9 (sent_since st0.sent.length
        (handle_child_req env0 st0 (some (mk_packet 7 REQ_BCASTMSG (str "hi")))).2)
      = [⟨9, REQ_BCASTMSG :: str "hi"⟩, ⟨9, [REQ_ALLDONE]⟩] :=
  ⟨rfl, rfl,
    (bcast_reaches_every_session env0 st0 7 9 (str "hi") ⟨7, 0, 0, none, 0, none⟩
      ⟨9, 0, 0, none, 0, none⟩ rfl (by decide) (by decide) (by decide) (by decide) rfl rfl
      (by decide) (by decide)).2.2.1⟩

/-! ### C5: movement -/

theorem request_lookup_move :
    request_lookup REQ_MOVE = some ⟨REQ_MOVE, true, which_t.CHILD_NONE, none, some req_move_room⟩ := rfl

/-- Function `req_move_room` when the way is blocked. -/
theorem req_move_room_none (env : Env) (a : Master) (sender : Int) (s : child_data)
    (r : room_t) (d n : Nat) (rest : List Nat)
    (hf : a.fault = false)
    (hmsg : (str "You cannot go that way.\n").length < env.MSG_MAX)
    (hs : hash_lookup a.child_map sender = some s)
    (hr : room_get a.world s.room = some r)
    (hd : (d : Int) < 2 ^ 31)
    (hadj : r.adjacent[d]? = some ROOM_NONE) :
    req_move_room env (int32_bytes (d : Int) ++ rest) n sender a
      = { a with sent := a.sent ++ [⟨sender, REQ_BCASTMSG :: str "You cannot go that way.\n"⟩,
                                    ⟨sender, REQ_MOVE :: int32_bytes 0⟩] } := by
  have h0 : (0 : Int) ≤ d := Int.natCast_nonneg d
  have hM : sizeof_int < env.MSG_MAX := by
    have : (str "You cannot go that way.\n").length = 24 := by decide
    unfold sizeof_int; omega
  unfold sizeof_int at hM
  simp [req_move_room, hs, hr, le_int32_dir d hd, h0, hadj, send_msg_small, hf, hmsg,
    send_packet_small, hM, sizeof_int, int32_bytes_take, int32_bytes_length]

/-- Function `req_move_room` when a hook refuses. -/
theorem req_move_room_veto (env : Env) (a : Master) (sender : Int) (s : child_data)
    (r rn : room_t) (d n : Nat) (new : Int) (rest : List Nat)
    (hf : a.fault = false)
    (hM : sizeof_int < env.MSG_MAX)
    (hs : hash_lookup a.child_map sender = some s)
    (hr : room_get a.world s.room = some r)
    (hd : (d : Int) < 2 ^ 31)
    (hadj : r.adjacent[d]? = some new) (hnew : new ≠ ROOM_NONE)
    (hrn : room_get a.world new = some rn)
    (hveto : (enter_allowed env new s && leave_allowed env s) = false) :
    req_move_room env (int32_bytes (d : Int) ++ rest) n sender a
      = { a with sent := a.sent ++ [⟨sender, REQ_MOVE :: int32_bytes 0⟩] } := by
  have h0 : (0 : Int) ≤ d := Int.natCast_nonneg d
  unfold sizeof_int at hM
  simp [req_move_room, hs, hr, le_int32_dir d hd, h0, hadj, hnew, hrn, hveto, hf,
    send_packet_small, hM, sizeof_int, int32_bytes_take, int32_bytes_length]

/-- Function `req_move_room` when the move goes through. -/
theorem req_move_room_ok (env : Env) (a : Master) (sender : Int) (s : child_data)
    (r rn : room_t) (d n : Nat) (new : Int) (rest : List Nat)
    (hf : a.fault = false)
    (hM : sizeof_int < env.MSG_MAX)
    (hs : hash_lookup a.child_map sender = some s)
    (hr : room_get a.world s.room = some r)
    (hd : (d : Int) < 2 ^ 31)
    (hadj : r.adjacent[d]? = some new) (hnew : new ≠ ROOM_NONE)
    (hrn : room_get a.world new = some rn)
    (hok : (enter_allowed env new s && leave_allowed env s) = true) :
    req_move_room env (int32_bytes (d : Int) ++ rest) n sender a
      = { a with
          child_map := a.child_map.map
            (fun c => if c.pid = sender then { c with room := new } else c)
          world := (a.world.modify
              (fun r => { r with users := r.users.filter (fun p => p != sender) })
              s.room.toNat).modify
              (fun r => { r with users := r.users ++ [sender] }) new.toNat
          sent := a.sent ++ [⟨sender, REQ_MOVE :: int32_bytes 1⟩] } := by
  have h0 : (0 : Int) ≤ d := Int.natCast_nonneg d
  have h1 := room_get_nonneg hr
  have h2 := room_get_nonneg hrn
  have hrn' : (room_get (a.world.modify
      (fun r => { r with users := r.users.filter (fun p => p != sender) }) s.room.toNat) new).isSome := by
    by_cases e : s.room = new
    · rw [← e, room_get_modify_same _ _ _ _ hr]; rfl
    · rw [room_get_modify_other _ _ _ _ h1 e, hrn]; rfl
  obtain ⟨rn', hrn''⟩ := Option.isSome_iff_exists.mp hrn'
  unfold sizeof_int at hM
  simp [req_move_room, hs, hr, le_int32_dir d hd, h0, hadj, hnew, hrn, hok, hf,
    send_packet_small, hM, sizeof_int, int32_bytes_take, int32_bytes_length, room_user_del, room_update, h1, h2,
    child_set_room, child_update, room_user_add, hrn'']

/-- C5: a MOVE request with direction `d` from a session `s` in room `r`, where
`adjacent[d]` of `r` is `new` (and names a room of the world unless it is
`ROOM_NONE`). The request is answered and the master does not fault. If `new` is
not `ROOM_NONE` and the enter hook of `new` (`env.hook_enter new`) and the leave
hook of `r` (`env.hook_leave s.room`) each are absent or return true, the session
ends in room `new`, it is removed from the user list of `r` and added to the user
list of `new`, and the MOVE reply carries status 1. In every other case
(`ROOM_NONE`, or a hook that is present and returns false) the client table and
the world (so the session's room and all user lists) are unchanged and the MOVE
reply carries status 0, after "You cannot go that way." when `new` is
`ROOM_NONE`. -/
theorem move_request (env : Env) (st : Master) (sender : Int) (s : child_data)
    (r rn : room_t) (d : Nat) (new : Int)
    (hf : st.fault = false)
    (hM : env.MSG_MAX < 2 ^ 64)
    (hmsg : (str "You cannot go that way.\n").length < env.MSG_MAX)
    (hlo : -2 ^ 31 ≤ sender) (hhi : sender < 2 ^ 31)
    (hs : hash_lookup st.child_map sender = some s)
    (hr : room_get st.world s.room = some r)
    (hd : (d : Int) < 2 ^ 31)
    (hadj : r.adjacent[d]? = some new)
    (hrn : new ≠ ROOM_NONE → room_get st.world new = some rn) :
    (handle_child_req env st (some (mk_packet sender REQ_MOVE (int32_bytes d)))).1 = true ∧
    (handle_child_req env st (some (mk_packet sender REQ_MOVE (int32_bytes d)))).2.fault = false ∧
    ((new ≠ ROOM_NONE ∧ (∀ h, env.hook_enter new = some h → h new s = true) ∧
        (∀ h, env.hook_leave s.room = some h → h s.room s = true)) →
      hash_lookup (handle_child_req env st (some (mk_packet sender REQ_MOVE (int32_bytes d)))).2.child_map
          sender = some { s with room := new } ∧
      (room_get (handle_child_req env st (some (mk_packet sender REQ_MOVE (int32_bytes d)))).2.world
          new).map (fun x => x.users)
        = some ((if new = s.room then r.users.filter (fun p => p != sender) else rn.users)
            ++ [sender]) ∧
      (new ≠ s.room →
        (room_get (handle_child_req env st (some (mk_packet sender REQ_MOVE (int32_bytes d)))).2.world
          s.room).map (fun x => x.users) = some (r.users.filter (fun p => p != sender))) ∧
      sent_since st.sent.length
          (handle_child_req env st (some (mk_packet sender REQ_MOVE (int32_bytes d)))).2
        = [⟨sender, REQ_MOVE :: int32_bytes 1⟩, ⟨sender, [REQ_ALLDONE]⟩]) ∧
    (¬ (new ≠ ROOM_NONE ∧ (∀ h, env.hook_enter new = some h → h new s = true) ∧
        (∀ h, env.hook_leave s.room = some h → h s.room s = true)) →
      (handle_child_req env st (some (mk_packet sender REQ_MOVE (int32_bytes d)))).2.child_map
        = st.child_map ∧
      (handle_child_req env st (some (mk_packet sender REQ_MOVE (int32_bytes d)))).2.world
        = st.world ∧
      sent_since st.sent.length
          (handle_child_req env st (some (mk_packet sender REQ_MOVE (int32_bytes d)))).2
        = (if new = ROOM_NONE
            then [⟨sender, REQ_BCASTMSG :: str "You cannot go that way.\n"⟩] else [])
          ++ [⟨sender, REQ_MOVE :: int32_bytes 0⟩, ⟨sender, [REQ_ALLDONE]⟩]) := by
  have hmsg' : (str "You cannot go that way.\n").length = 24 := by decide
  have hE : enter_allowed env new s = true
      ↔ ∀ h, env.hook_enter new = some h → h new s = true := by
    unfold enter_allowed
    cases env.hook_enter new <;> simp
  have hL : leave_allowed env s = true
      ↔ ∀ h, env.hook_leave s.room = some h → h s.room s = true := by
    unfold leave_allowed
    cases env.hook_leave s.room <;> simp
  have hlen : sizeof_pid_t + 1 + (int32_bytes (d : Int)).length ≤ env.MSG_MAX := by
    rw [int32_bytes_length]; unfold sizeof_pid_t; omega
  have hM1 : 1 ≤ env.MSG_MAX := by omega
  have hM4 : sizeof_int < env.MSG_MAX := by unfold sizeof_int; omega
  rw [handle_child_req_known env st sender REQ_MOVE _ _ s hlo hhi hs hlen hM request_lookup_move]
  obtain ⟨a, ha⟩ : ∃ a : Master, a = log_call (recv st (mk_packet sender REQ_MOVE (int32_bytes d)))
      (call.finalize REQ_MOVE sender) := ⟨_, rfl⟩
  have hfa : a.fault = false := by rw [ha]; exact hf
  have hsa : hash_lookup a.child_map sender = some s := by rw [ha]; exact hs
  have hra : room_get a.world s.room = some r := by rw [ha]; exact hr
  have hwa : a.world = st.world := by rw [ha]; rfl
  have hca : a.child_map = st.child_map := by rw [ha]; rfl
  have hsent : a.sent = st.sent := by rw [ha]; rfl
  rw [run_request_finalize env _ _ _ _ _ _ (by exact hf), recv_data, ← ha]
  by_cases hnone : new = ROOM_NONE
  · subst hnone
    rw [req_move_room_none env a sender s r d _ _ hfa hmsg hsa hra hd hadj]
    rw [send_packet_none env _ sender REQ_ALLDONE (by exact hfa) hM1]
    refine ⟨rfl, hfa, ?_, ?_⟩
    · intro h; exact absurd rfl h.1
    · intro _
      refine ⟨hca, hwa, ?_⟩
      simp [sent_since, hsent]
  · have hrna : room_get a.world new = some rn := by rw [hwa]; exact hrn hnone
    by_cases hok : (enter_allowed env new s && leave_allowed env s) = true
    · rw [req_move_room_ok env a sender s r rn d _ new _ hfa hM4 hsa hra hd hadj hnone hrna hok]
      rw [send_packet_none env _ sender REQ_ALLDONE (by exact hfa) hM1]
      refine ⟨rfl, hfa, ?_, ?_⟩
      · intro _
        have h1 := room_get_nonneg hra
        have h2 := room_get_nonneg hrna
        refine ⟨?_, ?_, ?_, ?_⟩
        · simp only []
          rw [hash_lookup_map_update a.child_map sender (fun c => { c with room := new })
            (fun c => rfl) sender, hsa]
          simp [hash_lookup_pid hs]
        · simp only []
          by_cases e : new = s.room
          · subst e
            rw [room_get_modify_same _ _ _ _ (room_get_modify_same _ _ _ _ hra)]
            simp
          · have e' : s.room ≠ new := fun h => e h.symm
            have : room_get (a.world.modify
                (fun r => { r with users := r.users.filter (fun p => p != sender) })
                s.room.toNat) new = some rn := by
              rw [room_get_modify_other _ _ _ _ h1 e']; exact hrna
            rw [room_get_modify_same _ _ _ _ this]
            simp [e]
        · intro e
          simp only []
          rw [room_get_modify_other _ _ _ _ h2 e, room_get_modify_same _ _ _ _ hra]
          rfl
        · simp [sent_since, hsent]
      · intro h
        exfalso
        apply h
        simp only [Bool.and_eq_true] at hok
        exact ⟨hnone, hE.mp hok.1, hL.mp hok.2⟩
    · have hveto : (enter_allowed env new s && leave_allowed env s) = false := by
        simpa using hok
      rw [req_move_room_veto env a sender s r rn d _ new _ hfa hM4 hsa hra hd hadj hnone hrna
        hveto]
      rw [send_packet_none env _ sender REQ_ALLDONE (by exact hfa) hM1]
      refine ⟨rfl, hfa, ?_, ?_⟩
      · intro h
        exfalso
        apply hok
        simp only [Bool.and_eq_true]
        exact ⟨hE.mpr h.2.1, hL.mpr h.2.2⟩
      · intro _
        refine ⟨hca, hwa, ?_⟩
        simp [sent_since, hsent, hnone]

/-- C5, witness: worker 7 goes in direction 0 from room 0 towards room 1. In the build
`env0`, without hooks, it ends in room 1 with status 1; in the build `env_noenter`,
where the enter hook of room 1 returns false, it stays in room 0, the world is
unchanged and the status is 0. -/
theorem move_request_witness :
    room_get st0.world 0 = some hall ∧ hall.adjacent[0]? = some 1 ∧
    hash_lookup (handle_child_req env0 st0
        (some (mk_packet 7 REQ_MOVE (int32_bytes ((0 : Nat) : Int))))).2.child_map 7
      = some ⟨7, 0, 0, none, 1, none⟩ ∧
    sent_since st0.sent.length (handle_child_req env0 st0
        (some (mk_packet 7 REQ_MOVE (int32_bytes ((0 : Nat) : Int))))).2
      = [⟨7, REQ_MOVE :: int32_bytes 1⟩, ⟨7, [REQ_ALLDONE]⟩] ∧
    (env_noenter.hook_enter 1).map (fun h => h 1 ⟨7, 0, 0, none, 0, none⟩) = some false ∧
    (handle_child_req env_noenter st0
        (some (mk_packet 7 REQ_MOVE (int32_bytes ((0 : Nat) : Int))))).2.child_map
      = st0.child_map ∧
    (handle_child_req env_noenter st0
        (some (mk_packet 7 REQ_MOVE (int32_bytes ((0 : Nat) : Int))))).2.world = st0.world ∧
    sent_since st0.sent.length (handle_child_req env_noenter st0
        (some (mk_packet 7 REQ_MOVE (int32_bytes ((0 : Nat) : Int))))).2
      = [⟨7, REQ_MOVE :: int32_bytes 0⟩, ⟨7, [REQ_ALLDONE]⟩] :=
  have h := (move_request env0 st0 7 ⟨7, 0, 0, none, 0, none⟩ hall yard 0 1 rfl (by decide)
    (by decide) (by decide) (by decide) rfl rfl (by decide) rfl (fun _ => rfl)).2.2.1
    ⟨by decide, (by intro h e; cases e), (by intro h e; cases e)⟩
  have hv := (move_request env_noenter st0 7 ⟨7, 0, 0, none, 0, none⟩ hall yard 0 1 rfl
    (by decide) (by decide) (by decide) (by decide) rfl rfl (by decide) rfl (fun _ => rfl)).2.2.2
    (fun hc => absurd (hc.2.1 (fun _ _ => false) rfl) (by decide))
  ⟨rfl, rfl, h.1, h.2.2.2, rfl, hv.1, hv.2.1, hv.2.2⟩

/-- The hooks decide in concrete builds: worker 7 asks to go from room 0 to room 1. With
an enter hook of room 1 that returns false, and with a leave hook of room 0 that
returns false, the reply carries status 0 and worker 7 stays in room 0; without
hooks the reply carries status 1 and worker 7 is in room 1. -/
theorem move_hooks_examples :
    (handle_child_req env_noenter st0 (some (mk_packet 7 REQ_MOVE [0, 0, 0, 0]))).2.sent
      = [⟨7, REQ_MOVE :: int32_bytes 0⟩, ⟨7, [REQ_ALLDONE]⟩] ∧
    (handle_child_req env_noenter st0 (some (mk_packet 7 REQ_MOVE [0, 0, 0, 0]))).2.child_map
      = st0.child_map ∧
    (handle_child_req env_noenter st0 (some (mk_packet 7 REQ_MOVE [0, 0, 0, 0]))).2.world
      = st0.world ∧
    (handle_child_req env_noleave st0 (some (mk_packet 7 REQ_MOVE [0, 0, 0, 0]))).2.sent
      = [⟨7, REQ_MOVE :: int32_bytes 0⟩, ⟨7, [REQ_ALLDONE]⟩] ∧
    (handle_child_req env_noleave st0 (some (mk_packet 7 REQ_MOVE [0, 0, 0, 0]))).2.child_map
      = st0.child_map ∧
    (handle_child_req env_noleave st0 (some (mk_packet 7 REQ_MOVE [0, 0, 0, 0]))).2.world
      = st0.world ∧
    (handle_child_req env0 st0 (some (mk_packet 7 REQ_MOVE [0, 0, 0, 0]))).2.sent
      = [⟨7, REQ_MOVE :: int32_bytes 1⟩, ⟨7, [REQ_ALLDONE]⟩] ∧
    (handle_child_req env0 st0 (some (mk_packet 7 REQ_MOVE [0, 0, 0, 0]))).2.child_map
      = [⟨7, 0, 0, none, 1, none⟩, ⟨9, 0, 0, none, 0, none⟩] := by
  decide

/-! ### C6: a vetoed drop -/

/-- C6 (failing input): alice (worker 7, in room 0) carries the lamp, whose class
refuses to be dropped, and sends DROP "lamp". "You cannot drop that." is emitted,
but the move is not reversed: the rollback deletes from the room by the pointer of
the original, which was never in the room, so the copy filed by the drop stays.
Before the request room 0 holds nothing and the inventory holds the lamp; after
it room 0 holds a lamp and the inventory holds a lamp. -/
theorem drop_veto_leaves_copy_in_room :
    st_carry.world.map (fun room => multimap_contents room.objects) = [[], []] ∧
    st_carry.userdb.map (fun u => multimap_contents u.objects)
      = [[⟨str "lamp", obj_fields lamp⟩]] ∧
    (handle_child_req env_veto st_carry (some (mk_packet 7 REQ_DROP (str "lamp")))).2.fault
      = false ∧
    (handle_child_req env_veto st_carry (some (mk_packet 7 REQ_DROP (str "lamp")))).2.world.map
        (fun room => multimap_contents room.objects)
      = [[⟨str "lamp", obj_fields lamp⟩], []] ∧
    (handle_child_req env_veto st_carry (some (mk_packet 7 REQ_DROP (str "lamp")))).2.userdb.map
        (fun u => multimap_contents u.objects)
      = [[⟨str "lamp", obj_fields lamp⟩]] ∧
    (handle_child_req env_veto st_carry (some (mk_packet 7 REQ_DROP (str "lamp")))).2.sent
      = [⟨7, REQ_BCASTMSG :: str "You cannot drop that.\n"⟩, ⟨7, [REQ_ALLDONE]⟩] := by
  decide

/-! ### C7: a vetoed take -/

theorem request_lookup_take :
    request_lookup REQ_TAKE = some ⟨REQ_TAKE, true, which_t.CHILD_NONE, none, some req_take⟩ := rfl

/-- The loop of `req_take` over objects whose class refuses. -/
theorem take_loop_veto (env : Env) (s : child_data)
    (hmsg : (str "You can't take that.\n").length < env.MSG_MAX) (L : List multimap_list) :
    ∀ a : Master, a.fault = false →
      (∀ e ∈ L, ∃ hook, (env.obj_class e.val.cls).hook_take = some hook ∧ hook e.val s = false) →
      L.foldl (take_obj env s) a
        = { a with
            sent := a.sent ++ List.replicate L.length
              ⟨s.pid, REQ_BCASTMSG :: str "You can't take that.\n"⟩ } := by
  induction L with
  | nil => intro a _ _; simp
  | cons e L ih =>
    intro a hf hv
    obtain ⟨hook, hh, hfalse⟩ := hv e (List.mem_cons_self _ _)
    have hstep : take_obj env s a e
        = { a with sent := a.sent ++ [⟨s.pid, REQ_BCASTMSG :: str "You can't take that.\n"⟩] } := by
      simp [take_obj, hh, hfalse, send_msg_small, hf, hmsg]
    rw [List.foldl_cons, hstep, ih]
    · simp [List.replicate_succ]
    · exact hf
    · intro x hx; exact hv x (List.mem_cons_of_mem _ hx)

/-- C7: a TAKE request, with any payload, such that the class of every object filed
in the sender's room under the noun of the request (the C string the master reads
at the payload) has a take hook that returns false. The world (every room's
object multimap) and the user database (every inventory) are unchanged, and the
sender is sent one "You can't take that." message per such object, then ALLDONE
(when no object is filed under the noun there is no such message, only
"I don't know what that is."). -/
theorem take_vetoed_changes_nothing (env : Env) (st : Master) (sender : Int) (s : child_data)
    (room : room_t) (payload : List Nat)
    (hf : st.fault = false)
    (hM : env.MSG_MAX < 2 ^ 64)
    (hmsg : (str "I don't know what that is.\n").length < env.MSG_MAX)
    (hlen : sizeof_pid_t + 1 + payload.length ≤ env.MSG_MAX)
    (hlo : -2 ^ 31 ≤ sender) (hhi : sender < 2 ^ 31)
    (hs : hash_lookup st.child_map sender = some s)
    (hr : room_get st.world s.room = some room)
    (hveto : ∀ e ∈ multimap_lookup room.objects (payload_cstr st payload),
      ∃ hook, (env.obj_class e.val.cls).hook_take = some hook ∧ hook e.val s = false) :
    (handle_child_req env st (some (mk_packet sender REQ_TAKE payload))).1 = true ∧
    (handle_child_req env st (some (mk_packet sender REQ_TAKE payload))).2.fault = false ∧
    (handle_child_req env st (some (mk_packet sender REQ_TAKE payload))).2.world = st.world ∧
    (handle_child_req env st (some (mk_packet sender REQ_TAKE payload))).2.userdb = st.userdb ∧
    sent_since st.sent.length (handle_child_req env st (some (mk_packet sender REQ_TAKE payload))).2
      = (if multimap_lookup room.objects (payload_cstr st payload) = []
          then [⟨sender, REQ_BCASTMSG :: str "I don't know what that is.\n"⟩]
          else List.replicate (multimap_lookup room.objects (payload_cstr st payload)).length
            ⟨sender, REQ_BCASTMSG :: str "You can't take that.\n"⟩)
        ++ [⟨sender, [REQ_ALLDONE]⟩] := by
  have hmsg1 : (str "I don't know what that is.\n").length = 27 := by decide
  have hmsg2 : (str "You can't take that.\n").length = 21 := by decide
  have hmsg' : (str "You can't take that.\n").length < env.MSG_MAX := by omega
  have hM1 : 1 ≤ env.MSG_MAX := by omega
  have hpid := hash_lookup_pid hs
  rw [handle_child_req_known env st sender REQ_TAKE _ _ s hlo hhi hs hlen hM request_lookup_take]
  obtain ⟨a, ha⟩ : ∃ a : Master, a = log_call (recv st (mk_packet sender REQ_TAKE payload))
      (call.finalize REQ_TAKE sender) := ⟨_, rfl⟩
  have hfa : a.fault = false := by rw [ha]; exact hf
  have hsa : hash_lookup a.child_map sender = some s := by rw [ha]; exact hs
  have hra : room_get a.world s.room = some room := by rw [ha]; exact hr
  have hwa : a.world = st.world := by rw [ha]; rfl
  have hua : a.userdb = st.userdb := by rw [ha]; rfl
  have hsent : a.sent = st.sent := by rw [ha]; rfl
  rw [run_request_finalize env _ _ _ _ _ _ (by exact hf), recv_data, ← ha]
  have hc : cstr (payload ++ st.packet.drop (sizeof_pid_t + 1 + payload.length))
      = payload_cstr st payload := rfl
  by_cases hempty : multimap_lookup room.objects (payload_cstr st payload) = []
  · have hreq : req_take env (payload ++ st.packet.drop (sizeof_pid_t + 1 + payload.length))
        payload.length sender a
        = { a with
            sent := a.sent ++ [⟨sender, REQ_BCASTMSG :: str "I don't know what that is.\n"⟩] } := by
      simp only [req_take, hsa, hra, hc, hempty]
      simp [send_msg_small, hfa, hmsg]
    rw [hreq, send_packet_none env _ sender REQ_ALLDONE (by exact hfa) hM1]
    refine ⟨rfl, hfa, hwa, hua, ?_⟩
    simp [sent_since, hsent, hempty]
  · have hloop := take_loop_veto env s hmsg' (multimap_lookup room.objects (payload_cstr st payload))
      a hfa hveto
    have hreq : req_take env (payload ++ st.packet.drop (sizeof_pid_t + 1 + payload.length))
        payload.length sender a
        = server_save_state
            { a with
              sent := a.sent ++ List.replicate
                (multimap_lookup room.objects (payload_cstr st payload)).length
                ⟨s.pid, REQ_BCASTMSG :: str "You can't take that.\n"⟩ } false := by
      simp only [req_take, hsa, hra, hc]
      rw [hloop]
      simp [hempty]
    rw [hreq]
    obtain ⟨b, hb⟩ : ∃ b : Master, b = server_save_state
            { a with
              sent := a.sent ++ List.replicate
                (multimap_lookup room.objects (payload_cstr st payload)).length
                ⟨s.pid, REQ_BCASTMSG :: str "You can't take that.\n"⟩ } false := ⟨_, rfl⟩
    have hfb : b.fault = false := by rw [hb, server_save_state_fault]; exact hfa
    have hwb : b.world = st.world := by rw [hb, server_save_state_world]; exact hwa
    have hub : b.userdb = st.userdb := by rw [hb, server_save_state_userdb]; exact hua
    have hsb : b.sent = st.sent ++ List.replicate
        (multimap_lookup room.objects (payload_cstr st payload)).length
        ⟨sender, REQ_BCASTMSG :: str "You can't take that.\n"⟩ := by
      rw [hb, server_save_state_sent, ← hsent, hpid]
    rw [← hb, send_packet_none env _ sender REQ_ALLDONE hfb hM1]
    refine ⟨rfl, hfb, hwb, hub, ?_⟩
    simp [sent_since, hsb, hempty]

/-- C7, witness: alice tries to take the lamp in a world that refuses every take. -/
theorem take_vetoed_changes_nothing_witness :
    hash_lookup st_alice.child_map 7 = some ⟨7, 0, 3, some (str "alice"), 0, none⟩ ∧
    multimap_lookup hall.objects (payload_cstr st_alice (str "lamp")) = [⟨str "lamp", lamp⟩] ∧
    (handle_child_req env_veto st_alice (some (mk_packet 7 REQ_TAKE (str "lamp")))).2.world
      = st_alice.world ∧
    (handle_child_req env_veto st_alice (some (mk_packet 7 REQ_TAKE (str "lamp")))).2.userdb
      = st_alice.userdb ∧
    sent_since st_alice.sent.length
        (handle_child_req env_veto st_alice (some (mk_packet 7 REQ_TAKE (str "lamp")))).2
      = [⟨7, REQ_BCASTMSG :: str "You can't take that.\n"⟩, ⟨7, [REQ_ALLDONE]⟩] :=
  have h := take_vetoed_changes_nothing env_veto st_alice 7 ⟨7, 0, 3, some (str "alice"), 0, none⟩
    hall (str "lamp") rfl (by decide) (by decide) (by decide) (by decide) (by decide)
    rfl rfl (fun _ _ => ⟨fun _ _ => false, rfl, rfl⟩)
  ⟨rfl, by decide, h.2.2.1, h.2.2.2.1, h.2.2.2.2⟩

/-! ### C8: take, then drop -/

/-- Function `req_take` on a noun with one object whose class has no take hook. -/
theorem req_take_one (env : Env) (a : Master) (sender : Int) (s : child_data) (uname : List Nat)
    (user : userdata_t) (room : room_t) (e : multimap_list) (data : List Nat) (n : Nat)
    (hf : a.fault = false)
    (hmsg : (str "Taken.\n").length < env.MSG_MAX)
    (hs : hash_lookup a.child_map sender = some s)
    (hu : s.user = some uname)
    (hdb : userdb_lookup a.userdb (some uname) = some user)
    (hr : room_get a.world s.room = some room)
    (hone : multimap_lookup room.objects (cstr data) = [e])
    (hcls : (env.obj_class e.val.cls).hook_take = none) :
    req_take env data n sender a
      = server_save_state
          { a with
            userdb := a.userdb.map (fun u => if u.username = uname
              then { u with objects := multimap_insert u.objects e.val.name e.val } else u)
            world := a.world.modify
              (fun r => { r with objects := multimap_delete_ptr r.objects e.val.ptr })
              s.room.toNat
            sent := a.sent ++ [⟨sender, REQ_BCASTMSG :: str "Taken.\n"⟩] } false := by
  have h1 := room_get_nonneg hr
  have hpid := hash_lookup_pid hs
  simp only [req_take, hs, hr, hone]
  simp [take_obj, hcls, userdb_add_obj, hu, hdb, userdb_set_objects, hf, room_obj_del_by_ptr,
    hr, room_update, h1, send_msg_small, hmsg, hpid]

/-- Function `req_drop` on a noun with one object whose class has no drop hook. -/
theorem req_drop_one (env : Env) (a : Master) (sender : Int) (s : child_data) (uname : List Nat)
    (user : userdata_t) (room : room_t) (e : multimap_list) (data : List Nat) (n : Nat)
    (hf : a.fault = false)
    (hmsg : (str "Dropped.\n").length < env.MSG_MAX)
    (hs : hash_lookup a.child_map sender = some s)
    (hu : s.user = some uname)
    (hdb : userdb_lookup a.userdb (some uname) = some user)
    (hr : room_get a.world s.room = some room)
    (hone : multimap_lookup user.objects (cstr data) = [e])
    (hcls : (env.obj_class e.val.cls).hook_drop = none) :
    req_drop env data n sender a
      = server_save_state
          { a with
            next_ptr := a.next_ptr + 1
            world := a.world.modify
              (fun r =>
                { r with objects := multimap_insert r.objects e.val.name (obj_dup a e.val).1 })
              s.room.toNat
            userdb := a.userdb.map (fun u => if u.username = uname
              then { u with objects := multimap_delete_ptr u.objects e.val.ptr } else u)
            sent := a.sent ++ [⟨sender, REQ_BCASTMSG :: str "Dropped.\n"⟩] } false := by
  have h1 := room_get_nonneg hr
  have hpid := hash_lookup_pid hs
  simp only [req_drop, hs, hu, hdb, hone]
  simp [drop_obj, hcls, obj_dup, room_obj_add, userdb_del_obj_by_ptr, hu, hdb,
    userdb_set_objects, hf, hr, room_update, h1, send_msg_small, hmsg, hpid]

theorem request_lookup_drop :
    request_lookup REQ_DROP = some ⟨REQ_DROP, true, which_t.CHILD_NONE, none, some req_drop⟩ := rfl

/-- The entries of a multimap at one address, when that address holds one
object and the object is filed once under the noun. -/
theorem filter_ptr_single (m : multimap) (noun : List Nat) (obj : object_t)
    (hone : multimap_lookup m noun = [⟨obj.name, obj⟩])
    (hptr : ∀ e ∈ m, e.val.ptr = obj.ptr → e = ⟨obj.name, obj⟩) :
    m.filter (fun e => e.val.ptr == obj.ptr) = [⟨obj.name, obj⟩] := by
  have hmem : (⟨obj.name, obj⟩ : multimap_list) ∈ multimap_lookup m noun := by
    rw [hone]; exact List.mem_singleton.mpr rfl
  have hkey : key_eq obj.name noun = true := (List.mem_filter.mp hmem).2
  have hcongr : m.filter (fun e => e.val.ptr == obj.ptr)
      = m.filter (fun e => e == (⟨obj.name, obj⟩ : multimap_list)) := by
    apply List.filter_congr
    intro e he
    by_cases hp : e.val.ptr = obj.ptr
    · have := hptr e he hp
      subst this
      simp
    · have hne : e ≠ ⟨obj.name, obj⟩ := by
        intro h; apply hp; rw [h]
      simp [hp, hne]
  rw [hcongr, List.filter_beq]
  have hcount : List.count (⟨obj.name, obj⟩ : multimap_list) m = 1 := by
    have h1 : List.count (⟨obj.name, obj⟩ : multimap_list) (multimap_lookup m noun)
        = List.count (⟨obj.name, obj⟩ : multimap_list) m := by
      unfold multimap_lookup
      exact List.count_filter (by simpa using hkey)
    rw [← h1, hone]
    simp
  rw [hcount]
  rfl

/-- Deleting the object at one address and filing a copy of it leaves the
contents of the multimap, up to addresses and order. -/
theorem delete_reinsert_perm (m : multimap) (noun : List Nat) (obj : object_t) (q : Nat)
    (hone : multimap_lookup m noun = [⟨obj.name, obj⟩])
    (hptr : ∀ e ∈ m, e.val.ptr = obj.ptr → e = ⟨obj.name, obj⟩) :
    (multimap_contents (multimap_insert (multimap_delete_ptr m obj.ptr) obj.name
        { obj with ptr := q })).Perm (multimap_contents m) := by
  have h1 := filter_ptr_single m noun obj hone hptr
  have h2 := List.filter_append_perm (fun e : multimap_list => e.val.ptr == obj.ptr) m
  rw [h1] at h2
  have h3 : (multimap_contents ([(⟨obj.name, obj⟩ : multimap_list)] ++
      m.filter (fun e => !(e.val.ptr == obj.ptr)))).Perm (multimap_contents m) :=
    List.Perm.map _ h2
  refine List.Perm.trans ?_ h3
  unfold multimap_contents multimap_insert multimap_delete_ptr
  simp only [List.map_append, List.map_cons, List.map_nil, obj_fields]
  exact List.perm_append_comm

/-- After the deletion by address, nothing is filed under the noun. -/
theorem lookup_after_delete (m : multimap) (noun : List Nat) (obj : object_t)
    (hone : multimap_lookup m noun = [⟨obj.name, obj⟩]) :
    multimap_lookup (multimap_delete_ptr m obj.ptr) noun = [] := by
  unfold multimap_lookup multimap_delete_ptr at *
  rw [List.filter_filter, List.filter_eq_nil_iff]
  intro e he
  simp only [Bool.and_eq_true, not_and]
  intro hk
  have : e ∈ m.filter (fun e => key_eq e.key noun) := List.mem_filter.mpr ⟨he, hk⟩
  rw [hone, List.mem_singleton] at this
  subst this
  simp

/-- A TAKE request for a noun with one object whose class has no take hook. -/
theorem take_step (env : Env) (st : Master) (sender : Int) (s : child_data) (uname : List Nat)
    (user : userdata_t) (room : room_t) (e : multimap_list) (noun : List Nat)
    (hf : st.fault = false)
    (hM : env.MSG_MAX < 2 ^ 64)
    (hmsg : (str "Taken.
").length < env.MSG_MAX)
    (hlen : sizeof_pid_t + 1 + (noun ++ [0]).length ≤ env.MSG_MAX)
    (hnoun : ∀ b ∈ noun, b ≠ 0)
    (hlo : -2 ^ 31 ≤ sender) (hhi : sender < 2 ^ 31)
    (hs : hash_lookup st.child_map sender = some s)
    (hu : s.user = some uname)
    (hdb : userdb_lookup st.userdb (some uname) = some user)
    (hr : room_get st.world s.room = some room)
    (hone : multimap_lookup room.objects noun = [e])
    (hcls : (env.obj_class e.val.cls).hook_take = none) :
    ∃ st1 : Master,
      handle_child_req env st (some (mk_packet sender REQ_TAKE (noun ++ [0]))) = (true, st1) ∧
      st1.fault = false ∧ st1.child_map = st.child_map ∧ st1.next_ptr = st.next_ptr ∧
      st1.userdb = st.userdb.map (fun u => if u.username = uname
          then { u with objects := multimap_insert u.objects e.val.name e.val } else u) ∧
      st1.world = st.world.modify
          (fun r => { r with objects := multimap_delete_ptr r.objects e.val.ptr }) s.room.toNat ∧
      st1.sent = st.sent ++ [⟨sender, REQ_BCASTMSG :: str "Taken.
"⟩, ⟨sender, [REQ_ALLDONE]⟩] := by
  have hM1 : 1 ≤ env.MSG_MAX := by omega
  rw [handle_child_req_known env st sender REQ_TAKE _ _ s hlo hhi hs hlen hM request_lookup_take]
  obtain ⟨a, ha⟩ : ∃ a : Master, a = log_call (recv st (mk_packet sender REQ_TAKE (noun ++ [0])))
      (call.finalize REQ_TAKE sender) := ⟨_, rfl⟩
  have hfa : a.fault = false := by rw [ha]; exact hf
  have hsa : hash_lookup a.child_map sender = some s := by rw [ha]; exact hs
  have hra : room_get a.world s.room = some room := by rw [ha]; exact hr
  have hda : userdb_lookup a.userdb (some uname) = some user := by rw [ha]; exact hdb
  have hca : a.child_map = st.child_map := by rw [ha]; rfl
  have hwa : a.world = st.world := by rw [ha]; rfl
  have hua : a.userdb = st.userdb := by rw [ha]; rfl
  have hna : a.next_ptr = st.next_ptr := by rw [ha]; rfl
  have hsent : a.sent = st.sent := by rw [ha]; rfl
  rw [run_request_finalize env _ _ _ _ _ _ (by exact hf), recv_data, ← ha]
  have hc : cstr (noun ++ [0] ++ st.packet.drop (sizeof_pid_t + 1 + (noun ++ [0]).length)) = noun := by
    rw [List.append_assoc]; exact cstr_terminated noun _ hnoun
  rw [req_take_one env a sender s uname user room e _ _ hfa hmsg hsa hu hda hra
    (by rw [hc]; exact hone) hcls]
  rw [send_packet_none env _ sender REQ_ALLDONE (by rw [server_save_state_fault]; exact hfa) hM1]
  refine ⟨_, rfl, ?_, ?_, ?_, ?_, ?_, ?_⟩
  · simp only [server_save_state_fault]; exact hfa
  · simp only [server_save_state_child_map]; exact hca
  · simp only [server_save_state_next_ptr]; exact hna
  · simp only [server_save_state_userdb, hua]
  · simp only [server_save_state_world, hwa]
  · simp only [server_save_state_sent, hsent]; simp

/-- A DROP request for a noun with one object whose class has no drop hook. -/
theorem drop_step (env : Env) (st : Master) (sender : Int) (s : child_data) (uname : List Nat)
    (user : userdata_t) (room : room_t) (e : multimap_list) (noun : List Nat)
    (hf : st.fault = false)
    (hM : env.MSG_MAX < 2 ^ 64)
    (hmsg : (str "Dropped.
").length < env.MSG_MAX)
    (hlen : sizeof_pid_t + 1 + (noun ++ [0]).length ≤ env.MSG_MAX)
    (hnoun : ∀ b ∈ noun, b ≠ 0)
    (hlo : -2 ^ 31 ≤ sender) (hhi : sender < 2 ^ 31)
    (hs : hash_lookup st.child_map sender = some s)
    (hu : s.user = some uname)
    (hdb : userdb_lookup st.userdb (some uname) = some user)
    (hr : room_get st.world s.room = some room)
    (hone : multimap_lookup user.objects noun = [e])
    (hcls : (env.obj_class e.val.cls).hook_drop = none) :
    ∃ st1 : Master,
      handle_child_req env st (some (mk_packet sender REQ_DROP (noun ++ [0]))) = (true, st1) ∧
      st1.fault = false ∧ st1.child_map = st.child_map ∧
      st1.userdb = st.userdb.map (fun u => if u.username = uname
          then { u with objects := multimap_delete_ptr u.objects e.val.ptr } else u) ∧
      st1.world = st.world.modify
          (fun r =>
            { r with objects := multimap_insert r.objects e.val.name (obj_dup st e.val).1 })
          s.room.toNat ∧
      st1.sent = st.sent ++ [⟨sender, REQ_BCASTMSG :: str "Dropped.
"⟩, ⟨sender, [REQ_ALLDONE]⟩] := by
  have hM1 : 1 ≤ env.MSG_MAX := by omega
  rw [handle_child_req_known env st sender REQ_DROP _ _ s hlo hhi hs hlen hM request_lookup_drop]
  obtain ⟨a, ha⟩ : ∃ a : Master, a = log_call (recv st (mk_packet sender REQ_DROP (noun ++ [0])))
      (call.finalize REQ_DROP sender) := ⟨_, rfl⟩
  have hfa : a.fault = false := by rw [ha]; exact hf
  have hsa : hash_lookup a.child_map sender = some s := by rw [ha]; exact hs
  have hra : room_get a.world s.room = some room := by rw [ha]; exact hr
  have hda : userdb_lookup a.userdb (some uname) = some user := by rw [ha]; exact hdb
  have hca : a.child_map = st.child_map := by rw [ha]; rfl
  have hwa : a.world = st.world := by rw [ha]; rfl
  have hua : a.userdb = st.userdb := by rw [ha]; rfl
  have hna : a.next_ptr = st.next_ptr := by rw [ha]; rfl
  have hsent : a.sent = st.sent := by rw [ha]; rfl
  rw [run_request_finalize env _ _ _ _ _ _ (by exact hf), recv_data, ← ha]
  have hc : cstr (noun ++ [0] ++ st.packet.drop (sizeof_pid_t + 1 + (noun ++ [0]).length)) = noun := by
    rw [List.append_assoc]; exact cstr_terminated noun _ hnoun
  rw [req_drop_one env a sender s uname user room e _ _ hfa hmsg hsa hu hda hra
    (by rw [hc]; exact hone) hcls]
  rw [send_packet_none env _ sender REQ_ALLDONE (by rw [server_save_state_fault]; exact hfa) hM1]
  refine ⟨_, rfl, ?_, ?_, ?_, ?_, ?_⟩
  · simp only [server_save_state_fault]; exact hfa
  · simp only [server_save_state_child_map]; exact hca
  · simp only [server_save_state_userdb, hua]
  · simp only [server_save_state_world, hwa, obj_dup, hna]
  · simp only [server_save_state_sent, hsent]; simp

/-- C8 (amended): take-then-drop is a round trip for an object that the room files
only under its own name. The sender is logged in as a user of the
database with an empty inventory; its room files exactly one object under the
noun, under the object's own name, no other entry of the room is at the object's
address (the object has no alias), and the object's class has neither a take nor
a drop hook. Then TAKE of
the noun is answered with "Taken." and ALLDONE, leaves nothing under the noun in
the room and exactly that object in the inventory; a following DROP of the same
noun is answered with "Dropped." and ALLDONE and leaves the inventory empty and
the room's multimap with the contents it had before the TAKE, compared without
addresses and with multiplicities, the object being listed once under the noun. -/
theorem take_then_drop_roundtrip (env : Env) (st : Master) (sender : Int) (s : child_data)
    (uname : List Nat) (user : userdata_t) (room : room_t) (obj : object_t) (noun : List Nat)
    (hf : st.fault = false)
    (hM : env.MSG_MAX < 2 ^ 64)
    (hmsg : (str "Dropped.
").length < env.MSG_MAX)
    (hlen : sizeof_pid_t + 1 + (noun ++ [0]).length ≤ env.MSG_MAX)
    (hnoun : ∀ b ∈ noun, b ≠ 0)
    (hlo : -2 ^ 31 ≤ sender) (hhi : sender < 2 ^ 31)
    (hs : hash_lookup st.child_map sender = some s)
    (hu : s.user = some uname)
    (hdb : userdb_lookup st.userdb (some uname) = some user)
    (hinv : user.objects = [])
    (hr : room_get st.world s.room = some room)
    (hone : multimap_lookup room.objects noun = [⟨obj.name, obj⟩])
    (hptr : ∀ e ∈ room.objects, e.val.ptr = obj.ptr → e = ⟨obj.name, obj⟩)
    (htake : (env.obj_class obj.cls).hook_take = none)
    (hdrop : (env.obj_class obj.cls).hook_drop = none) :
    ∃ st1 st2 : Master,
      handle_child_req env st (some (mk_packet sender REQ_TAKE (noun ++ [0]))) = (true, st1) ∧
      handle_child_req env st1 (some (mk_packet sender REQ_DROP (noun ++ [0]))) = (true, st2) ∧
      st1.fault = false ∧
      sent_since st.sent.length st1
        = [⟨sender, REQ_BCASTMSG :: str "Taken.
"⟩, ⟨sender, [REQ_ALLDONE]⟩] ∧
      (∃ room1, room_get st1.world s.room = some room1 ∧
        multimap_lookup room1.objects noun = [] ∧
        room1.objects = multimap_delete_ptr room.objects obj.ptr) ∧
      (∃ user1, userdb_lookup st1.userdb (some uname) = some user1 ∧
        user1.objects = [⟨obj.name, obj⟩]) ∧
      st2.fault = false ∧
      sent_since st1.sent.length st2
        = [⟨sender, REQ_BCASTMSG :: str "Dropped.
"⟩, ⟨sender, [REQ_ALLDONE]⟩] ∧
      (∃ room2, room_get st2.world s.room = some room2 ∧
        (multimap_contents room2.objects).Perm (multimap_contents room.objects) ∧
        multimap_contents (multimap_lookup room2.objects noun) = [⟨obj.name, obj_fields obj⟩]) ∧
      (∃ user2, userdb_lookup st2.userdb (some uname) = some user2 ∧ user2.objects = []) := by
  have hmsg1 : (str "Dropped.
").length = 9 := by decide
  have hmsg2 : (str "Taken.
").length = 7 := by decide
  have hmem : (⟨obj.name, obj⟩ : multimap_list) ∈ multimap_lookup room.objects noun := by
    rw [hone]; exact List.mem_singleton.mpr rfl
  have hkey : key_eq obj.name noun = true := (List.mem_filter.mp hmem).2
  have huname := userdb_lookup_name hdb
  obtain ⟨st1, e1, hf1, hc1, hn1, hu1, hw1, hs1⟩ :=
    take_step env st sender s uname user room ⟨obj.name, obj⟩ noun hf hM (by omega) hlen hnoun
      hlo hhi hs hu hdb hr hone htake
  dsimp only at hu1 hw1
  have hs' : hash_lookup st1.child_map sender = some s := by rw [hc1]; exact hs
  have hdb' : userdb_lookup st1.userdb (some uname)
      = some { user with objects := [⟨obj.name, obj⟩] } := by
    rw [hu1, userdb_lookup_map_update st.userdb uname (fun m => multimap_insert m obj.name obj)
      uname, hdb]
    simp [huname, hinv, multimap_insert]
  have hr' : room_get st1.world s.room
      = some { room with objects := multimap_delete_ptr room.objects obj.ptr } := by
    rw [hw1, room_get_modify_same _ _ _ _ hr]
  have hone' : multimap_lookup [(⟨obj.name, obj⟩ : multimap_list)] noun = [⟨obj.name, obj⟩] := by
    simp [multimap_lookup, hkey]
  obtain ⟨st2, e2, hf2, hc2, hu2, hw2, hs2⟩ :=
    drop_step env st1 sender s uname { user with objects := [⟨obj.name, obj⟩] }
      { room with objects := multimap_delete_ptr room.objects obj.ptr } ⟨obj.name, obj⟩ noun
      hf1 hM hmsg hlen hnoun hlo hhi hs' hu hdb' hr' hone' hdrop
  dsimp only at hu2 hw2
  refine ⟨st1, st2, e1, e2, hf1, ?_, ?_, ?_, hf2, ?_, ?_, ?_⟩
  · simp [sent_since, hs1]
  · exact ⟨_, hr', lookup_after_delete _ _ _ hone, rfl⟩
  · exact ⟨_, hdb', rfl⟩
  · simp [sent_since, hs2]
  · have hr2 := room_get_modify_same st1.world s.room _
      (fun r => { r with objects := multimap_insert r.objects obj.name (obj_dup st1 obj).1 }) hr'
    rw [← hw2] at hr2
    refine ⟨_, hr2, ?_, ?_⟩
    · simp only [obj_dup]
      exact delete_reinsert_perm room.objects noun obj _ hone hptr
    · simp only [obj_dup, multimap_insert, multimap_lookup, List.filter_append]
      have := lookup_after_delete room.objects noun obj hone
      unfold multimap_lookup at this
      rw [this]
      simp [hkey, multimap_contents, obj_fields]
  · have hd2 := userdb_lookup_map_update st1.userdb uname
      (fun m => multimap_delete_ptr m obj.ptr) uname
    rw [← hu2, hdb'] at hd2
    refine ⟨_, hd2, ?_⟩
    simp [huname, multimap_delete_ptr]

/-- C8 (amended), witness: alice takes the lamp of room 0 and drops it again. -/
theorem take_then_drop_roundtrip_witness :
    userdb_lookup st_alice.userdb (some (str "alice")) = some ⟨str "alice", [], [], 1337, 0, [], 0⟩ ∧
    multimap_lookup hall.objects (str "lamp") = [⟨lamp.name, lamp⟩] ∧
    ∃ st1 st2 : Master,
      handle_child_req env0 st_alice (some (mk_packet 7 REQ_TAKE (str "lamp" ++ [0]))) = (true, st1) ∧
      handle_child_req env0 st1 (some (mk_packet 7 REQ_DROP (str "lamp" ++ [0]))) = (true, st2) ∧
      st1.fault = false ∧
      sent_since st_alice.sent.length st1
        = [⟨7, REQ_BCASTMSG :: str "Taken.\n"⟩, ⟨7, [REQ_ALLDONE]⟩] ∧
      (∃ room1, room_get st1.world 0 = some room1 ∧
        multimap_lookup room1.objects (str "lamp") = [] ∧
        room1.objects = multimap_delete_ptr hall.objects lamp.ptr) ∧
      (∃ user1, userdb_lookup st1.userdb (some (str "alice")) = some user1 ∧
        user1.objects = [⟨lamp.name, lamp⟩]) ∧
      st2.fault = false ∧
      sent_since st1.sent.length st2
        = [⟨7, REQ_BCASTMSG :: str "Dropped.\n"⟩, ⟨7, [REQ_ALLDONE]⟩] ∧
      (∃ room2, room_get st2.world 0 = some room2 ∧
        (multimap_contents room2.objects).Perm (multimap_contents hall.objects) ∧
        multimap_contents (multimap_lookup room2.objects (str "lamp"))
          = [⟨lamp.name, obj_fields lamp⟩]) ∧
      (∃ user2, userdb_lookup st2.userdb (some (str "alice")) = some user2 ∧
        user2.objects = []) :=
  ⟨rfl, by decide,
    take_then_drop_roundtrip env0 st_alice 7 ⟨7, 0, 3, some (str "alice"), 0, none⟩ (str "alice")
      ⟨str "alice", [], [], 1337, 0, [], 0⟩ hall lamp (str "lamp") rfl (by decide) (by decide)
      (by decide) (by decide) (by decide) (by decide) rfl rfl rfl rfl rfl (by decide) (by decide)
      rfl rfl⟩

/-- C8 (counterexample): room 0 files the lamp under its name "lamp" and under the alias
"light"; the class of the lamp has no hooks and alice is logged in with an empty
inventory. Under either noun the room holds exactly one object. TAKE "lamp" and
then DROP "lamp" are answered with "Taken." and "Dropped.", but the room is not
as before: the entry under "light" is gone. TAKE "light" is answered with
"Taken." and files the lamp in the inventory under its name, so the following
DROP "light" is answered with "You don't have that." and the lamp stays in the
inventory. -/
theorem take_then_drop_alias_no_roundtrip :
    multimap_lookup hall_alias.objects (str "lamp") = [⟨str "lamp", lamp⟩] ∧
    multimap_lookup hall_alias.objects (str "light") = [⟨str "light", lamp⟩] ∧
    (env0.obj_class lamp.cls).hook_take.isNone = true ∧
    (env0.obj_class lamp.cls).hook_drop.isNone = true ∧
    (userdb_lookup st_alice_alias.userdb (some (str "alice"))).map (fun u => u.objects)
      = some [] ∧
    (room_get st_alice_alias.world 0).map (fun r => r.objects.map (fun e => (e.key, e.val.name)))
      = some [(str "lamp", str "lamp"), (str "light", str "lamp"), (str "key", str "key")] ∧
    sent_since st_alice_alias.sent.length st_take_lamp
      = [⟨7, REQ_BCASTMSG :: str "Taken.\n"⟩, ⟨7, [REQ_ALLDONE]⟩] ∧
    sent_since st_take_lamp.sent.length
        (handle_child_req env0 st_take_lamp (some (mk_packet 7 REQ_DROP (str "lamp" ++ [0])))).2
      = [⟨7, REQ_BCASTMSG :: str "Dropped.\n"⟩, ⟨7, [REQ_ALLDONE]⟩] ∧
    (room_get (handle_child_req env0 st_take_lamp
        (some (mk_packet 7 REQ_DROP (str "lamp" ++ [0])))).2.world 0).map
        (fun r => r.objects.map (fun e => (e.key, e.val.name)))
      = some [(str "key", str "key"), (str "lamp", str "lamp")] ∧
    sent_since st_alice_alias.sent.length st_take_light
      = [⟨7, REQ_BCASTMSG :: str "Taken.\n"⟩, ⟨7, [REQ_ALLDONE]⟩] ∧
    (userdb_lookup st_take_light.userdb (some (str "alice"))).map
        (fun u => u.objects.map (fun e => (e.key, e.val.name)))
      = some [(str "lamp", str "lamp")] ∧
    sent_since st_take_light.sent.length
        (handle_child_req env0 st_take_light (some (mk_packet 7 REQ_DROP (str "light" ++ [0])))).2
      = [⟨7, REQ_BCASTMSG :: str "You don't have that.\n"⟩, ⟨7, [REQ_ALLDONE]⟩] ∧
    (userdb_lookup (handle_child_req env0 st_take_light
        (some (mk_packet 7 REQ_DROP (str "light" ++ [0])))).2.userdb (some (str "alice"))).map
        (fun u => u.objects.map (fun e => (e.key, e.val.name)))
      = some [(str "lamp", str "lamp")] := by
  decide

/-! ### C9: short reads -/

/-- C9 (failing input): `read` returns -1. The cast `(size_t)packet_len` turns -1 into
2^64 - 1, which is not below `sizeof(pid_t) + 1`, so the call is not treated as a
disconnect: it returns true. After a NOP packet from worker 7 the buffer still
holds that packet, so the failed read looks up worker 7 from the stale buffer and
sends it an ALLDONE packet. -/
theorem read_error_not_disconnect :
    (handle_child_req env0 st0 none).1 = true ∧
    (handle_child_req env0 st_nop none).1 = true ∧
    sent_since st_nop.sent.length (handle_child_req env0 st_nop none).2
      = [⟨7, [REQ_ALLDONE]⟩] := by
  decide

/-! ### C10: malformed payload lengths -/

/-- C10 (failing input): a SETROOM request whose payload is the single byte 1, not the
four bytes of a room id, from worker 7 in room 0. `req_set_room` reads a room id
from the buffer without looking at the length: the worker's room becomes 1 and
the worker is added to the user list of room 1; ALLDONE is sent. A MOVE request
with an empty payload likewise reads direction 0 from the buffer and moves the
worker to room 1. -/
theorem setroom_short_payload_moves :
    (hash_lookup st0.child_map 7).map (fun c => c.room) = some 0 ∧
    st0.world.map (fun room => room.users) = [[7, 9], []] ∧
    (hash_lookup (handle_child_req env0 st0 (some (mk_packet 7 REQ_SETROOM [1]))).2.child_map 7).map
        (fun c => c.room) = some 1 ∧
    (handle_child_req env0 st0 (some (mk_packet 7 REQ_SETROOM [1]))).2.world.map
        (fun room => room.users) = [[7, 9], [7]] ∧
    (handle_child_req env0 st0 (some (mk_packet 7 REQ_SETROOM [1]))).2.sent
      = [⟨7, [REQ_ALLDONE]⟩] ∧
    (hash_lookup (handle_child_req env0 st0 (some (mk_packet 7 REQ_MOVE []))).2.child_map 7).map
        (fun c => c.room) = some 1 ∧
    (handle_child_req env0 st0 (some (mk_packet 7 REQ_MOVE []))).2.world.map
        (fun room => room.users) = [[9], [7]] ∧
    (handle_child_req env0 st0 (some (mk_packet 7 REQ_MOVE []))).2.sent
      = [⟨7, REQ_MOVE :: int32_bytes 1⟩, ⟨7, [REQ_ALLDONE]⟩] := by
  decide

/-! ## Supporting facts: what the dispatcher sends besides ALLDONE -/

theorem no_alldone_refl (s : Int) (st : Master) : no_alldone_to s st st :=
  ⟨[], by simp, by intro p hp; cases hp⟩

theorem no_alldone_of_sent_eq (s : Int) (st st' : Master) (h : st'.sent = st.sent) :
    no_alldone_to s st st' :=
  ⟨[], by simp [h], by intro p hp; cases hp⟩

theorem no_alldone_trans {s : Int} {a b c : Master} (h1 : no_alldone_to s a b)
    (h2 : no_alldone_to s b c) : no_alldone_to s a c := by
  obtain ⟨e1, he1, hp1⟩ := h1
  obtain ⟨e2, he2, hp2⟩ := h2
  refine ⟨e1 ++ e2, by rw [he2, he1, List.append_assoc], ?_⟩
  intro p hp
  rcases List.mem_append.mp hp with h | h
  · exact hp1 p h
  · exact hp2 p h

theorem no_alldone_die (s : Int) (st : Master) : no_alldone_to s st (die st) :=
  no_alldone_of_sent_eq s _ _ rfl

theorem no_alldone_write (s : Int) (st : Master) (child : Int) (pkt : List Nat)
    (h : child = s → pkt.head? ≠ some REQ_ALLDONE) :
    no_alldone_to s st (write_packet st child pkt) := by
  unfold write_packet
  split
  · exact no_alldone_refl s st
  · refine ⟨[⟨child, pkt⟩], rfl, ?_⟩
    intro p hp
    rw [List.mem_singleton] at hp
    subst hp
    exact h

theorem no_alldone_send_split (s : Int) (send : Master → List Nat → Nat → Master)
    (hsend : ∀ st p n, no_alldone_to s st (send st p n)) (M : Nat) (d : List Nat)
    (datalen : Nat) :
    ∀ (fuel : Nat) (st : Master) (off : Nat),
      no_alldone_to s st (send_split send M fuel st d off datalen) := by
  intro fuel
  induction fuel with
  | zero => intro st off; exact no_alldone_die s st
  | succ fuel ih =>
    intro st off
    unfold send_split
    split
    · exact no_alldone_trans (hsend st _ _) (ih _ _)
    · exact no_alldone_refl s st

theorem no_alldone_send_packet_fuel (env : Env) (s child : Int) (cmd : Nat)
    (h : child = s → cmd ≠ REQ_ALLDONE) :
    ∀ (fuel : Nat) (st : Master) (data : Option (List Nat)) (datalen : Nat),
      no_alldone_to s st (send_packet_fuel env child cmd fuel st data datalen) := by
  have hw : ∀ (st : Master) (body : List Nat),
      no_alldone_to s st (write_packet st child (cmd :: body)) := by
    intro st body
    apply no_alldone_write
    intro hc
    simp only [List.head?_cons, ne_eq, Option.some.injEq]
    exact h hc
  intro fuel
  induction fuel with
  | zero => intro st _ _; exact no_alldone_die s st
  | succ fuel ih =>
    intro st data datalen
    unfold send_packet_fuel
    split
    · exact no_alldone_refl s st
    · split
      · exact no_alldone_die s st
      · split
        · split
          · exact no_alldone_die s st
          · exact hw st []
        · split
          · exact no_alldone_die s st
          · split
            · exact no_alldone_send_split s _ (fun st p n => ih st (some p) n) _ _ _ _ _ _
            · exact hw st _

theorem no_alldone_send_packet (env : Env) (s child : Int) (cmd : Nat)
    (h : child = s → cmd ≠ REQ_ALLDONE) (st : Master) (data : Option (List Nat))
    (datalen : Nat) : no_alldone_to s st (send_packet env st child cmd data datalen) :=
  no_alldone_send_packet_fuel env s child cmd h 2 st data datalen

theorem no_alldone_send_msg (env : Env) (s child : Int) (st : Master) (msg : List Nat) :
    no_alldone_to s st (send_msg env st child msg) :=
  no_alldone_send_packet env s child REQ_BCASTMSG (fun _ => by decide) st _ _


theorem no_alldone_foldl {α : Type} (s : Int) (f : Master → α → Master)
    (hf : ∀ acc x, no_alldone_to s acc (f acc x)) (L : List α) :
    ∀ a : Master, no_alldone_to s a (L.foldl f a) := by
  induction L with
  | nil => intro a; exact no_alldone_refl s a
  | cons x L ih => intro a; exact no_alldone_trans (hf a x) (ih _)

theorem child_update_sent (st : Master) (pid : Int) (f : child_data → child_data) :
    (child_update st pid f).sent = st.sent := by
  unfold child_update; split <;> rfl

theorem room_update_sent (st : Master) (id : Int) (f : room_t → room_t) :
    (room_update st id f).sent = st.sent := by
  unfold room_update; split_ifs <;> rfl

theorem userdb_set_objects_sent (st : Master) (n : List Nat) (f : multimap → multimap) :
    (userdb_set_objects st n f).sent = st.sent := by
  unfold userdb_set_objects; split <;> rfl

theorem userdb_add_obj_sent (st : Master) (n : Option (List Nat)) (o : object_t) :
    (userdb_add_obj st n o).sent = st.sent := by
  unfold userdb_add_obj; split
  · exact userdb_set_objects_sent _ _ _
  · rfl

theorem userdb_del_obj_by_ptr_sent (st : Master) (n : Option (List Nat)) (o : object_t) :
    (userdb_del_obj_by_ptr st n o).sent = st.sent := by
  unfold userdb_del_obj_by_ptr; split
  · exact userdb_set_objects_sent _ _ _
  · rfl

theorem userdb_remove_sent (st : Master) (n : List Nat) :
    (userdb_remove st n).2.sent = st.sent := by
  unfold userdb_remove; split <;> rfl

theorem userdb_add_sent (st : Master) (u : userdata_t) :
    (userdb_add st u).2.sent = st.sent := by
  unfold userdb_add; split <;> rfl

theorem room_obj_add_sent (st : Master) (r : Int) (o : object_t) :
    (room_obj_add st r o).sent = st.sent := by
  unfold room_obj_add; split
  · rfl
  · exact room_update_sent _ _ _

theorem room_obj_del_by_ptr_sent (st : Master) (r : Int) (o : object_t) :
    (room_obj_del_by_ptr st r o).sent = st.sent := by
  unfold room_obj_del_by_ptr; split
  · rfl
  · exact room_update_sent _ _ _

theorem room_user_add_sent (st : Master) (r : Int) (p : Int) :
    (room_user_add st r p).sent = st.sent := by
  unfold room_user_add; split
  · rfl
  · exact room_update_sent _ _ _

theorem room_user_del_sent (st : Master) (r : Int) (p : Int) :
    (room_user_del st r p).sent = st.sent := by
  unfold room_user_del; split
  · rfl
  · exact room_update_sent _ _ _

theorem obj_dup_sent (st : Master) (o : object_t) : (obj_dup st o).2.sent = st.sent := by
  unfold obj_dup; simp only []; split <;> rfl

theorem child_set_room_sent (st : Master) (c : Int) (id : Int) :
    (child_set_room st c id).sent = st.sent := by
  unfold child_set_room
  rw [room_user_add_sent, child_update_sent]

/-! The handlers never write an ALLDONE to the sender. -/

theorem quiet_pass_msg (env : Env) (d : List Nat) (n : Nat) (s c : Int) (st : Master) :
    no_alldone_to s st (req_pass_msg env d n s c st) := by
  unfold req_pass_msg
  simp only []
  split
  · rename_i hne
    exact no_alldone_trans
      (no_alldone_send_packet env s c REQ_BCASTMSG (fun _ => by decide) st _ _)
      (no_alldone_send_packet env s c REQ_ALLDONE (fun h => absurd h hne) _ _ _)
  · exact no_alldone_send_packet env s c REQ_BCASTMSG (fun _ => by decide) st _ _

theorem quiet_send_clientinfo (env : Env) (d : List Nat) (n : Nat) (s c : Int) (st : Master) :
    no_alldone_to s st (req_send_clientinfo env d n s c st) := by
  unfold req_send_clientinfo
  split
  · exact no_alldone_refl s st
  · split
    · exact no_alldone_die s st
    · exact no_alldone_send_packet env s s REQ_BCASTMSG (fun _ => by decide) st _ _

theorem quiet_change_state (env : Env) (d : List Nat) (n : Nat) (s c : Int) (st : Master) :
    no_alldone_to s st (req_change_state env d n s c st) := by
  unfold req_change_state
  split
  · exact no_alldone_of_sent_eq s _ _ (child_update_sent _ _ _)
  · exact no_alldone_refl s st

theorem quiet_change_user (env : Env) (d : List Nat) (n : Nat) (s c : Int) (st : Master) :
    no_alldone_to s st (req_change_user env d n s c st) :=
  no_alldone_of_sent_eq s _ _ (child_update_sent _ _ _)

theorem quiet_kick_client (env : Env) (d : List Nat) (n : Nat) (s c : Int) (st : Master) :
    no_alldone_to s st (req_kick_client env d n s c st) := by
  unfold req_kick_client
  split
  · simp only []
    split
    · exact no_alldone_trans
        (no_alldone_send_packet env s c REQ_KICK (fun _ => by decide) st _ _)
        (no_alldone_send_msg env s s _ _)
    · exact no_alldone_refl s st
  · exact no_alldone_refl s st

theorem quiet_kick_always (env : Env) (d : List Nat) (n : Nat) (s c : Int) (st : Master) :
    no_alldone_to s st (req_kick_always env d n s c st) :=
  no_alldone_send_packet env s c REQ_KICK (fun _ => by decide) st _ _

theorem quiet_wait (env : Env) (d : List Nat) (n : Nat) (s : Int) (st : Master) :
    no_alldone_to s st (req_wait env d n s st) := no_alldone_refl s st

theorem quiet_send_desc (env : Env) (d : List Nat) (n : Nat) (s : Int) (st : Master) :
    no_alldone_to s st (req_send_desc env d n s st) := by
  unfold req_send_desc
  split
  · exact no_alldone_refl s st
  · split
    · exact no_alldone_die s st
    · simp only []
      refine no_alldone_trans
        (no_alldone_trans
          (no_alldone_send_packet env s s REQ_BCASTMSG (fun _ => by decide) st _ _)
          (no_alldone_send_packet env s s REQ_PRINTNEWLINE (fun _ => by decide) _ _ _))
        (no_alldone_foldl s _ ?_ _ _)
      intro acc it
      split
      · exact no_alldone_send_msg env s s _ _
      · exact no_alldone_refl s acc

theorem quiet_send_roomname (env : Env) (d : List Nat) (n : Nat) (s : Int) (st : Master) :
    no_alldone_to s st (req_send_roomname env d n s st) := by
  unfold req_send_roomname
  split
  · exact no_alldone_refl s st
  · split
    · exact no_alldone_die s st
    · split
      · exact no_alldone_trans
          (no_alldone_send_packet env s s REQ_BCASTMSG (fun _ => by decide) st _ _)
          (no_alldone_send_packet env s s REQ_PRINTNEWLINE (fun _ => by decide) _ _ _)
      · exact no_alldone_refl s st

theorem quiet_set_room (env : Env) (d : List Nat) (n : Nat) (s : Int) (st : Master) :
    no_alldone_to s st (req_set_room env d n s st) :=
  no_alldone_of_sent_eq s _ _ (child_set_room_sent _ _ _)

theorem quiet_move_room (env : Env) (d : List Nat) (n : Nat) (s : Int) (st : Master) :
    no_alldone_to s st (req_move_room env d n s st) := by
  unfold req_move_room
  split
  · exact no_alldone_refl s st
  · simp only []
    split
    · exact no_alldone_die s st
    · split
      · exact no_alldone_die s st
      · split
        · exact no_alldone_trans (no_alldone_send_msg env s s _ _)
            (no_alldone_send_packet env s s REQ_MOVE (fun _ => by decide) _ _ _)
        · split
          · exact no_alldone_die s st
          · split
            · refine no_alldone_trans (no_alldone_of_sent_eq s st _ ?_)
                (no_alldone_send_packet env s s REQ_MOVE (fun _ => by decide) _ _ _)
              rw [child_set_room_sent, room_user_del_sent]
            · exact no_alldone_send_packet env s s REQ_MOVE (fun _ => by decide) _ _ _

theorem quiet_send_user (env : Env) (d : List Nat) (n : Nat) (s : Int) (st : Master) :
    no_alldone_to s st (req_send_user env d n s st) := by
  unfold req_send_user
  split
  · split
    · exact no_alldone_send_packet env s s REQ_GETUSERDATA (fun _ => by decide) _ _ _
    · exact no_alldone_refl s st
  · exact no_alldone_refl s st

theorem quiet_del_user (env : Env) (d : List Nat) (n : Nat) (s : Int) (st : Master) :
    no_alldone_to s st (req_del_user env d n s st) := by
  unfold req_del_user
  simp only []
  refine no_alldone_trans (no_alldone_of_sent_eq s st _ ?_)
    (no_alldone_send_packet env s s REQ_DELUSERDATA (fun _ => by decide) _ _ _)
  split
  · exact userdb_remove_sent _ _
  · rfl

theorem quiet_add_user (env : Env) (d : List Nat) (n : Nat) (s : Int) (st : Master) :
    no_alldone_to s st (req_add_user env d n s st) := by
  unfold req_add_user
  simp only []
  refine no_alldone_trans (no_alldone_of_sent_eq s st _ ?_)
    (no_alldone_send_packet env s s REQ_ADDUSERDATA (fun _ => by decide) _ _ _)
  split
  · exact userdb_add_sent _ _
  · rfl

theorem quiet_send_geninfo (env : Env) (d : List Nat) (n : Nat) (s : Int) (st : Master) :
    no_alldone_to s st (req_send_geninfo env d n s st) :=
  no_alldone_send_msg env s s _ _


theorem quiet_print_obj (env : Env) (sender : child_data) (n : Nat) (acc : Master × Int)
    (e : multimap_list) : no_alldone_to sender.pid acc.1 (print_obj env sender n acc e).1 := by
  unfold print_obj
  split
  · exact no_alldone_die _ _
  · simp only []
    split
    · exact no_alldone_send_msg env _ _ _ _
    · exact no_alldone_send_msg env _ _ _ _

theorem quiet_print_objlist (env : Env) (sender : child_data) (n : Nat)
    (L : List multimap_list) :
    ∀ (st : Master) (idx : Int),
      no_alldone_to sender.pid st (print_objlist env st sender L idx n).1 := by
  unfold print_objlist
  induction L with
  | nil => intro st idx; exact no_alldone_refl _ _
  | cons e L ih =>
    intro st idx
    rw [List.foldl_cons]
    exact no_alldone_trans (quiet_print_obj env sender n (st, idx) e) (ih _ _)

theorem quiet_look_at (env : Env) (d : List Nat) (n : Nat) (s : Int) (st : Master) :
    no_alldone_to s st (req_look_at env d n s st) := by
  unfold req_look_at
  split
  · exact no_alldone_refl s st
  · rename_i c hc
    have hpid := hash_lookup_pid hc
    have h1 : ∀ (L : List multimap_list) (k : Nat), no_alldone_to s st
        (if L ≠ [] then print_objlist env (send_msg env st s (str "In room:\n")) c L 1 k
          else (st, 1)).1 := by
      intro L k
      split
      · have := quiet_print_objlist env c k L (send_msg env st s (str "In room:\n")) 1
        rw [hpid] at this
        exact no_alldone_trans (no_alldone_send_msg env s s _ _) this
      · exact no_alldone_refl s st
    have h2 : ∀ (a : Master) (i : Int) (L : List multimap_list) (k : Nat), no_alldone_to s a
        (if L ≠ [] then
          (print_objlist env (send_msg env a s (str "In inventory:\n")) c L i k).1
        else a) := by
      intro a i L k
      split
      · have := quiet_print_objlist env c k L (send_msg env a s (str "In inventory:\n")) i
        rw [hpid] at this
        exact no_alldone_trans (no_alldone_send_msg env s s _ _) this
      · exact no_alldone_refl s a
    split
    · exact no_alldone_die s st
    · split
      · exact no_alldone_die s st
      · simp only []
        split
        · exact no_alldone_trans (no_alldone_trans (h1 _ _) (h2 _ _ _ _))
            (no_alldone_send_msg env s s _ _)
        · exact no_alldone_trans (h1 _ _) (h2 _ _ _ _)

theorem quiet_take_obj (env : Env) (c : child_data) (acc : Master) (e : multimap_list) :
    no_alldone_to c.pid acc (take_obj env c acc e) := by
  unfold take_obj
  simp only []
  split
  · exact no_alldone_send_msg env _ _ _ _
  · refine no_alldone_trans (no_alldone_of_sent_eq _ acc _ ?_) (no_alldone_send_msg env _ _ _ _)
    rw [room_obj_del_by_ptr_sent, userdb_add_obj_sent]

theorem quiet_take (env : Env) (d : List Nat) (n : Nat) (s : Int) (st : Master) :
    no_alldone_to s st (req_take env d n s st) := by
  unfold req_take
  split
  · exact no_alldone_refl s st
  · rename_i c hc
    have hpid := hash_lookup_pid hc
    split
    · exact no_alldone_die s st
    · simp only []
      split
      · refine no_alldone_trans ?_ (no_alldone_of_sent_eq s _ _ (server_save_state_sent _ _))
        have := no_alldone_foldl c.pid (take_obj env c) (quiet_take_obj env c)
        rw [hpid] at this
        exact this _ _
      · exact no_alldone_send_msg env s s _ _

theorem quiet_inventory (env : Env) (d : List Nat) (n : Nat) (s : Int) (st : Master) :
    no_alldone_to s st (req_inventory env d n s st) := by
  unfold req_inventory
  split
  · exact no_alldone_refl s st
  · split
    · exact no_alldone_die s st
    · simp only []
      have hfold : ∀ (a : Master) (L : List (multimap_list × Nat)),
          no_alldone_to s a (L.foldl (inventory_line env s) a) := by
        intro a L
        apply no_alldone_foldl
        intro acc it
        unfold inventory_line
        simp only []
        split
        · exact no_alldone_send_packet env s s REQ_BCASTMSG (fun _ => by decide) _ _ _
        · exact no_alldone_refl s acc
      split
      · exact no_alldone_trans (no_alldone_trans (no_alldone_send_msg env s s _ _) (hfold _ _))
          (no_alldone_send_msg env s s _ _)
      · exact no_alldone_trans (no_alldone_send_msg env s s _ _) (hfold _ _)

theorem quiet_drop_obj (env : Env) (c : child_data) (acc : Master) (e : multimap_list) :
    no_alldone_to c.pid acc (drop_obj env c acc e) := by
  unfold drop_obj
  simp only []
  have h0 : (userdb_del_obj_by_ptr (room_obj_add (obj_dup acc e.val).2 c.room (obj_dup acc e.val).1)
      c.user e.val).sent = acc.sent := by
    rw [userdb_del_obj_by_ptr_sent, room_obj_add_sent, obj_dup_sent]
  split
  · refine no_alldone_trans (no_alldone_of_sent_eq _ acc _ h0) ?_
    refine no_alldone_trans
      (no_alldone_send_msg env c.pid c.pid _ (str "You cannot drop that.\n"))
      (no_alldone_of_sent_eq _ _ _ ?_)
    rw [room_obj_del_by_ptr_sent, userdb_add_obj_sent, obj_dup_sent]
  · exact no_alldone_trans (no_alldone_of_sent_eq _ acc _ h0) (no_alldone_send_msg env _ _ _ _)

theorem quiet_drop (env : Env) (d : List Nat) (n : Nat) (s : Int) (st : Master) :
    no_alldone_to s st (req_drop env d n s st) := by
  unfold req_drop
  split
  · exact no_alldone_refl s st
  · rename_i c hc
    have hpid := hash_lookup_pid hc
    split
    · exact no_alldone_refl s st
    · simp only []
      split
      · exact no_alldone_send_msg env s s _ _
      · refine no_alldone_trans ?_ (no_alldone_of_sent_eq s _ _ (server_save_state_sent _ _))
        have := no_alldone_foldl c.pid (drop_obj env c) (quiet_drop_obj env c)
        rw [hpid] at this
        exact this _ _

theorem quiet_listusers (env : Env) (d : List Nat) (n : Nat) (s : Int) (st : Master) :
    no_alldone_to s st (req_listusers env d n s st) := by
  unfold req_listusers
  apply no_alldone_foldl
  intro acc u
  exact no_alldone_send_msg env s s _ _

theorem quiet_call_hook (s : Int) (st : Master) (hook : Master → Master)
    (h : ∀ a, (hook a).sent = a.sent) : no_alldone_to s st (call_hook st hook) := by
  unfold call_hook
  split
  · exact no_alldone_refl s st
  · exact no_alldone_of_sent_eq s _ _ (h st)

theorem poke_data_sent (st : Master) (d : List Nat) : (poke_data st d).sent = st.sent := by
  unfold poke_data; split <;> rfl

theorem quiet_execverb (env : Env) (hq : hooks_send_nothing env) (d : List Nat) (n : Nat)
    (s : Int) (st : Master) : no_alldone_to s st (req_execverb env d n s st) := by
  unfold req_execverb
  split
  · exact no_alldone_refl s st
  · split
    · exact quiet_call_hook s st _ (fun a => hq.2 _ _ _ _ a)
    · simp only []
      split
      · exact no_alldone_die s st
      · have hst1 : ∀ pk : List Nat, no_alldone_to s st (poke_data st pk) :=
          fun pk => no_alldone_of_sent_eq s _ _ (poke_data_sent st pk)
        split
        · exact no_alldone_trans (hst1 _) (no_alldone_die s _)
        · split
          · exact no_alldone_trans (hst1 _) (no_alldone_send_msg env s s _ _)
          · exact no_alldone_trans (hst1 _) (quiet_call_hook s _ _ (fun a => hq.1 _ _ _ a))


/-- No handler and no finalizer of the request table writes an ALLDONE to the
sender, hooks of the world module aside. -/
theorem requests_quiet (env : Env) (hq : hooks_send_nothing env) (req : child_request)
    (hmem : req ∈ requests) :
    (∀ h, req.handle_child = some h →
      ∀ d n s c st, no_alldone_to s st (h env d n s c st)) ∧
    (∀ f, req.finalize = some f → ∀ d n s st, no_alldone_to s st (f env d n s st)) := by
  simp only [requests, List.mem_cons, List.mem_singleton, List.not_mem_nil, or_false] at hmem
  rcases hmem with h | h | h | h | h | h | h | h | h | h | h | h | h | h | h | h | h | h | h | h | h
  all_goals subst h
  all_goals constructor
  all_goals intro f hf
  all_goals simp only [Option.some.injEq, reduceCtorEq] at hf
  all_goals subst hf
  all_goals intro d n s
  · exact quiet_pass_msg env d n s
  · exact quiet_change_state env d n s
  · exact quiet_change_user env d n s
  · exact quiet_kick_client env d n s
  · exact quiet_kick_always env d n s
  · exact quiet_send_clientinfo env d n s
  · exact quiet_send_geninfo env d n s
  · exact quiet_set_room env d n s
  · exact quiet_move_room env d n s
  · exact quiet_send_user env d n s
  · exact quiet_del_user env d n s
  · exact quiet_add_user env d n s
  · exact quiet_look_at env d n s
  · exact quiet_take env d n s
  · exact quiet_drop env d n s
  · exact quiet_execverb env hq d n s
  · exact quiet_wait env d n s
  · exact quiet_send_desc env d n s
  · exact quiet_send_roomname env d n s
  · exact quiet_inventory env d n s
  · exact quiet_listusers env d n s

theorem quiet_call_handle_child (env : Env) (hq : hooks_send_nothing env) (req : child_request)
    (hmem : req ∈ requests) (n : Nat) (s c : Int) (st : Master) :
    no_alldone_to s st (call_handle_child env req n s c st) := by
  unfold call_handle_child
  split
  · exact no_alldone_refl s st
  · split
    · exact no_alldone_die s st
    · rename_i h hh
      exact no_alldone_trans (no_alldone_of_sent_eq s st (log_call st _) rfl)
        ((requests_quiet env hq req hmem).1 h hh _ _ _ _ _)

theorem quiet_call_finalize (env : Env) (hq : hooks_send_nothing env) (req : child_request)
    (hmem : req ∈ requests) (n : Nat) (s : Int) (st : Master) :
    no_alldone_to s st (call_finalize env req n s st) := by
  unfold call_finalize
  split
  · exact no_alldone_refl s st
  · split
    · exact no_alldone_refl s st
    · rename_i f hf
      exact no_alldone_trans (no_alldone_of_sent_eq s st (log_call st _) rfl)
        ((requests_quiet env hq req hmem).2 f hf _ _ _ _)

theorem quiet_iterate_children (env : Env) (hq : hooks_send_nothing env) (req : child_request)
    (hmem : req ∈ requests) (n : Nat) (s : Int) (st : Master) :
    no_alldone_to s st (iterate_children env req n s st) := by
  unfold iterate_children
  apply no_alldone_foldl
  intro acc child
  unfold iterate_step
  split
  · exact no_alldone_refl s acc
  · split
    · exact quiet_call_handle_child env hq req hmem n s _ acc
    · exact quiet_call_handle_child env hq req hmem n s _ acc
    · exact no_alldone_refl s acc

theorem quiet_run_request (env : Env) (hq : hooks_send_nothing env) (req : child_request)
    (hmem : req ∈ requests) (n : Nat) (s : Int) (st : Master) :
    no_alldone_to s st (run_request env req n s st) := by
  unfold run_request
  refine no_alldone_trans ?_ (quiet_call_finalize env hq req hmem n s _)
  unfold fan_out
  split
  · exact quiet_call_handle_child env hq req hmem n s s st
  · exact no_alldone_trans (quiet_call_handle_child env hq req hmem n s s st)
      (quiet_iterate_children env hq req hmem n s _)
  · exact no_alldone_refl s st
  · exact quiet_iterate_children env hq req hmem n s st

theorem send_packet_of_fault (env : Env) (st : Master) (child : Int) (cmd : Nat)
    (data : Option (List Nat)) (n : Nat) (hf : st.fault = true) :
    send_packet env st child cmd data n = st := by
  simp [send_packet, send_packet_fuel, hf]

theorem handle_child_req_unknown (env : Env) (st : Master) (sender : Int) (cmd : Nat)
    (payload : List Nat) (s : child_data)
    (hlo : -2 ^ 31 ≤ sender) (hhi : sender < 2 ^ 31)
    (hs : hash_lookup st.child_map sender = some s)
    (hlen : sizeof_pid_t + 1 + payload.length ≤ env.MSG_MAX) (hM : env.MSG_MAX < 2 ^ 64)
    (hreq : request_lookup cmd = none) :
    handle_child_req env st (some (mk_packet sender cmd payload)) =
      (true, send_packet env (recv st (mk_packet sender cmd payload)) sender REQ_ALLDONE none 0) := by
  have hl := mk_packet_length sender cmd payload
  have hle : (mk_packet sender cmd payload).length ≤ env.MSG_MAX := by omega
  have hspid := hash_lookup_pid hs
  unfold handle_child_req
  simp only [read_packet_fst env st _ hle, read_packet_snd env st _ hle]
  have h1 : ¬ (to_size_t ((mk_packet sender cmd payload).length : Int) < sizeof_pid_t + 1) := by
    rw [to_size_t_natCast _ (by omega)]; omega
  have h2 : le_int32 (recv st (mk_packet sender cmd payload)).packet = sender := by
    unfold recv mk_packet
    simp only []
    rw [List.append_assoc]
    exact le_int32_int32_bytes sender hlo hhi _
  have h3 : (recv st (mk_packet sender cmd payload)).packet.getD sizeof_pid_t 0 = cmd := by
    simp [recv, mk_packet, int32_bytes, sizeof_pid_t]
  have h5 : (recv st (mk_packet sender cmd payload)).child_map = st.child_map := rfl
  rw [if_neg h1]
  simp only [h2, h5, hs, h3, hreq, hspid]

/-- For every packet of a known sender, whatever the request code: the call is
not treated as a disconnect, and unless the master faults while it handles the
request, the packets written for the request end with one ALLDONE to the sender
and hold no other ALLDONE to the sender (hooks of the world module assumed to
send nothing). -/
theorem alldone_unless_fault (env : Env) (hq : hooks_send_nothing env) (st : Master)
    (sender : Int) (cmd : Nat) (payload : List Nat) (s : child_data)
    (hlo : -2 ^ 31 ≤ sender) (hhi : sender < 2 ^ 31)
    (hs : hash_lookup st.child_map sender = some s)
    (hlen : sizeof_pid_t + 1 + payload.length ≤ env.MSG_MAX) (hM : env.MSG_MAX < 2 ^ 64) :
    (handle_child_req env st (some (mk_packet sender cmd payload))).1 = true ∧
    ((handle_child_req env st (some (mk_packet sender cmd payload))).2.fault = false →
      ∃ extra : List sent_packet,
        (handle_child_req env st (some (mk_packet sender cmd payload))).2.sent
          = st.sent ++ extra ++ [⟨sender, [REQ_ALLDONE]⟩] ∧
        ∀ p ∈ extra, p.dest = sender → p.bytes.head? ≠ some REQ_ALLDONE) := by
  have hM1 : 1 ≤ env.MSG_MAX := by omega
  have key : ∀ X : Master, no_alldone_to sender st X →
      ((send_packet env X sender REQ_ALLDONE none 0).fault = false →
        ∃ extra : List sent_packet,
          (send_packet env X sender REQ_ALLDONE none 0).sent
            = st.sent ++ extra ++ [⟨sender, [REQ_ALLDONE]⟩] ∧
          ∀ p ∈ extra, p.dest = sender → p.bytes.head? ≠ some REQ_ALLDONE) := by
    intro X hX hfin
    have hfX : X.fault = false := by
      by_contra hne
      have ht : X.fault = true := by simpa using hne
      rw [send_packet_of_fault env X _ _ _ _ ht] at hfin
      rw [ht] at hfin
      cases hfin
    obtain ⟨extra, hsent, hall⟩ := hX
    refine ⟨extra, ?_, hall⟩
    rw [send_packet_none env X sender REQ_ALLDONE hfX hM1]
    simp [hsent]
  cases hreq : request_lookup cmd with
  | none =>
    rw [handle_child_req_unknown env st sender cmd payload s hlo hhi hs hlen hM hreq]
    exact ⟨rfl, key _ (no_alldone_of_sent_eq sender st _ rfl)⟩
  | some req =>
    rw [handle_child_req_known env st sender cmd payload req s hlo hhi hs hlen hM hreq]
    have hmem : req ∈ requests := List.mem_of_find?_eq_some hreq
    refine ⟨rfl, key _ ?_⟩
    exact no_alldone_trans (no_alldone_of_sent_eq sender st (recv st _) rfl)
      (quiet_run_request env hq req hmem _ sender _)

/-! ## Supporting facts: short reads and checked payload lengths -/

/-- A read of fewer than `sizeof(pid_t) + 1` bytes (also of no byte at all) is
treated as a disconnect: the call returns false, and only the receive buffer has
changed: no handler is invoked, no packet is sent. -/
theorem short_read_returns_false (env : Env) (st : Master) (bytes : List Nat)
    (h : (bytes.take env.MSG_MAX).length < sizeof_pid_t + 1) :
    handle_child_req env st (some bytes) = (false, recv st (bytes.take env.MSG_MAX)) := by
  have h64 : (bytes.take env.MSG_MAX).length < 2 ^ 64 := by unfold sizeof_pid_t at h; omega
  simp only [handle_child_req, read_packet, to_size_t_natCast _ h64, if_pos h]

theorem request_lookup_changestate :
    request_lookup REQ_CHANGESTATE
      = some ⟨REQ_CHANGESTATE, true, which_t.CHILD_SENDER, some req_change_state, none⟩ := rfl

theorem request_lookup_adduser :
    request_lookup REQ_ADDUSERDATA
      = some ⟨REQ_ADDUSERDATA, true, which_t.CHILD_NONE, none, some req_add_user⟩ := rfl

/-- A CHANGESTATE request whose payload does not have the size of an `int` changes
neither the client table nor the world nor the user database, and ALLDONE is
sent. -/
theorem changestate_bad_length (env : Env) (st : Master) (sender : Int) (s : child_data)
    (payload : List Nat)
    (hf : st.fault = false) (hM : env.MSG_MAX < 2 ^ 64)
    (hlen : sizeof_pid_t + 1 + payload.length ≤ env.MSG_MAX)
    (hlo : -2 ^ 31 ≤ sender) (hhi : sender < 2 ^ 31)
    (hs : hash_lookup st.child_map sender = some s)
    (hbad : payload.length ≠ sizeof_int) :
    (handle_child_req env st (some (mk_packet sender REQ_CHANGESTATE payload))).2.child_map
      = st.child_map ∧
    (handle_child_req env st (some (mk_packet sender REQ_CHANGESTATE payload))).2.world
      = st.world ∧
    (handle_child_req env st (some (mk_packet sender REQ_CHANGESTATE payload))).2.userdb
      = st.userdb ∧
    (handle_child_req env st (some (mk_packet sender REQ_CHANGESTATE payload))).2.sent
      = st.sent ++ [⟨sender, [REQ_ALLDONE]⟩] := by
  have hM1 : 1 ≤ env.MSG_MAX := by omega
  rw [handle_child_req_known env st sender REQ_CHANGESTATE _ _ s hlo hhi hs hlen hM
    request_lookup_changestate]
  have hrun : run_request env
      ⟨REQ_CHANGESTATE, true, which_t.CHILD_SENDER, some req_change_state, none⟩
      payload.length sender (recv st (mk_packet sender REQ_CHANGESTATE payload))
      = log_call (recv st (mk_packet sender REQ_CHANGESTATE payload))
          (call.handle_child REQ_CHANGESTATE sender sender) := by
    have hf' : (recv st (mk_packet sender REQ_CHANGESTATE payload)).fault = false := hf
    simp [run_request, fan_out, call_finalize, call_handle_child, req_change_state, hbad, hf', log_call]
  rw [hrun, send_packet_none env _ sender REQ_ALLDONE (by exact hf) hM1]
  exact ⟨rfl, rfl, rfl, rfl⟩

/-- An ADDUSERDATA request whose payload does not have the size of a user record
changes neither the client table nor the world nor the user database; the reply
carries the result false, and ALLDONE is sent. -/
theorem adduser_bad_length (env : Env) (st : Master) (sender : Int) (s : child_data)
    (payload : List Nat)
    (hf : st.fault = false) (hM : env.MSG_MAX < 2 ^ 64)
    (hlen : sizeof_pid_t + 1 + payload.length ≤ env.MSG_MAX)
    (hlo : -2 ^ 31 ≤ sender) (hhi : sender < 2 ^ 31)
    (hs : hash_lookup st.child_map sender = some s)
    (hbad : payload.length ≠ env.sizeof_userdata) :
    (handle_child_req env st (some (mk_packet sender REQ_ADDUSERDATA payload))).2.child_map
      = st.child_map ∧
    (handle_child_req env st (some (mk_packet sender REQ_ADDUSERDATA payload))).2.world
      = st.world ∧
    (handle_child_req env st (some (mk_packet sender REQ_ADDUSERDATA payload))).2.userdb
      = st.userdb ∧
    (handle_child_req env st (some (mk_packet sender REQ_ADDUSERDATA payload))).2.sent
      = st.sent ++ [⟨sender, [REQ_ADDUSERDATA, 0]⟩, ⟨sender, [REQ_ALLDONE]⟩] := by
  have hM1 : 1 ≤ env.MSG_MAX := by omega
  have hM2 : sizeof_bool < env.MSG_MAX := by unfold sizeof_bool; unfold sizeof_pid_t at hlen; omega
  rw [handle_child_req_known env st sender REQ_ADDUSERDATA _ _ s hlo hhi hs hlen hM
    request_lookup_adduser]
  have hf' : (recv st (mk_packet sender REQ_ADDUSERDATA payload)).fault = false := hf
  rw [run_request_finalize env _ _ _ _ _ _ hf']
  have hreq : req_add_user env
      ((recv st (mk_packet sender REQ_ADDUSERDATA payload)).packet.drop (sizeof_pid_t + 1))
      payload.length sender
      (log_call (recv st (mk_packet sender REQ_ADDUSERDATA payload))
        (call.finalize REQ_ADDUSERDATA sender))
      = { log_call (recv st (mk_packet sender REQ_ADDUSERDATA payload))
            (call.finalize REQ_ADDUSERDATA sender) with
          sent := st.sent ++ [⟨sender, [REQ_ADDUSERDATA, 0]⟩] } := by
    unfold sizeof_bool at hM2
    simp [req_add_user, hbad, send_packet_small, log_call, hf', hM2, sizeof_bool]
    rfl
  rw [hreq, send_packet_none env _ sender REQ_ALLDONE (by exact hf) hM1]
  refine ⟨rfl, rfl, rfl, ?_⟩
  simp

/-! ## Supporting facts: the schedule of the per-child handlers -/

/-- A component of the master state that neither a stop nor a write to a pipe
touches is left alone by the splitting loop of `send_packet`. -/
theorem send_split_frame {α : Type} (π : Master → α)
    (send : Master → List Nat → Nat → Master)
    (hsend : ∀ st p n, π (send st p n) = π st) (hdie : ∀ st, π (die st) = π st)
    (M : Nat) (d : List Nat) (datalen : Nat) :
    ∀ (fuel : Nat) (st : Master) (off : Nat),
      π (send_split send M fuel st d off datalen) = π st := by
  intro fuel
  induction fuel with
  | zero => intro st off; exact hdie st
  | succ fuel ih =>
    intro st off
    unfold send_split
    split
    · rw [ih, hsend]
    · rfl

theorem send_packet_fuel_frame {α : Type} (π : Master → α) (env : Env) (child : Int) (cmd : Nat)
    (hdie : ∀ st, π (die st) = π st)
    (hw : ∀ st c p, π (write_packet st c p) = π st) :
    ∀ (fuel : Nat) (st : Master) (data : Option (List Nat)) (datalen : Nat),
      (datalen < env.MSG_MAX ∨ cmd = REQ_BCASTMSG ∨ ∀ st, π (assert_fail st) = π st) →
      π (send_packet_fuel env child cmd fuel st data datalen) = π st := by
  intro fuel
  induction fuel with
  | zero => intro st _ _ _; exact hdie st
  | succ fuel ih =>
    intro st data datalen hok
    unfold send_packet_fuel
    split
    · rfl
    · split
      · rename_i hna
        rcases hok with h | h | h
        · exact (hna (Or.inl h)).elim
        · exact (hna (Or.inr h)).elim
        · exact h st
      · split
        · split
          · exact hdie st
          · exact hw st _ _
        · split
          · exact hdie st
          · split
            · rename_i hsp
              exact send_split_frame π _
                (fun st p n => ih st (some p) n (Or.inr (Or.inl hsp.1))) hdie _ _ _ _ _ _
            · exact hw st _ _

theorem write_packet_child_map (st : Master) (c : Int) (p : List Nat) :
    (write_packet st c p).child_map = st.child_map := by
  unfold write_packet; split <;> rfl

theorem send_packet_child_map (env : Env) (st : Master) (child : Int) (cmd : Nat)
    (data : Option (List Nat)) (n : Nat) :
    (send_packet env st child cmd data n).child_map = st.child_map :=
  send_packet_fuel_frame Master.child_map env child cmd (fun _ => rfl) write_packet_child_map
    2 st data n (Or.inr (Or.inr (fun _ => rfl)))

/-- The schedule in a concrete table: LISTCLIENTS (scope ALL) from worker 7, with
workers 7 and 9 connected and in valid states, invokes the handler on 7, then on
9, then the finalizer. -/
theorem listclients_schedule_example :
    (handle_child_req env0 st0 (some (mk_packet 7 REQ_LISTCLIENTS []))).2.calls
      = [call.handle_child REQ_LISTCLIENTS 7 7, call.handle_child REQ_LISTCLIENTS 7 9,
         call.finalize REQ_LISTCLIENTS 7] ∧
    (handle_child_req env0 st0 (some (mk_packet 7 REQ_LISTCLIENTS []))).2.fault = false := by
  decide

/-! ### C11, C12: unknown request codes and unknown senders -/

theorem le_int32_append (p rest : List Nat) (h : 4 ≤ p.length) :
    le_int32 (p ++ rest) = le_int32 p := by
  unfold le_int32
  rw [List.take_append_of_le_length h]

theorem handle_child_req_stranger (env : Env) (st : Master) (sender : Int) (cmd : Nat)
    (payload : List Nat)
    (hlo : -2 ^ 31 ≤ sender) (hhi : sender < 2 ^ 31)
    (hs : hash_lookup st.child_map sender = none)
    (hlen : sizeof_pid_t + 1 + payload.length ≤ env.MSG_MAX) (hM : env.MSG_MAX < 2 ^ 64) :
    handle_child_req env st (some (mk_packet sender cmd payload)) =
      (true, recv st (mk_packet sender cmd payload)) := by
  have hl := mk_packet_length sender cmd payload
  have hle : (mk_packet sender cmd payload).length ≤ env.MSG_MAX := by omega
  unfold handle_child_req
  simp only [read_packet_fst env st _ hle, read_packet_snd env st _ hle]
  have h1 : ¬ (to_size_t ((mk_packet sender cmd payload).length : Int) < sizeof_pid_t + 1) := by
    rw [to_size_t_natCast _ (by omega)]; omega
  have h2 : le_int32 (recv st (mk_packet sender cmd payload)).packet = sender := by
    unfold recv mk_packet
    simp only []
    rw [List.append_assoc]
    exact le_int32_int32_bytes sender hlo hhi _
  have h5 : (recv st (mk_packet sender cmd payload)).child_map = st.child_map := rfl
  rw [if_neg h1]
  simp only [h2, h5, hs]

/-- C11: a packet from a known sender whose request code is not in the request
table (the master running, the packet within `MSG_MAX`): the call returns true;
the new state is the old one but for the receive buffer, which holds the packet,
and the trace of packets, which has one more packet, an ALLDONE for the sender.
So no handler and no finalizer has been invoked (the trace `calls` is as before),
and client table, counter, world and user database are unchanged. -/
theorem unknown_request_only_alldone (env : Env) (st : Master) (sender : Int) (cmd : Nat)
    (payload : List Nat) (s : child_data)
    (hf : st.fault = false)
    (hlo : -2 ^ 31 ≤ sender) (hhi : sender < 2 ^ 31)
    (hs : hash_lookup st.child_map sender = some s)
    (hlen : sizeof_pid_t + 1 + payload.length ≤ env.MSG_MAX) (hM : env.MSG_MAX < 2 ^ 64)
    (hreq : request_lookup cmd = none) :
    handle_child_req env st (some (mk_packet sender cmd payload)) =
      (true, { st with
        packet := mk_packet sender cmd payload
          ++ st.packet.drop (mk_packet sender cmd payload).length
        sent := st.sent ++ [⟨sender, [REQ_ALLDONE]⟩] }) := by
  rw [handle_child_req_unknown env st sender cmd payload s hlo hhi hs hlen hM hreq]
  rw [send_packet_none env _ sender REQ_ALLDONE (by exact hf) (by omega)]
  rfl

/-- C11, witness: worker 7 sends the code 99, which no entry of the table has. -/
theorem unknown_request_only_alldone_witness :
    request_lookup 99 = none ∧
    handle_child_req env0 st0 (some (mk_packet 7 99 [1, 2])) =
      (true, { st0 with
        packet := mk_packet 7 99 [1, 2] ++ st0.packet.drop (mk_packet 7 99 [1, 2]).length
        sent := st0.sent ++ [⟨7, [REQ_ALLDONE]⟩] }) :=
  ⟨rfl, unknown_request_only_alldone env0 st0 7 99 [1, 2] ⟨7, 0, 0, none, 0, none⟩ rfl
    (by decide) (by decide) rfl (by decide) (by decide) rfl⟩

/-- C12: a packet of at least `sizeof(pid_t) + 1` bytes (and within `MSG_MAX`)
whose sender pid is not in the client table is dropped: the call returns true,
and the new state is the old one but for the receive buffer, which holds the
packet. So no handler or finalizer has been invoked, no packet has been sent to
any session, and client table, counter, world and user database are unchanged. -/
theorem unknown_sender_dropped (env : Env) (st : Master) (sender : Int) (cmd : Nat)
    (payload : List Nat)
    (hlo : -2 ^ 31 ≤ sender) (hhi : sender < 2 ^ 31)
    (hs : hash_lookup st.child_map sender = none)
    (hlen : sizeof_pid_t + 1 + payload.length ≤ env.MSG_MAX) (hM : env.MSG_MAX < 2 ^ 64) :
    handle_child_req env st (some (mk_packet sender cmd payload)) =
      (true, { st with
        packet := mk_packet sender cmd payload
          ++ st.packet.drop (mk_packet sender cmd payload).length }) :=
  handle_child_req_stranger env st sender cmd payload hlo hhi hs hlen hM

/-- C12, witness: a broadcast request that carries the pid 8, which is not the pid
of a worker. -/
theorem unknown_sender_dropped_witness :
    hash_lookup st0.child_map 8 = none ∧
    handle_child_req env0 st0 (some (mk_packet 8 REQ_BCASTMSG (str "hi"))) =
      (true, { st0 with
        packet := mk_packet 8 REQ_BCASTMSG (str "hi")
          ++ st0.packet.drop (mk_packet 8 REQ_BCASTMSG (str "hi")).length }) :=
  ⟨rfl, unknown_sender_dropped env0 st0 8 REQ_BCASTMSG (str "hi") (by decide) (by decide) rfl
    (by decide) (by decide)⟩

/-! ### C13: kicking a session -/

theorem request_lookup_kick :
    request_lookup REQ_KICK
      = some ⟨REQ_KICK, true, which_t.CHILD_ALL, some req_kick_client, none⟩ := rfl

/-- What `req_kick_client` does on one session. -/
theorem req_kick_client_eq (env : Env) (sender child : Int) (payload rest : List Nat)
    (hlen : payload.length < env.MSG_MAX) (hS : 9 < env.MSG_MAX) (b : Master)
    (hf : b.fault = false) :
    req_kick_client env (payload ++ rest) payload.length sender child b
      = { b with
          sent := b.sent ++
            (if 4 ≤ payload.length ∧ le_int32 payload = child then
              [⟨child, REQ_KICK :: payload.drop 4⟩,
               ⟨sender, REQ_BCASTMSG :: str "Success.\n"⟩]
             else []) } := by
  by_cases h4 : 4 ≤ payload.length
  · by_cases hk : le_int32 payload = child
    · have hk' : le_int32 (payload ++ rest) = child := by rw [le_int32_append _ _ h4]; exact hk
      have hd : (payload ++ rest).drop 4 = payload.drop 4 ++ rest :=
        List.drop_append_of_le_length h4
      have ht : (payload.drop 4 ++ rest).take (payload.length - 4) = payload.drop 4 := by
        rw [List.take_append_of_le_length (by simp)]
        exact List.take_of_length_le (by simp)
      have hS' : (str "Success.\n").length < env.MSG_MAX := hS
      have h4' : payload.length ≥ sizeof_pid_t := h4
      unfold req_kick_client
      rw [if_pos h4']
      simp only [hk', if_true, sizeof_pid_t, hd]
      rw [send_packet_small env b child REQ_KICK _ _ hf (by omega)
        (by simp only [List.length_append, List.length_drop]; omega)]
      rw [send_msg_small env _ sender _ (by exact hf) hS']
      simp [ht, h4, hk]
    · have hk' : ¬ le_int32 (payload ++ rest) = child := by
        rw [le_int32_append _ _ h4]; exact hk
      simp [req_kick_client, sizeof_pid_t, hk', hk, h4]
  · have h4' : ¬ payload.length ≥ 4 := h4
    simp [req_kick_client, sizeof_pid_t, h4, h4']

/-- One invocation of `req_kick_client` through the dispatcher. -/
theorem call_kick_client (env : Env) (sender child : Int) (payload rest : List Nat)
    (hlen : payload.length < env.MSG_MAX) (hS : 9 < env.MSG_MAX) (a : Master)
    (hf : a.fault = false)
    (hp : a.packet.drop (sizeof_pid_t + 1) = payload ++ rest) :
    call_handle_child env ⟨REQ_KICK, true, which_t.CHILD_ALL, some req_kick_client, none⟩
        payload.length sender child a
      = { a with
          sent := a.sent ++
            (if 4 ≤ payload.length ∧ le_int32 payload = child then
              [⟨child, REQ_KICK :: payload.drop 4⟩,
               ⟨sender, REQ_BCASTMSG :: str "Success.\n"⟩]
             else [])
          calls := a.calls ++ [call.handle_child REQ_KICK sender child] } := by
  unfold call_handle_child
  rw [if_neg (by rw [hf]; decide)]
  simp only []
  rw [show a.packet.drop (sizeof_pid_t + 1) = payload ++ rest from hp,
    req_kick_client_eq env sender child payload rest hlen hS _ (by exact hf)]
  rfl

/-- What the kick handler writes for the sessions other than the sender. -/
theorem iterate_children_kick (env : Env) (sender : Int) (payload rest : List Nat)
    (hlen : payload.length < env.MSG_MAX) (hS : 9 < env.MSG_MAX) (L : List child_data) :
    ∀ a : Master, a.fault = false → a.packet.drop (sizeof_pid_t + 1) = payload ++ rest →
      L.foldl (iterate_step env ⟨REQ_KICK, true, which_t.CHILD_ALL, some req_kick_client, none⟩
          payload.length sender) a
      = { a with
          sent := a.sent ++ L.flatMap (fun c => if c.pid = sender then [] else
            if 4 ≤ payload.length ∧ le_int32 payload = c.pid then
              [⟨c.pid, REQ_KICK :: payload.drop 4⟩,
               ⟨sender, REQ_BCASTMSG :: str "Success.\n"⟩]
            else [])
          calls := a.calls ++ L.flatMap (fun c => if c.pid = sender then [] else
            [call.handle_child REQ_KICK sender c.pid]) } := by
  induction L with
  | nil => intro a _ _; simp
  | cons c L ih =>
    intro a hf hp
    by_cases hc : c.pid = sender
    · rw [List.foldl_cons]
      have : iterate_step env ⟨REQ_KICK, true, which_t.CHILD_ALL, some req_kick_client, none⟩
          payload.length sender a c = a := by simp [iterate_step, hc]
      rw [this, ih a hf hp]
      simp [hc]
    · rw [List.foldl_cons]
      have hstep : iterate_step env
          ⟨REQ_KICK, true, which_t.CHILD_ALL, some req_kick_client, none⟩
          payload.length sender a c
          = call_handle_child env
              ⟨REQ_KICK, true, which_t.CHILD_ALL, some req_kick_client, none⟩
              payload.length sender c.pid a := by
        simp only [iterate_step, if_neg hc]
      rw [hstep, call_kick_client env sender c.pid payload rest hlen hS a hf hp, ih]
      · simp [hc]
      · exact hf
      · exact hp

theorem flatMap_pid_none {β : Type} (k : Int) (out : List β) :
    ∀ L : List child_data, k ∉ L.map (fun c => c.pid) →
      L.flatMap (fun c => if c.pid = k then out else []) = [] := by
  intro L
  induction L with
  | nil => intro _; rfl
  | cons c L ih =>
    intro h
    simp only [List.map_cons, List.mem_cons, not_or] at h
    have hc : ¬ c.pid = k := fun e => h.1 e.symm
    rw [List.flatMap_cons, ih h.2, if_neg hc]
    rfl

theorem flatMap_pid_single {β : Type} (k : Int) (out : List β) :
    ∀ L : List child_data, (L.map (fun c => c.pid)).Nodup → k ∈ L.map (fun c => c.pid) →
      L.flatMap (fun c => if c.pid = k then out else []) = out := by
  intro L
  induction L with
  | nil => intro _ h; simp at h
  | cons c L ih =>
    intro hnd hmem
    simp only [List.map_cons, List.nodup_cons] at hnd
    rw [List.flatMap_cons]
    by_cases hc : c.pid = k
    · rw [flatMap_pid_none k out L (by rw [← hc]; exact hnd.1), if_pos hc]
      simp
    · have hmem' : k ∈ L.map (fun c => c.pid) := by
        simp only [List.map_cons, List.mem_cons] at hmem
        rcases hmem with h | h
        · exact absurd h.symm hc
        · exact h
      rw [ih hnd.2 hmem', if_neg hc]
      rfl

/-- C13: a KICK request from a known sender (the master running, pids in the
client table distinct, `MSG_MAX` at least 10 so that "Success." fits a packet).
When the payload has at least the four bytes of a pid and that pid is the pid of
a session in the client table, the sender included, the packets written are
exactly: one KICK packet to that session, carrying the payload bytes after the
pid, one "Success." message to the sender, and the ALLDONE of the sender. When
the payload is shorter than a pid or the pid is the pid of no session, the only
packet written is the ALLDONE of the sender. -/
theorem kick_request (env : Env) (st : Master) (sender : Int) (payload : List Nat)
    (s : child_data)
    (hf : st.fault = false)
    (hlen : sizeof_pid_t + 1 + payload.length ≤ env.MSG_MAX) (hM : env.MSG_MAX < 2 ^ 64)
    (hS : 10 ≤ env.MSG_MAX)
    (hlo : -2 ^ 31 ≤ sender) (hhi : sender < 2 ^ 31)
    (hs : hash_lookup st.child_map sender = some s)
    (hnd : (st.child_map.map (fun c => c.pid)).Nodup) :
    (handle_child_req env st (some (mk_packet sender REQ_KICK payload))).1 = true ∧
    (handle_child_req env st (some (mk_packet sender REQ_KICK payload))).2.fault = false ∧
    sent_since st.sent.length
        (handle_child_req env st (some (mk_packet sender REQ_KICK payload))).2
      = (if 4 ≤ payload.length ∧ le_int32 payload ∈ st.child_map.map (fun c => c.pid) then
          [⟨le_int32 payload, REQ_KICK :: payload.drop 4⟩,
           ⟨sender, REQ_BCASTMSG :: str "Success.\n"⟩]
         else []) ++ [⟨sender, [REQ_ALLDONE]⟩] := by
  have hlen' : payload.length < env.MSG_MAX := by unfold sizeof_pid_t at hlen; omega
  have hS' : 9 < env.MSG_MAX := by omega
  have hM1 : 1 ≤ env.MSG_MAX := by omega
  rw [handle_child_req_known env st sender REQ_KICK payload _ s hlo hhi hs hlen hM
    request_lookup_kick]
  obtain ⟨st1, hst1⟩ : ∃ st1 : Master, st1 = recv st (mk_packet sender REQ_KICK payload) :=
    ⟨_, rfl⟩
  rw [← hst1]
  have hf1 : st1.fault = false := by rw [hst1]; exact hf
  have hp1 : st1.packet.drop (sizeof_pid_t + 1)
      = payload ++ st.packet.drop (sizeof_pid_t + 1 + payload.length) := by
    rw [hst1]; exact recv_data st sender REQ_KICK payload
  have hs1 : st1.sent = st.sent := by rw [hst1]; rfl
  have hc1 : st1.child_map = st.child_map := by rw [hst1]; rfl
  have hrun : run_request env ⟨REQ_KICK, true, which_t.CHILD_ALL, some req_kick_client, none⟩
      payload.length sender st1
      = { st1 with
          sent := st1.sent ++
            (if 4 ≤ payload.length ∧ le_int32 payload = sender then
              [⟨sender, REQ_KICK :: payload.drop 4⟩,
               ⟨sender, REQ_BCASTMSG :: str "Success.\n"⟩]
             else []) ++
            st1.child_map.flatMap (fun c => if c.pid = sender then [] else
              if 4 ≤ payload.length ∧ le_int32 payload = c.pid then
                [⟨c.pid, REQ_KICK :: payload.drop 4⟩,
                 ⟨sender, REQ_BCASTMSG :: str "Success.\n"⟩]
              else [])
          calls := st1.calls ++ [call.handle_child REQ_KICK sender sender] ++
            st1.child_map.flatMap (fun c => if c.pid = sender then [] else
              [call.handle_child REQ_KICK sender c.pid]) } := by
    simp only [run_request, fan_out]
    rw [call_kick_client env sender sender payload _ hlen' hS' st1 hf1 hp1]
    simp only [iterate_children]
    rw [iterate_children_kick env sender payload _ hlen' hS' st1.child_map]
    · simp [call_finalize, hf1]
    · exact hf1
    · exact hp1
  rw [hrun, send_packet_none env _ sender REQ_ALLDONE]
  rotate_left
  · exact hf1
  · exact hM1
  refine ⟨rfl, hf1, ?_⟩
  simp only [sent_since, hs1, hc1, List.append_assoc, List.drop_left]
  have hsm : sender ∈ st.child_map.map (fun c => c.pid) := hash_lookup_mem hs
  by_cases h4 : 4 ≤ payload.length
  · by_cases hk : le_int32 payload = sender
    · have hfun : (fun c : child_data => if c.pid = sender then ([] : List sent_packet) else
          if 4 ≤ payload.length ∧ le_int32 payload = c.pid then
            [⟨c.pid, REQ_KICK :: payload.drop 4⟩,
             ⟨sender, REQ_BCASTMSG :: str "Success.\n"⟩]
          else []) = fun c => if c.pid = sender then [] else [] := by
        funext c
        by_cases hc : c.pid = sender
        · simp [hc]
        · have : ¬ le_int32 payload = c.pid := by rw [hk]; exact fun e => hc e.symm
          simp [hc, this]
      rw [hfun]
      simp [h4, hk, hsm]
    · have hfun : (fun c : child_data => if c.pid = sender then ([] : List sent_packet) else
          if 4 ≤ payload.length ∧ le_int32 payload = c.pid then
            [⟨c.pid, REQ_KICK :: payload.drop 4⟩,
             ⟨sender, REQ_BCASTMSG :: str "Success.\n"⟩]
          else []) = fun c => if c.pid = le_int32 payload then
            [⟨le_int32 payload, REQ_KICK :: payload.drop 4⟩,
             ⟨sender, REQ_BCASTMSG :: str "Success.\n"⟩] else [] := by
        funext c
        by_cases hc : c.pid = le_int32 payload
        · have hcs : ¬ c.pid = sender := by rw [hc]; exact hk
          simp [hc, hk, h4]
        · have : ¬ le_int32 payload = c.pid := fun e => hc e.symm
          by_cases hcs : c.pid = sender
          · rw [if_pos hcs, if_neg hc]
          · rw [if_neg hcs, if_neg (fun h => this h.2), if_neg hc]
      rw [hfun]
      by_cases hmem : le_int32 payload ∈ st.child_map.map (fun c => c.pid)
      · rw [flatMap_pid_single _ _ st.child_map hnd hmem]
        simp [h4, hk, hmem]
      · rw [flatMap_pid_none _ _ st.child_map hmem]
        simp [h4, hk, hmem]
  · have hfun : (fun c : child_data => if c.pid = sender then ([] : List sent_packet) else
        if 4 ≤ payload.length ∧ le_int32 payload = c.pid then
          [⟨c.pid, REQ_KICK :: payload.drop 4⟩,
           ⟨sender, REQ_BCASTMSG :: str "Success.\n"⟩]
        else []) = fun c => if c.pid = sender then [] else [] := by
      funext c
      simp [h4]
    rw [hfun]
    simp [h4]

/-- C13, witness: worker 7 kicks worker 9 with the message "bye". -/
theorem kick_request_witness :
    st0.fault = false ∧ hash_lookup st0.child_map 9 = some ⟨9, 0, 0, none, 0, none⟩ ∧
    sent_since st0.sent.length
        (handle_child_req env0 st0 (some (mk_packet 7 REQ_KICK (int32_bytes 9 ++ str "bye")))).2
      = (if 4 ≤ (int32_bytes 9 ++ str "bye").length ∧
            le_int32 (int32_bytes 9 ++ str "bye") ∈ st0.child_map.map (fun c => c.pid) then
          [⟨le_int32 (int32_bytes 9 ++ str "bye"),
              REQ_KICK :: (int32_bytes 9 ++ str "bye").drop 4⟩,
           ⟨7, REQ_BCASTMSG :: str "Success.\n"⟩]
         else []) ++ [⟨7, [REQ_ALLDONE]⟩] :=
  ⟨rfl, rfl,
    (kick_request env0 st0 7 (int32_bytes 9 ++ str "bye") ⟨7, 0, 0, none, 0, none⟩ rfl
      (by decide) (by decide) (by decide) (by decide) (by decide) rfl (by decide)).2.2⟩

/-- Four KICK requests of worker 7, evaluated: the pid of worker 9, its own pid, a
pid that no worker has, and a payload of three bytes. -/
theorem kick_example :
    (handle_child_req env0 st0 (some (mk_packet 7 REQ_KICK (int32_bytes 9 ++ str "bye")))).2.sent
      = [⟨9, REQ_KICK :: str "bye"⟩, ⟨7, REQ_BCASTMSG :: str "Success.\n"⟩,
         ⟨7, [REQ_ALLDONE]⟩] ∧
    (handle_child_req env0 st0 (some (mk_packet 7 REQ_KICK (int32_bytes 7 ++ str "bye")))).2.sent
      = [⟨7, REQ_KICK :: str "bye"⟩, ⟨7, REQ_BCASTMSG :: str "Success.\n"⟩,
         ⟨7, [REQ_ALLDONE]⟩] ∧
    (handle_child_req env0 st0 (some (mk_packet 7 REQ_KICK (int32_bytes 8 ++ str "bye")))).2.sent
      = [⟨7, [REQ_ALLDONE]⟩] ∧
    (handle_child_req env0 st0 (some (mk_packet 7 REQ_KICK [9, 0, 0]))).2.sent
      = [⟨7, [REQ_ALLDONE]⟩] := by
  decide

/-! ## Components of the state that the handlers leave alone -/

section frames

variable {α : Type} {env : Env} {B : Nat} {π : Master → α}

theorem frame_send_msg (hπ : frame env B π) (st : Master) (child : Int) (msg : List Nat) :
    π (send_msg env st child msg) = π st :=
  hπ.k_send st child REQ_BCASTMSG _ _ (Or.inr rfl)

theorem frame_foldl {β : Type} (f : Master → β → Master)
    (hf : ∀ acc x, π (f acc x) = π acc) (L : List β) :
    ∀ a : Master, π (L.foldl f a) = π a := by
  induction L with
  | nil => intro a; rfl
  | cons x L ih => intro a; exact (ih _).trans (hf a x)

theorem frame_userdb_add_obj (hπ : frame env B π) (st : Master) (n : Option (List Nat))
    (o : object_t) : π (userdb_add_obj st n o) = π st := by
  unfold userdb_add_obj; split
  · exact hπ.k_inventory _ _ _
  · rfl

theorem frame_userdb_del_obj_by_ptr (hπ : frame env B π) (st : Master) (n : Option (List Nat))
    (o : object_t) : π (userdb_del_obj_by_ptr st n o) = π st := by
  unfold userdb_del_obj_by_ptr; split
  · exact hπ.k_inventory _ _ _
  · rfl

theorem frame_room_obj_add (hπ : frame env B π) (st : Master) (r : Int) (o : object_t) :
    π (room_obj_add st r o) = π st := by
  unfold room_obj_add; split
  · exact hπ.k_die _
  · exact hπ.k_room _ _ _

theorem frame_room_obj_del_by_ptr (hπ : frame env B π) (st : Master) (r : Int) (o : object_t) :
    π (room_obj_del_by_ptr st r o) = π st := by
  unfold room_obj_del_by_ptr; split
  · exact hπ.k_die _
  · exact hπ.k_room _ _ _

theorem frame_room_user_add (hπ : frame env B π) (st : Master) (r : Int) (p : Int) :
    π (room_user_add st r p) = π st := by
  unfold room_user_add; split
  · exact hπ.k_die _
  · exact hπ.k_room _ _ _

theorem frame_room_user_del (hπ : frame env B π) (st : Master) (r : Int) (p : Int) :
    π (room_user_del st r p) = π st := by
  unfold room_user_del; split
  · exact hπ.k_die _
  · exact hπ.k_room _ _ _

theorem frame_child_set_room (hπ : frame env B π) (st : Master) (c : Int) (id : Int) :
    π (child_set_room st c id) = π st := by
  unfold child_set_room
  rw [frame_room_user_add hπ]
  exact hπ.k_child _ _ _ (fun _ => rfl)

theorem frame_call_hook (st : Master) (hook : Master → Master)
    (h : ∀ a, π (hook a) = π a) : π (call_hook st hook) = π st := by
  unfold call_hook
  split
  · rfl
  · exact h st

theorem frame_pass_msg (hπ : frame env B π) (h4 : 4 < B) (d : List Nat) (n : Nat) (s c : Int)
    (st : Master) : π (req_pass_msg env d n s c st) = π st := by
  unfold req_pass_msg
  simp only []
  split
  · exact (hπ.k_send _ c REQ_ALLDONE _ _ (Or.inl (by omega))).trans
      (hπ.k_send st c REQ_BCASTMSG _ _ (Or.inr rfl))
  · exact hπ.k_send st c REQ_BCASTMSG _ _ (Or.inr rfl)

theorem frame_send_clientinfo (hπ : frame env B π) (d : List Nat) (n : Nat) (s c : Int)
    (st : Master) : π (req_send_clientinfo env d n s c st) = π st := by
  unfold req_send_clientinfo
  split
  · rfl
  · split
    · exact hπ.k_die st
    · exact hπ.k_send st s REQ_BCASTMSG _ _ (Or.inr rfl)

theorem frame_change_state (hπ : frame env B π) (d : List Nat) (n : Nat) (s c : Int)
    (st : Master) : π (req_change_state env d n s c st) = π st := by
  unfold req_change_state
  split
  · exact hπ.k_child _ _ _ (fun _ => rfl)
  · rfl

theorem frame_change_user (hπ : frame env B π) (d : List Nat) (n : Nat) (s c : Int)
    (st : Master) : π (req_change_user env d n s c st) = π st :=
  hπ.k_child _ _ _ (fun _ => rfl)

theorem frame_kick_client (hπ : frame env B π) (d : List Nat) (n : Nat) (hn : n < B)
    (s c : Int) (st : Master) : π (req_kick_client env d n s c st) = π st := by
  unfold req_kick_client
  split
  · simp only []
    split
    · exact (frame_send_msg hπ _ s _).trans
        (hπ.k_send st c REQ_KICK _ _ (Or.inl (by omega)))
    · rfl
  · rfl

theorem frame_kick_always (hπ : frame env B π) (d : List Nat) (n : Nat) (hn : n < B)
    (s c : Int) (st : Master) : π (req_kick_always env d n s c st) = π st :=
  hπ.k_send st c REQ_KICK _ _ (Or.inl hn)

theorem frame_send_desc (hπ : frame env B π) (h4 : 4 < B) (d : List Nat) (n : Nat) (s : Int)
    (st : Master) : π (req_send_desc env d n s st) = π st := by
  unfold req_send_desc
  split
  · rfl
  · split
    · exact hπ.k_die st
    · simp only []
      refine (frame_foldl _ ?_ _ _).trans
        ((hπ.k_send _ s REQ_PRINTNEWLINE _ _ (Or.inl (by omega))).trans
          (hπ.k_send st s REQ_BCASTMSG _ _ (Or.inr rfl)))
      intro acc it
      split
      · exact frame_send_msg hπ _ _ _
      · rfl

theorem frame_send_roomname (hπ : frame env B π) (h4 : 4 < B) (d : List Nat) (n : Nat)
    (s : Int) (st : Master) : π (req_send_roomname env d n s st) = π st := by
  unfold req_send_roomname
  split
  · rfl
  · split
    · exact hπ.k_die st
    · split
      · exact (hπ.k_send _ s REQ_PRINTNEWLINE _ _ (Or.inl (by omega))).trans
          (hπ.k_send st s REQ_BCASTMSG _ _ (Or.inr rfl))
      · rfl

theorem frame_set_room (hπ : frame env B π) (d : List Nat) (n : Nat) (s : Int) (st : Master) :
    π (req_set_room env d n s st) = π st :=
  frame_child_set_room hπ _ _ _

theorem frame_move_room (hπ : frame env B π) (h4 : 4 < B) (d : List Nat) (n : Nat) (s : Int)
    (st : Master) : π (req_move_room env d n s st) = π st := by
  have hsz : sizeof_int < B := h4
  unfold req_move_room
  split
  · rfl
  · simp only []
    split
    · exact hπ.k_die st
    · split
      · exact hπ.k_die st
      · split
        · exact (hπ.k_send _ s REQ_MOVE _ _ (Or.inl hsz)).trans (frame_send_msg hπ _ _ _)
        · split
          · exact hπ.k_die st
          · split
            · refine (hπ.k_send _ s REQ_MOVE _ _ (Or.inl hsz)).trans ?_
              rw [frame_child_set_room hπ, frame_room_user_del hπ]
            · exact hπ.k_send _ s REQ_MOVE _ _ (Or.inl hsz)

theorem frame_send_user (hπ : frame env B π) (hu : env.sizeof_userdata < B) (d : List Nat)
    (n : Nat) (s : Int) (st : Master) : π (req_send_user env d n s st) = π st := by
  unfold req_send_user
  split
  · split
    · exact hπ.k_send _ s REQ_GETUSERDATA _ _ (Or.inl hu)
    · rfl
  · rfl

theorem frame_del_user (hπ : frame env B π) (h4 : 4 < B) (d : List Nat) (n : Nat) (s : Int)
    (st : Master) : π (req_del_user env d n s st) = π st := by
  have hsz : sizeof_bool < B := by unfold sizeof_bool; omega
  unfold req_del_user
  simp only []
  refine (hπ.k_send _ s REQ_DELUSERDATA _ _ (Or.inl hsz)).trans ?_
  split
  · exact hπ.k_user_remove _ _
  · rfl

theorem frame_add_user (hπ : frame env B π) (h4 : 4 < B) (d : List Nat) (n : Nat) (s : Int)
    (st : Master) : π (req_add_user env d n s st) = π st := by
  have hsz : sizeof_bool < B := by unfold sizeof_bool; omega
  unfold req_add_user
  simp only []
  refine (hπ.k_send _ s REQ_ADDUSERDATA _ _ (Or.inl hsz)).trans ?_
  split
  · exact hπ.k_user_add _ _
  · rfl

theorem frame_send_geninfo (hπ : frame env B π) (d : List Nat) (n : Nat) (s : Int)
    (st : Master) : π (req_send_geninfo env d n s st) = π st :=
  frame_send_msg hπ _ _ _

theorem frame_print_obj (hπ : frame env B π) (sender : child_data) (n : Nat)
    (acc : Master × Int) (e : multimap_list) :
    π (print_obj env sender n acc e).1 = π acc.1 := by
  unfold print_obj
  split
  · exact hπ.k_die _
  · simp only []
    split
    · exact frame_send_msg hπ _ _ _
    · exact frame_send_msg hπ _ _ _

theorem frame_print_objlist (hπ : frame env B π) (sender : child_data) (n : Nat)
    (L : List multimap_list) :
    ∀ (st : Master) (idx : Int), π (print_objlist env st sender L idx n).1 = π st := by
  unfold print_objlist
  induction L with
  | nil => intro st idx; rfl
  | cons e L ih =>
    intro st idx
    rw [List.foldl_cons]
    exact (ih _ _).trans (frame_print_obj hπ sender n (st, idx) e)

theorem frame_look_at (hπ : frame env B π) (d : List Nat) (n : Nat) (s : Int) (st : Master) :
    π (req_look_at env d n s st) = π st := by
  unfold req_look_at
  split
  · rfl
  · rename_i c hc
    have h1 : ∀ (L : List multimap_list) (k : Nat),
        π (if L ≠ [] then print_objlist env (send_msg env st s (str "In room:\n")) c L 1 k
          else (st, 1)).1 = π st := by
      intro L k
      split
      · exact (frame_print_objlist hπ c k L _ 1).trans (frame_send_msg hπ _ _ _)
      · rfl
    have h2 : ∀ (a : Master) (i : Int) (L : List multimap_list) (k : Nat),
        π (if L ≠ [] then
          (print_objlist env (send_msg env a s (str "In inventory:\n")) c L i k).1
        else a) = π a := by
      intro a i L k
      split
      · exact (frame_print_objlist hπ c k L _ i).trans (frame_send_msg hπ _ _ _)
      · rfl
    split
    · exact hπ.k_die st
    · split
      · exact hπ.k_die st
      · simp only []
        split
        · exact (frame_send_msg hπ _ _ _).trans ((h2 _ _ _ _).trans (h1 _ _))
        · exact (h2 _ _ _ _).trans (h1 _ _)

theorem frame_take_obj (hπ : frame env B π) (c : child_data) (acc : Master)
    (e : multimap_list) : π (take_obj env c acc e) = π acc := by
  unfold take_obj
  simp only []
  split
  · exact frame_send_msg hπ _ _ _
  · refine (frame_send_msg hπ _ _ _).trans ?_
    rw [frame_room_obj_del_by_ptr hπ, frame_userdb_add_obj hπ]

theorem frame_take (hπ : frame env B π) (d : List Nat) (n : Nat) (s : Int) (st : Master) :
    π (req_take env d n s st) = π st := by
  unfold req_take
  split
  · rfl
  · rename_i c hc
    split
    · exact hπ.k_die st
    · simp only []
      split
      · exact (hπ.k_save _ _).trans (frame_foldl _ (frame_take_obj hπ c) _ _)
      · exact frame_send_msg hπ _ _ _

theorem frame_inventory (hπ : frame env B π) (d : List Nat) (n : Nat) (s : Int)
    (st : Master) : π (req_inventory env d n s st) = π st := by
  unfold req_inventory
  split
  · rfl
  · split
    · exact hπ.k_die st
    · simp only []
      have hfold : ∀ (a : Master) (L : List (multimap_list × Nat)),
          π (L.foldl (inventory_line env s) a) = π a := by
        intro a L
        apply frame_foldl
        intro acc it
        unfold inventory_line
        simp only []
        split
        · exact hπ.k_send _ s REQ_BCASTMSG _ _ (Or.inr rfl)
        · rfl
      split
      · exact (frame_send_msg hπ _ _ _).trans ((hfold _ _).trans (frame_send_msg hπ _ _ _))
      · exact (hfold _ _).trans (frame_send_msg hπ _ _ _)

theorem frame_drop_obj (hπ : frame env B π) (c : child_data) (acc : Master)
    (e : multimap_list) : π (drop_obj env c acc e) = π acc := by
  unfold drop_obj
  simp only []
  have h0 : π (userdb_del_obj_by_ptr
      (room_obj_add (obj_dup acc e.val).2 c.room (obj_dup acc e.val).1) c.user e.val)
      = π acc := by
    rw [frame_userdb_del_obj_by_ptr hπ, frame_room_obj_add hπ, hπ.k_dup]
  split
  · rw [frame_room_obj_del_by_ptr hπ, frame_userdb_add_obj hπ, hπ.k_dup,
      frame_send_msg hπ, h0]
  · rw [frame_send_msg hπ, h0]

theorem frame_drop (hπ : frame env B π) (d : List Nat) (n : Nat) (s : Int) (st : Master) :
    π (req_drop env d n s st) = π st := by
  unfold req_drop
  split
  · rfl
  · rename_i c hc
    split
    · rfl
    · simp only []
      split
      · exact frame_send_msg hπ _ _ _
      · exact (hπ.k_save _ _).trans (frame_foldl _ (frame_drop_obj hπ c) _ _)

theorem frame_listusers (hπ : frame env B π) (d : List Nat) (n : Nat) (s : Int)
    (st : Master) : π (req_listusers env d n s st) = π st := by
  unfold req_listusers
  apply frame_foldl
  intro acc u
  exact frame_send_msg hπ _ _ _

theorem frame_execverb (hπ : frame env B π) (hq : hooks_keep env π) (d : List Nat) (n : Nat)
    (s : Int) (st : Master) : π (req_execverb env d n s st) = π st := by
  unfold req_execverb
  split
  · rfl
  · split
    · exact frame_call_hook st _ (fun a => hq.2 _ _ _ _ a)
    · simp only []
      split
      · exact hπ.k_die st
      · split
        · exact (hπ.k_die _).trans (hπ.k_poke _ _)
        · split
          · exact (frame_send_msg hπ _ _ _).trans (hπ.k_poke _ _)
          · exact (frame_call_hook _ _ (fun a => hq.1 _ _ _ a)).trans (hπ.k_poke _ _)

end frames

/-! ### The dispatcher leaves such components alone -/

/-- No handler and no finalizer of the request table changes a component of the
state that the steps of the handlers leave alone. -/
theorem requests_frame {α : Type} {env : Env} {B : Nat} {π : Master → α}
    (hπ : frame env B π) (hq : hooks_keep env π) (h4 : 4 < B)
    (hu : env.sizeof_userdata < B) (n : Nat) (hn : n < B)
    (req : child_request) (hmem : req ∈ requests) :
    (∀ h, req.handle_child = some h → ∀ d s c st, π (h env d n s c st) = π st) ∧
    (∀ f, req.finalize = some f → ∀ d s st, π (f env d n s st) = π st) := by
  simp only [requests, List.mem_cons, List.mem_singleton, List.not_mem_nil, or_false] at hmem
  rcases hmem with h | h | h | h | h | h | h | h | h | h | h | h | h | h | h | h | h | h | h | h | h
  all_goals subst h
  all_goals constructor
  all_goals intro f hf
  all_goals simp only [Option.some.injEq, reduceCtorEq] at hf
  all_goals subst hf
  all_goals intro d s
  · exact frame_pass_msg hπ h4 d n s
  · exact frame_change_state hπ d n s
  · exact frame_change_user hπ d n s
  · exact frame_kick_client hπ d n hn s
  · exact frame_kick_always hπ d n hn s
  · exact frame_send_clientinfo hπ d n s
  · exact frame_send_geninfo hπ d n s
  · exact frame_set_room hπ d n s
  · exact frame_move_room hπ h4 d n s
  · exact frame_send_user hπ hu d n s
  · exact frame_del_user hπ h4 d n s
  · exact frame_add_user hπ h4 d n s
  · exact frame_look_at hπ d n s
  · exact frame_take hπ d n s
  · exact frame_drop hπ d n s
  · exact frame_execverb hπ hq d n s
  · exact fun st => rfl
  · exact frame_send_desc hπ h4 d n s
  · exact frame_send_roomname hπ h4 d n s
  · exact frame_inventory hπ d n s
  · exact frame_listusers hπ d n s

theorem frame_call_handle_child {α : Type} {env : Env} {B : Nat} {π : Master → α}
    (hπ : frame env B π) (hlog : ∀ st c, π (log_call st c) = π st)
    (hq : hooks_keep env π) (h4 : 4 < B)
    (hu : env.sizeof_userdata < B) (n : Nat) (hn : n < B)
    (req : child_request) (hmem : req ∈ requests) (s c : Int) (st : Master) :
    π (call_handle_child env req n s c st) = π st := by
  unfold call_handle_child
  split
  · rfl
  · split
    · exact hπ.k_die st
    · rename_i h hh
      exact ((requests_frame hπ hq h4 hu n hn req hmem).1 h hh _ _ _ _).trans (hlog _ _)

theorem frame_call_finalize {α : Type} {env : Env} {B : Nat} {π : Master → α}
    (hπ : frame env B π) (hlog : ∀ st c, π (log_call st c) = π st)
    (hq : hooks_keep env π) (h4 : 4 < B)
    (hu : env.sizeof_userdata < B) (n : Nat) (hn : n < B)
    (req : child_request) (hmem : req ∈ requests) (s : Int) (st : Master) :
    π (call_finalize env req n s st) = π st := by
  unfold call_finalize
  split
  · rfl
  · split
    · rfl
    · rename_i f hf
      exact ((requests_frame hπ hq h4 hu n hn req hmem).2 f hf _ _ _).trans (hlog _ _)

theorem frame_iterate_children {α : Type} {env : Env} {B : Nat} {π : Master → α}
    (hπ : frame env B π) (hlog : ∀ st c, π (log_call st c) = π st)
    (hq : hooks_keep env π) (h4 : 4 < B)
    (hu : env.sizeof_userdata < B) (n : Nat) (hn : n < B)
    (req : child_request) (hmem : req ∈ requests) (s : Int) (st : Master) :
    π (iterate_children env req n s st) = π st := by
  unfold iterate_children
  apply frame_foldl
  intro acc child
  unfold iterate_step
  split
  · rfl
  · split
    · exact frame_call_handle_child hπ hlog hq h4 hu n hn req hmem s _ acc
    · exact frame_call_handle_child hπ hlog hq h4 hu n hn req hmem s _ acc
    · rfl

theorem frame_run_request {α : Type} {env : Env} {B : Nat} {π : Master → α}
    (hπ : frame env B π) (hlog : ∀ st c, π (log_call st c) = π st)
    (hq : hooks_keep env π) (h4 : 4 < B)
    (hu : env.sizeof_userdata < B) (n : Nat) (hn : n < B)
    (req : child_request) (hmem : req ∈ requests) (s : Int) (st : Master) :
    π (run_request env req n s st) = π st := by
  unfold run_request
  refine (frame_call_finalize hπ hlog hq h4 hu n hn req hmem s _).trans ?_
  unfold fan_out
  split
  · exact frame_call_handle_child hπ hlog hq h4 hu n hn req hmem s s st
  · exact (frame_iterate_children hπ hlog hq h4 hu n hn req hmem s _).trans
      (frame_call_handle_child hπ hlog hq h4 hu n hn req hmem s s st)
  · rfl
  · exact frame_iterate_children hπ hlog hq h4 hu n hn req hmem s st

theorem frame_read_packet {α : Type} {env : Env} {B : Nat} {π : Master → α}
    (hπ : frame env B π) (st : Master) (rd : Option (List Nat)) :
    π (read_packet env st rd).2 = π st := by
  cases rd with
  | none => rfl
  | some bytes => exact hπ.k_recv _ _

/-- One call of `handle_child_req` changes no component of the state that the
steps of the handlers leave alone, whatever was read. -/
theorem frame_handle_child_req {α : Type} {env : Env} {B : Nat} {π : Master → α}
    (hπ : frame env B π) (hlog : ∀ st c, π (log_call st c) = π st)
    (hq : hooks_keep env π) (h4 : 4 < B)
    (hu : env.sizeof_userdata < B) (st : Master) (rd : Option (List Nat))
    (hn : to_size_t ((read_packet env st rd).1 - sizeof_pid_t - 1) < B) :
    π (handle_child_req env st rd).2 = π st := by
  unfold handle_child_req
  simp only []
  split
  · exact frame_read_packet hπ st rd
  · split
    · exact frame_read_packet hπ st rd
    · split
      · exact (hπ.k_send _ _ REQ_ALLDONE none 0 (Or.inl (by omega))).trans
          (frame_read_packet hπ st rd)
      · rename_i req hreq
        have hmem : req ∈ requests := List.mem_of_find?_eq_some hreq
        exact (hπ.k_send _ _ REQ_ALLDONE none 0 (Or.inl (by omega))).trans
          ((frame_run_request hπ hlog hq h4 hu _ hn req hmem _ _).trans
            (frame_read_packet hπ st rd))

theorem to_size_t_lt (i : Int) : to_size_t i < 2 ^ 64 := by
  unfold to_size_t
  have h1 : 0 ≤ i % 2 ^ 64 := Int.emod_nonneg _ (by norm_num)
  have h2 : i % 2 ^ 64 < 2 ^ 64 := Int.emod_lt_of_pos _ (by norm_num)
  omega

/-! ## The connection manager -/

/-! ### C14: the client counter -/

theorem write_packet_clients (st : Master) (c : Int) (p : List Nat) :
    clients (write_packet st c p) = clients st := by
  unfold write_packet; split <;> rfl

/-- No step of a request handler changes the client counter or the pids of the
client table. -/
theorem frame_clients (env : Env) (B : Nat) : frame env B clients where
  k_die := fun _ => rfl
  k_send := fun st child cmd data n _ =>
    send_packet_fuel_frame clients env child cmd (fun _ => rfl) write_packet_clients 2 st data n
      (Or.inr (Or.inr (fun _ => rfl)))
  k_child := by
    intro st pid f hfp
    unfold child_update
    split
    · rfl
    · simp only [clients, client_pids, List.map_map]
      congr 1
      apply List.map_congr_left
      intro c _
      simp only [Function.comp]
      split
      · exact hfp c
      · rfl
  k_room := by intro st id f; unfold room_update; split_ifs <;> rfl
  k_inventory := by intro st n f; unfold userdb_set_objects; split <;> rfl
  k_user_remove := by intro st n; unfold userdb_remove; split <;> rfl
  k_user_add := by intro st u; unfold userdb_add; split <;> rfl
  k_dup := by intro st o; unfold obj_dup; simp only []; split <;> rfl
  k_save := by intro st f; simp only [server_save_state]; split_ifs <;> rfl
  k_poke := by intro st d; unfold poke_data; split <;> rfl
  k_recv := fun _ _ => rfl

/-- Request dispatch changes neither the client counter nor the pids of the
client table, whatever was read (hooks of the world module aside). -/
theorem handle_child_req_clients (env : Env) (hq : hooks_keep env clients) (st : Master)
    (rd : Option (List Nat)) : clients (handle_child_req env st rd).2 = clients st :=
  frame_handle_child_req (frame_clients env (2 ^ 64 + env.sizeof_userdata + 5)) (fun _ _ => rfl) hq
    (by omega)
    (by omega) st rd (by have := to_size_t_lt ((read_packet env st rd).1 - sizeof_pid_t - 1); omega)

theorem new_connection_cb_ok (st : Master) (new_sock : Int) (pipes : Bool) (addr : Nat)
    (pid : Int) (hf : st.fault = false) (hfresh : hash_lookup st.child_map pid = none)
    (hok : (new_connection_cb st new_sock pipes addr pid).fault = false) :
    (new_connection_cb st new_sock pipes addr pid).num_clients = st.num_clients + 1 ∧
    client_pids (new_connection_cb st new_sock pipes addr pid) = client_pids st ++ [pid] := by
  unfold new_connection_cb at hok ⊢
  rw [if_neg (by rw [hf]; decide)] at hok ⊢
  by_cases h1 : new_sock < 0
  · rw [if_pos h1] at hok; simp [die] at hok
  · rw [if_neg h1] at hok ⊢
    simp only [] at hok ⊢
    by_cases h2 : (!pipes) = true
    · rw [if_pos h2] at hok; simp [die] at hok
    · rw [if_neg h2] at hok ⊢
      by_cases h3 : pid < 0
      · rw [if_pos h3] at hok; simp [die] at hok
      · rw [if_neg h3] at hok ⊢
        by_cases h4 : pid = 0
        · rw [if_pos h4] at hok; simp [die] at hok
        · rw [if_neg h4]
          simp [client_pids, hash_insert, hfresh]

theorem filter_ne_length (l : List Int) (a : Int) (hnd : l.Nodup) (ha : a ∈ l) :
    (l.filter (fun p => p != a)).length + 1 = l.length := by
  induction l with
  | nil => simp at ha
  | cons x l ih =>
    simp only [List.nodup_cons] at hnd
    by_cases hx : x = a
    · subst hx
      have : l.filter (fun p => p != x) = l := by
        apply List.filter_eq_self.mpr
        intro b hb
        have : b ≠ x := fun e => hnd.1 (e ▸ hb)
        simpa using this
      simp [this]
    · have ha' : a ∈ l := by
        rcases List.mem_cons.mp ha with h | h
        · exact absurd h.symm hx
        · exact h
      have := ih hnd.2 ha'
      simp [hx]
      omega

theorem reap_child_ok (st : Master) (pid : Int) (hf : st.fault = false)
    (hok : (reap_child st pid).fault = false) :
    (reap_child st pid).num_clients = st.num_clients - 1 ∧
    client_pids (reap_child st pid) = (client_pids st).filter (fun p => p != pid) := by
  unfold reap_child at hok ⊢
  rw [if_neg (by rw [hf]; decide)] at hok ⊢
  split at hok
  · simp [die] at hok
  · rename_i child hc
    simp only [hc] at hok ⊢
    have hcl : clients (room_user_del st child.room child.pid) = clients st := by
      unfold room_user_del
      split
      · rfl
      · unfold room_update; split_ifs <;> rfl
    split at hok
    · rename_i hft; rw [hft] at hok; cases hok
    · rename_i hft
      rw [if_neg hft]
      have h1 : (room_user_del st child.room child.pid).num_clients = st.num_clients :=
        congrArg Prod.fst hcl
      have h2 : (room_user_del st child.room child.pid).child_map.map (fun c => c.pid)
          = st.child_map.map (fun c => c.pid) := congrArg Prod.snd hcl
      refine ⟨by simp only [h1], ?_⟩
      simp only [client_pids, hash_remove]
      rw [← h2, List.filter_map]
      rfl

theorem reap_fold_faulted (reaped : List Int) :
    ∀ st : Master, st.fault = true → reaped.foldl reap_child st = st := by
  induction reaped with
  | nil => intro st _; rfl
  | cons p ps ih =>
    intro st hf
    have : reap_child st p = st := by simp [reap_child, hf]
    rw [List.foldl_cons, this, ih st hf]

theorem handle_disconnects_ok (reaped : List Int) :
    ∀ st : Master, (client_pids st).Nodup → reaped.Nodup →
      (∀ p ∈ reaped, p ∈ client_pids st) →
      (handle_disconnects st reaped).fault = false →
      st.fault = false ∧
      (handle_disconnects st reaped).num_clients = st.num_clients - reaped.length ∧
      (client_pids (handle_disconnects st reaped)).Nodup ∧
      (client_pids (handle_disconnects st reaped)).length + reaped.length
        = (client_pids st).length := by
  unfold handle_disconnects
  induction reaped with
  | nil => intro st hnd _ _ hok; exact ⟨hok, by simp, hnd, rfl⟩
  | cons p ps ih =>
    intro st hnd hrn hsub hok
    rw [List.foldl_cons] at hok ⊢
    simp only [List.nodup_cons] at hrn
    have hf1 : (reap_child st p).fault = false := by
      by_contra hne
      have ht : (reap_child st p).fault = true := by simpa using hne
      rw [reap_fold_faulted ps _ ht, ht] at hok
      cases hok
    have hf0 : st.fault = false := by
      by_contra hne
      have ht : st.fault = true := by simpa using hne
      have : reap_child st p = st := by simp [reap_child, ht]
      rw [this, ht] at hf1
      cases hf1
    obtain ⟨hn1, hp1⟩ := reap_child_ok st p hf0 hf1
    have hnd1 : (client_pids (reap_child st p)).Nodup := by
      rw [hp1]; exact hnd.filter _
    have hsub1 : ∀ q ∈ ps, q ∈ client_pids (reap_child st p) := by
      intro q hq
      rw [hp1, List.mem_filter]
      refine ⟨hsub q (List.mem_cons_of_mem _ hq), ?_⟩
      have : q ≠ p := fun e => hrn.1 (e ▸ hq)
      simpa using this
    obtain ⟨_, hn2, hnd2, hl2⟩ := ih (reap_child st p) hnd1 hrn.2 hsub1 hok
    refine ⟨hf0, ?_, hnd2, ?_⟩
    · rw [hn2, hn1]; simp only [List.length_cons]; push_cast; ring
    · have hlen := filter_ne_length (client_pids st) p hnd (hsub p (List.mem_cons_self _ _))
      rw [hp1] at hl2
      simp only [List.length_cons]
      omega

theorem hash_lookup_none_not_mem {m : List child_data} {pid : Int}
    (h : hash_lookup m pid = none) : pid ∉ m.map (fun c => c.pid) := by
  unfold hash_lookup at h
  rw [List.find?_eq_none] at h
  intro hmem
  obtain ⟨c, hc, hpid⟩ := List.mem_map.mp hmem
  exact h c hc (by simpa using hpid)

theorem step_of_fault (env : Env) (st : Master) (ev : event) (hf : st.fault = true) :
    step env st ev = st := by
  simp [step, hf]

/-- In every state that the event loop reaches from a state with an empty client
table and the counter at 0, and in which the master runs, the counter is the
number of records of the client table, and the pids of the table are distinct. -/
theorem reachable_clients (env : Env) (hq : hooks_keep env clients) (init : Master)
    (h0 : init.child_map = []) (h1 : init.num_clients = 0) (st : Master)
    (hr : reachable env init st) :
    st.fault = false →
      st.num_clients = st.child_map.length ∧ (client_pids st).Nodup := by
  induction hr with
  | init =>
    intro _
    simp [h0, h1, client_pids]
  | step st ev _ hadm ih =>
    intro hok
    by_cases hft : st.fault = true
    · rw [step_of_fault env st ev hft] at hok ⊢
      exact ih hok
    · have hf : st.fault = false := by simpa using hft
      obtain ⟨hn, hnd⟩ := ih hf
      have hlen : ∀ a : Master, a.child_map.length = (client_pids a).length := by
        intro a; simp [client_pids]
      cases ev with
      | accept new_sock pipes addr pid =>
        have hstep : step env st (event.accept new_sock pipes addr pid)
            = new_connection_cb st new_sock pipes addr pid := by simp [step, hf]
        rw [hstep] at hok ⊢
        obtain ⟨hn1, hp1⟩ := new_connection_cb_ok st new_sock pipes addr pid hf hadm hok
        refine ⟨?_, ?_⟩
        · rw [hn1, hlen, hp1, hn, hlen]; simp
        · rw [hp1]
          have hnm : pid ∉ client_pids st := hash_lookup_none_not_mem hadm
          refine List.Nodup.append hnd (List.nodup_singleton _) ?_
          intro x hx hx'
          rw [List.mem_singleton] at hx'
          exact hnm (hx' ▸ hx)
      | reap reaped =>
        have hstep : step env st (event.reap reaped) = handle_disconnects st reaped := by
          simp [step, hf]
        rw [hstep] at hok ⊢
        obtain ⟨_, hn2, hnd2, hl2⟩ := handle_disconnects_ok reaped st hnd hadm.1 hadm.2 hok
        refine ⟨?_, hnd2⟩
        rw [hn2, hn, hlen, hlen]
        omega
      | request rd =>
        have hstep : step env st (event.request rd) = (handle_child_req env st rd).2 := by
          simp [step, hf]
        rw [hstep]
        have hcl := handle_child_req_clients env hq st rd
        have h1 : (handle_child_req env st rd).2.num_clients = st.num_clients :=
          congrArg Prod.fst hcl
        have h2 : client_pids (handle_child_req env st rd).2 = client_pids st :=
          congrArg Prod.snd hcl
        refine ⟨?_, by rw [h2]; exact hnd⟩
        rw [h1, hlen, h2, hn, hlen]

/-- C14: in every master state reached from the initial state (empty client
table, counter 0) by accepts, reaps of workers that are in the table and request
dispatches, and in which the master runs, `num_clients` is the number of records
of the client table. From such a state, an accept that succeeds adds one record
and increments the counter by one; a reap removes one record and decrements the
counter by one for each worker reaped; the dispatch of a request, whatever was
read, changes neither (hooks of the world module aside). -/
theorem num_clients_invariant (env : Env) (hq : hooks_keep env clients) (init : Master)
    (h0 : init.child_map = []) (h1 : init.num_clients = 0) (st : Master)
    (hr : reachable env init st) (hf : st.fault = false) :
    st.num_clients = st.child_map.length ∧
    (∀ new_sock pipes addr pid, admissible st (event.accept new_sock pipes addr pid) →
      (step env st (event.accept new_sock pipes addr pid)).fault = false →
      (step env st (event.accept new_sock pipes addr pid)).num_clients = st.num_clients + 1 ∧
      (step env st (event.accept new_sock pipes addr pid)).child_map.length
        = st.child_map.length + 1) ∧
    (∀ reaped, admissible st (event.reap reaped) →
      (step env st (event.reap reaped)).fault = false →
      (step env st (event.reap reaped)).num_clients = st.num_clients - reaped.length ∧
      (step env st (event.reap reaped)).child_map.length + reaped.length
        = st.child_map.length) ∧
    (∀ rd, (step env st (event.request rd)).num_clients = st.num_clients ∧
      (step env st (event.request rd)).child_map.length = st.child_map.length) := by
  obtain ⟨hn, hnd⟩ := reachable_clients env hq init h0 h1 st hr hf
  have hlen : ∀ a : Master, a.child_map.length = (client_pids a).length := by
    intro a; simp [client_pids]
  refine ⟨hn, ?_, ?_, ?_⟩
  · intro new_sock pipes addr pid hadm hok
    have hstep : step env st (event.accept new_sock pipes addr pid)
        = new_connection_cb st new_sock pipes addr pid := by simp [step, hf]
    rw [hstep] at hok ⊢
    obtain ⟨hn1, hp1⟩ := new_connection_cb_ok st new_sock pipes addr pid hf hadm hok
    exact ⟨hn1, by rw [hlen, hp1, hlen]; simp⟩
  · intro reaped hadm hok
    have hstep : step env st (event.reap reaped) = handle_disconnects st reaped := by
      simp [step, hf]
    rw [hstep] at hok ⊢
    obtain ⟨_, hn2, _, hl2⟩ := handle_disconnects_ok reaped st hnd hadm.1 hadm.2 hok
    exact ⟨hn2, by rw [hlen, hlen]; exact hl2⟩
  · intro rd
    have hstep : step env st (event.request rd) = (handle_child_req env st rd).2 := by
      simp [step, hf]
    rw [hstep]
    have hcl := handle_child_req_clients env hq st rd
    have h1 : (handle_child_req env st rd).2.num_clients = st.num_clients :=
      congrArg Prod.fst hcl
    have h2 : client_pids (handle_child_req env st rd).2 = client_pids st :=
      congrArg Prod.snd hcl
    exact ⟨h1, by rw [hlen, h2, hlen]⟩

/-- C14, witness: workers 7 and 9 are accepted, worker 7 broadcasts "hi", worker 7
is reaped: the counter and the table both hold one client. -/
theorem num_clients_invariant_witness :
    (step env0 (step env0 (step env0 (step env0 st_init
        (event.accept 3 true 0 7)) (event.accept 3 true 0 9))
        (event.request (some (mk_packet 7 REQ_BCASTMSG (str "hi"))))) (event.reap [7])).fault
      = false ∧
    (step env0 (step env0 (step env0 (step env0 st_init
        (event.accept 3 true 0 7)) (event.accept 3 true 0 9))
        (event.request (some (mk_packet 7 REQ_BCASTMSG (str "hi"))))) (event.reap [7])).num_clients
      = 1 ∧
    (step env0 (step env0 (step env0 (step env0 st_init
        (event.accept 3 true 0 7)) (event.accept 3 true 0 9))
        (event.request (some (mk_packet 7 REQ_BCASTMSG (str "hi"))))) (event.reap [7])).num_clients
      = (step env0 (step env0 (step env0 (step env0 st_init
        (event.accept 3 true 0 7)) (event.accept 3 true 0 9))
        (event.request (some (mk_packet 7 REQ_BCASTMSG (str "hi"))))) (event.reap [7])).child_map.length :=
  ⟨by decide, by decide,
    (num_clients_invariant env0 ⟨fun _ _ _ _ => rfl, fun _ _ _ _ _ => rfl⟩ st_init rfl rfl _
      (reachable.step _ _ (reachable.step _ _ (reachable.step _ _ (reachable.step _ _
        reachable.init (by decide)) (by decide)) (by decide)) (by decide))
      (by decide)).1⟩

/-! ## Assertions -/

/-! ### C20: the assertion of `send_packet` -/

theorem write_packet_assert (st : Master) (c : Int) (p : List Nat) :
    (write_packet st c p).assert_failed = st.assert_failed := by
  unfold write_packet; split <;> rfl

/-- A call of `send_packet` on a running master whose payload is not shorter than
`MSG_MAX` and whose code is not `REQ_BCASTMSG` fails the assertion. -/
theorem send_packet_oversized (env : Env) (st : Master) (child : Int) (cmd : Nat)
    (data : Option (List Nat)) (n : Nat) (hf : st.fault = false) (hn : env.MSG_MAX ≤ n)
    (hc : cmd ≠ REQ_BCASTMSG) :
    (send_packet env st child cmd data n).assert_failed = true := by
  have h1 : ¬ n < env.MSG_MAX := by omega
  simp [send_packet, send_packet_fuel, hf, h1, hc, assert_fail]

/-- A call of `send_packet` that satisfies the assertion does not set the flag
`assert_failed`; no other step of a request handler sets it. -/
theorem frame_assert (env : Env) : frame env env.MSG_MAX Master.assert_failed where
  k_die := fun _ => rfl
  k_send := fun st child cmd data n h =>
    send_packet_fuel_frame Master.assert_failed env child cmd (fun _ => rfl) write_packet_assert
      2 st data n (h.elim Or.inl (fun h => Or.inr (Or.inl h)))
  k_child := by intro st pid f _; unfold child_update; split <;> rfl
  k_room := by intro st id f; unfold room_update; split_ifs <;> rfl
  k_inventory := by intro st n f; unfold userdb_set_objects; split <;> rfl
  k_user_remove := by intro st n; unfold userdb_remove; split <;> rfl
  k_user_add := by intro st u; unfold userdb_add; split <;> rfl
  k_dup := by intro st o; unfold obj_dup; simp only []; split <;> rfl
  k_save := by intro st f; simp only [server_save_state]; split_ifs <;> rfl
  k_poke := by intro st d; unfold poke_data; split <;> rfl
  k_recv := fun _ _ => rfl

/-- C20: for every packet of at least `sizeof(pid_t) + 1` and at most `MSG_MAX`
bytes (from any sender, with any request code), given that the user record is
smaller than `MSG_MAX`, no call of `send_packet` made while the packet is
handled fails the assertion `datalen < MSG_MAX || cmd == REQ_BCASTMSG`: the flag
that a failed assertion sets is still unset afterwards (hooks of the world
module aside). -/
theorem send_packet_assertion_holds (env : Env) (hq : hooks_keep env Master.assert_failed)
    (hu : env.sizeof_userdata < env.MSG_MAX) (hM : env.MSG_MAX < 2 ^ 64)
    (st : Master) (bytes : List Nat)
    (h5 : sizeof_pid_t + 1 ≤ bytes.length) (hle : bytes.length ≤ env.MSG_MAX)
    (h0 : st.assert_failed = false) :
    (handle_child_req env st (some bytes)).2.assert_failed = false := by
  have h5' : 5 ≤ bytes.length := h5
  have hn : to_size_t ((read_packet env st (some bytes)).1 - sizeof_pid_t - 1) < env.MSG_MAX := by
    rw [read_packet_fst env st bytes hle]
    have : ((bytes.length : Int) - (sizeof_pid_t : Int) - 1) = ((bytes.length - 5 : Nat) : Int) := by
      unfold sizeof_pid_t; omega
    rw [this, to_size_t_natCast _ (by omega)]
    omega
  rw [frame_handle_child_req (frame_assert env) (fun _ _ => rfl) hq (by omega) hu st (some bytes) hn]
  exact h0

/-- The call `child_toggle_rawmode(child, cb)`, which only hooks of the world module
make, satisfies the assertion as well: its RAWMODE packet has no payload. -/
theorem toggle_rawmode_assert (env : Env) (hM : 0 < env.MSG_MAX) (st : Master) (child : Int)
    (cb : Option Nat) :
    (child_toggle_rawmode env st child cb).assert_failed = st.assert_failed := by
  have hs := (frame_assert env).k_send st child REQ_RAWMODE none 0 (Or.inl hM)
  have hc : ∀ (a : Master) (f : child_data → child_data),
      (child_update a child f).assert_failed = a.assert_failed := by
    intro a f; unfold child_update; split <;> rfl
  unfold child_toggle_rawmode
  split
  · simp only []
    split
    · exact hs
    · split
      · rw [hc]; exact hs
      · rw [hc]; exact hs
  · rfl

/-- C20, witness: worker 7 sends KICKALL with a payload that fills the packet up
to `MSG_MAX`; the payload is forwarded to worker 9 as one KICK packet, and the
assertion holds. -/
theorem send_packet_assertion_holds_witness :
    (mk_packet 7 REQ_KICKALL (List.replicate 59 65)).length = env0.MSG_MAX ∧
    (handle_child_req env0 st0
        (some (mk_packet 7 REQ_KICKALL (List.replicate 59 65)))).2.sent
      = [⟨9, REQ_KICK :: List.replicate 59 65⟩, ⟨7, [REQ_ALLDONE]⟩] ∧
    (handle_child_req env0 st0
        (some (mk_packet 7 REQ_KICKALL (List.replicate 59 65)))).2.assert_failed = false :=
  ⟨by decide, by decide,
    send_packet_assertion_holds env0 ⟨fun _ _ _ _ => rfl, fun _ _ _ _ _ => rfl⟩ (by decide)
      (by decide) st0 (mk_packet 7 REQ_KICKALL (List.replicate 59 65)) (by decide) (by decide)
      rfl⟩

/-- Outside the bounds of C20: after a KICKALL packet from worker 7, a failed read
(`read` returns -1) is handled as a request with the stale packet and the
payload length `(size_t)(-1 - sizeof(pid_t) - 1)`, and the call of `send_packet`
in `req_kick_always` fails the assertion. -/
theorem read_error_trips_assertion :
    (handle_child_req env0
        (handle_child_req env0 st0 (some (mk_packet 7 REQ_KICKALL (str "bye")))).2
        none).2.assert_failed = true := by
  decide

/-! ### C15: periodic saves -/

theorem server_save_state_master (st : Master) (force : Bool) (hf : st.fault = false)
    (hm : st.are_child = false) :
    (server_save_state st force).fault = false ∧
    (server_save_state st force).are_child = false ∧
    (server_save_state st force).save_n = (st.save_n + 1) % SAVE_INTERVAL ∧
    decide ((server_save_state st force).saves ≠ st.saves)
      = (force || decide ((st.save_n + 1) % SAVE_INTERVAL = 0)) := by
  unfold server_save_state
  simp only [hf, hm, Bool.false_eq_true, if_false, Bool.not_false, if_true]
  by_cases h : (st.save_n + 1) % SAVE_INTERVAL = 0 ∨ force = true
  · rw [if_pos h]
    refine ⟨rfl, rfl, rfl, ?_⟩
    rcases h with h | h
    · simp [h]
    · simp [h]
  · rw [if_neg h]
    refine ⟨rfl, rfl, rfl, ?_⟩
    simp only [not_or] at h
    have hfo : force = false := by simpa using h.2
    simp [h.1, hfo]

theorem save_trace_master (forces : List Bool) :
    ∀ (st : Master) (j : Nat), st.fault = false → st.are_child = false →
      st.save_n = j % SAVE_INTERVAL →
      save_trace st forces
        = (forces.enumFrom (j + 1)).map (fun p => p.2 || decide (p.1 % SAVE_INTERVAL = 0)) := by
  induction forces with
  | nil => intro st j _ _ _; rfl
  | cons f fs ih =>
    intro st j hf hm hj
    obtain ⟨hf1, hm1, hn1, hw1⟩ := server_save_state_master st f hf hm
    have hj1 : (server_save_state st f).save_n = (j + 1) % SAVE_INTERVAL := by
      rw [hn1, hj]; unfold SAVE_INTERVAL; omega
    have hmod : (st.save_n + 1) % SAVE_INTERVAL = (j + 1) % SAVE_INTERVAL := by
      rw [hj]; unfold SAVE_INTERVAL; omega
    simp only [save_trace, List.enumFrom_cons, List.map_cons]
    rw [hw1, ih _ (j + 1) hf1 hm1 hj1, hmod]

theorem count_periodic (forces : List Bool) :
    ∀ j : Nat, (j + forces.length) / SAVE_INTERVAL ≤ j / SAVE_INTERVAL +
      ((forces.enumFrom (j + 1)).map
        (fun p => p.2 || decide (p.1 % SAVE_INTERVAL = 0))).count true := by
  induction forces with
  | nil => intro j; simp
  | cons f fs ih =>
    intro j
    have h := ih (j + 1)
    simp only [List.enumFrom_cons, List.map_cons, List.length_cons, List.count_cons]
    have e : j + 1 + fs.length = j + (fs.length + 1) := by omega
    rw [e] at h
    by_cases hz : (j + 1) % SAVE_INTERVAL = 0
    · simp only [hz, decide_True, Bool.or_true, beq_self_eq_true, if_true]
      unfold SAVE_INTERVAL at h hz ⊢
      omega
    · have : j / SAVE_INTERVAL = (j + 1) / SAVE_INTERVAL := by
        unfold SAVE_INTERVAL at hz ⊢; omega
      rw [this]
      omega

theorem save_trace_worker (forces : List Bool) (st : Master) (hw : st.are_child = true) :
    save_trace st forces = forces.map (fun _ => false) ∧ save_run st forces = st := by
  have hstep : ∀ f, server_save_state st f = st := by
    intro f
    unfold server_save_state
    simp [hw]
  induction forces with
  | nil => exact ⟨rfl, rfl⟩
  | cons f fs ih =>
    simp only [save_trace, save_run, List.foldl_cons, List.map_cons, hstep]
    exact ⟨by rw [ih.1]; simp, ih.2⟩

/-- C15: a sequence of calls of `server_save_state` with arbitrary force flags. In
the master, from start-up (the counter at 0): the `k`-th call writes the two
files exactly when its force flag is true or `k` is a multiple of
`SAVE_INTERVAL` (= 10); so the number of calls that write is at least the number
of calls divided by `SAVE_INTERVAL`. In a worker (`are_child` set) no call writes
and the state, the counter included, stays as it is. -/
theorem save_schedule (st : Master) (forces : List Bool) (hf : st.fault = false) :
    SAVE_INTERVAL = 10 ∧
    (st.are_child = false → st.save_n = 0 →
      (save_trace st forces).length = forces.length ∧
      (∀ (k : Nat) (hk : k < forces.length),
        (save_trace st forces)[k]?
          = some (forces[k] || decide ((k + 1) % SAVE_INTERVAL = 0))) ∧
      forces.length / SAVE_INTERVAL ≤ (save_trace st forces).count true) ∧
    (st.are_child = true →
      save_trace st forces = forces.map (fun _ => false) ∧ save_run st forces = st) := by
  refine ⟨rfl, ?_, save_trace_worker forces st⟩
  intro hm h0
  have htr := save_trace_master forces st 0 hf hm (by rw [h0]; rfl)
  refine ⟨by rw [htr]; simp, ?_, ?_⟩
  · intro k hk
    rw [htr, List.getElem?_map, List.getElem?_enumFrom, List.getElem?_eq_getElem hk]
    simp [Nat.add_comm]
  · have := count_periodic forces 0
    rw [htr]
    simpa using this

/-- C15, witness: twelve unforced calls and a forced one: the tenth call and the
forced call write. -/
theorem save_schedule_witness :
    save_trace st0 (List.replicate 12 false ++ [true])
      = [false, false, false, false, false, false, false, false, false, true, false, false,
         true] ∧
    13 / SAVE_INTERVAL ≤ (save_trace st0 (List.replicate 12 false ++ [true])).count true :=
  ⟨by decide,
    ((save_schedule st0 (List.replicate 12 false ++ [true]) rfl).2.1 rfl rfl).2.2⟩

/-! ### C16: LISTUSERS -/

theorem request_lookup_listusers :
    request_lookup REQ_LISTUSERS
      = some ⟨REQ_LISTUSERS, false, which_t.CHILD_NONE, none, some req_listusers⟩ := rfl

theorem listusers_fold (env : Env) (sender : Int) (line : userdata_t → List Nat)
    (L : List userdata_t) (hfit : ∀ u ∈ L, (line u).length < env.MSG_MAX) :
    ∀ a : Master, a.fault = false →
      L.foldl (fun acc user => send_msg env acc sender (line user)) a
        = { a with sent := a.sent ++ L.map (fun u => ⟨sender, REQ_BCASTMSG :: line u⟩) } := by
  induction L with
  | nil => intro a _; simp
  | cons u L ih =>
    intro a hf
    rw [List.foldl_cons, send_msg_small env a sender _ hf (hfit u (List.mem_cons_self _ _)),
      ih (fun v hv => hfit v (List.mem_cons_of_mem _ hv)) _ (by exact hf)]
    simp

/-- C16 (amended): LISTUSERS is not restricted at the master. For every LISTUSERS
request from a known sender, whatever the state of the sender's session, the
sender is sent one line for every record of the user database (name, privilege,
last login), then ALLDONE (each line taken to fit a packet). -/
theorem listusers_any_state (env : Env) (st : Master) (sender : Int) (payload : List Nat)
    (s : child_data)
    (hf : st.fault = false)
    (hlen : sizeof_pid_t + 1 + payload.length ≤ env.MSG_MAX) (hM : env.MSG_MAX < 2 ^ 64)
    (hlo : -2 ^ 31 ≤ sender) (hhi : sender < 2 ^ 31)
    (hs : hash_lookup st.child_map sender = some s)
    (hfit : ∀ u ∈ st.userdb, (u.username ++ str ": priv: " ++ fmt_d u.priv ++ str " last: "
      ++ env.ctime u.last_login).length < env.MSG_MAX) :
    sent_since st.sent.length
        (handle_child_req env st (some (mk_packet sender REQ_LISTUSERS payload))).2
      = st.userdb.map (fun u => ⟨sender, REQ_BCASTMSG :: (u.username ++ str ": priv: "
          ++ fmt_d u.priv ++ str " last: " ++ env.ctime u.last_login)⟩)
        ++ [⟨sender, [REQ_ALLDONE]⟩] := by
  rw [handle_child_req_known env st sender REQ_LISTUSERS payload _ s hlo hhi hs hlen hM
    request_lookup_listusers]
  have hf' : (recv st (mk_packet sender REQ_LISTUSERS payload)).fault = false := hf
  rw [run_request_finalize env _ _ _ _ _ _ hf']
  unfold req_listusers
  have hdb : (log_call (recv st (mk_packet sender REQ_LISTUSERS payload))
      (call.finalize REQ_LISTUSERS sender)).userdb = st.userdb := rfl
  rw [hdb, listusers_fold env sender _ st.userdb hfit _ (by exact hf)]
  rw [send_packet_none env _ sender REQ_ALLDONE (by exact hf) (by omega)]
  simp only [sent_since]
  have : (log_call (recv st (mk_packet sender REQ_LISTUSERS payload))
      (call.finalize REQ_LISTUSERS sender)).sent = st.sent := rfl
  rw [this, List.append_assoc, List.drop_left]

/-- C16 (amended), witness: worker 7, in the state `INIT`, is sent the line of every record
of the user database, then ALLDONE. -/
theorem listusers_any_state_witness :
    (hash_lookup st0.child_map 7).map (fun c => c.state) = some STATE_INIT ∧
    sent_since st0.sent.length
        (handle_child_req env0 st0 (some (mk_packet 7 REQ_LISTUSERS []))).2
      = st0.userdb.map (fun u => ⟨7, REQ_BCASTMSG :: (u.username ++ str ": priv: "
          ++ fmt_d u.priv ++ str " last: " ++ env0.ctime u.last_login)⟩)
        ++ [⟨7, [REQ_ALLDONE]⟩] :=
  ⟨rfl, listusers_any_state env0 st0 7 [] ⟨7, 0, 0, none, 0, none⟩ rfl (by decide) (by decide)
    (by decide) (by decide) rfl (by decide)⟩

/-- C16 (counterexample): worker 7 is in the state `INIT`, not `LOGGED_IN_ADMIN`, and
sends LISTUSERS. `req_listusers` does not look at the state of the sender: the
master sends worker 7 the listing line of the user "alice" (name, privilege, last
login), then ALLDONE. -/
theorem listusers_not_admin_only :
    (hash_lookup st0.child_map 7).map (fun c => c.state) = some STATE_INIT ∧
    STATE_INIT ≠ STATE_ADMIN ∧
    (handle_child_req env0 st0 (some (mk_packet 7 REQ_LISTUSERS []))).2.sent
      = [⟨7, REQ_BCASTMSG :: str "alice: priv: 1337 last: Thu Jan  1 00:00:00 1970\n"⟩,
         ⟨7, [REQ_ALLDONE]⟩] := by
  decide

/-! ### C17: CHANGEUSER -/

theorem request_lookup_changeuser :
    request_lookup REQ_CHANGEUSER
      = some ⟨REQ_CHANGEUSER, true, which_t.CHILD_SENDER, some req_change_user, none⟩ := rfl

/-- What the master does with CHANGEUSER: the user name of the sender becomes the
C string at the payload pointer, which ends at the first NUL byte of the
payload or, when the payload has none, of what earlier packets left in the
receive buffer behind it; no other record of the client table changes. -/
theorem changeuser_request (env : Env) (st : Master) (sender : Int) (payload : List Nat)
    (s : child_data)
    (hf : st.fault = false)
    (hlen : sizeof_pid_t + 1 + payload.length ≤ env.MSG_MAX) (hM : env.MSG_MAX < 2 ^ 64)
    (hlo : -2 ^ 31 ≤ sender) (hhi : sender < 2 ^ 31)
    (hs : hash_lookup st.child_map sender = some s) :
    (handle_child_req env st (some (mk_packet sender REQ_CHANGEUSER payload))).2.child_map
      = st.child_map.map (fun c =>
          if c.pid = sender then { c with user := some (payload_cstr st payload) } else c) := by
  rw [handle_child_req_known env st sender REQ_CHANGEUSER payload _ s hlo hhi hs hlen hM
    request_lookup_changeuser]
  rw [send_packet_child_map]
  have hf' : (recv st (mk_packet sender REQ_CHANGEUSER payload)).fault = false := hf
  have hrun : run_request env
      ⟨REQ_CHANGEUSER, true, which_t.CHILD_SENDER, some req_change_user, none⟩
      payload.length sender (recv st (mk_packet sender REQ_CHANGEUSER payload))
      = req_change_user env
          ((recv st (mk_packet sender REQ_CHANGEUSER payload)).packet.drop (sizeof_pid_t + 1))
          payload.length sender sender
          (log_call (recv st (mk_packet sender REQ_CHANGEUSER payload))
            (call.handle_child REQ_CHANGEUSER sender sender)) := by
    simp only [run_request, fan_out, call_handle_child, hf', Bool.false_eq_true, if_false]
    unfold call_finalize
    split
    · rfl
    · rfl
  rw [hrun, recv_data]
  unfold req_change_user
  rw [child_update_eq _ _ _ (by exact hf)]
  rfl

/-- C17 (failing input): worker 9 has sent a NOP packet with the eight payload bytes
"XXXXXXXX"; then worker 7 sends CHANGEUSER with the three bytes "bob" (no NUL
byte). `strdup((char*)data)` does not stop at the payload length: the user name
of worker 7 becomes "bobXXXXX", the payload followed by the five bytes that the
earlier packet left in the buffer. -/
theorem changeuser_reads_stale_bytes :
    st_stale.fault = false ∧
    (str "bob").length = 3 ∧ 0 ∉ str "bob" ∧
    (hash_lookup
        (handle_child_req env0 st_stale (some (mk_packet 7 REQ_CHANGEUSER (str "bob")))).2.child_map
        7).map (fun c => c.user)
      = some (some (str "bobXXXXX")) := by
  decide

/-! ### C18: raw mode -/

/-- A toggle with a callback on a session that is not in raw mode: one RAWMODE
packet, and the callback is set. -/
theorem toggle_rawmode_on (env : Env) (st : Master) (child : Int) (c : child_data)
    (cb : Option Nat) (hf : st.fault = false) (hm : st.are_child = false)
    (hM : 1 ≤ env.MSG_MAX) (hc : hash_lookup st.child_map child = some c)
    (hoff : c.raw_mode_cb = none) :
    child_toggle_rawmode env st child cb
      = { st with
          sent := st.sent ++ [⟨child, [REQ_RAWMODE]⟩]
          child_map := st.child_map.map (fun x =>
            if x.pid = child then { x with raw_mode_cb := cb } else x) } := by
  unfold child_toggle_rawmode
  have h1 : (!st.are_child) = true := by rw [hm]; rfl
  rw [if_pos h1]
  simp only []
  rw [send_packet_none env st child REQ_RAWMODE hf hM]
  simp only [hc, hoff, Option.isNone_none, if_true]
  rw [child_update_eq _ _ _ (by exact hf)]

/-- A toggle on a session that is in raw mode, with any argument: one RAWMODE
packet, and the callback is cleared. -/
theorem toggle_rawmode_off (env : Env) (st : Master) (child : Int) (c : child_data)
    (cb : Option Nat) (k : Nat) (hf : st.fault = false) (hm : st.are_child = false)
    (hM : 1 ≤ env.MSG_MAX) (hc : hash_lookup st.child_map child = some c)
    (hon : c.raw_mode_cb = some k) :
    child_toggle_rawmode env st child cb
      = { st with
          sent := st.sent ++ [⟨child, [REQ_RAWMODE]⟩]
          child_map := st.child_map.map (fun x =>
            if x.pid = child then { x with raw_mode_cb := none } else x) } := by
  unfold child_toggle_rawmode
  have h1 : (!st.are_child) = true := by rw [hm]; rfl
  rw [if_pos h1]
  simp only []
  rw [send_packet_none env st child REQ_RAWMODE hf hM]
  simp only [hc, hon, Option.isNone_some, Bool.false_eq_true, if_false]
  rw [child_update_eq _ _ _ (by exact hf)]

/-- While the callback of the sender is set, `req_execverb` hands the payload to
the callback and does nothing else: no token is cut, no verb is looked up. -/
theorem execverb_raw (env : Env) (st : Master) (sender : Int) (s : child_data) (cb : Nat)
    (data : List Nat) (datalen : Nat) (hf : st.fault = false)
    (hs : hash_lookup st.child_map sender = some s) (hon : s.raw_mode_cb = some cb) :
    req_execverb env data datalen sender st = env.raw_cb cb sender data datalen st := by
  unfold req_execverb
  simp only [hs, hon, call_hook, hf, Bool.false_eq_true, if_false]

/-- C18 (failing input): `child_toggle_rawmode(child, NULL)` for worker 7, which is not
in raw mode. One RAWMODE packet is sent to the worker, but `raw_mode_cb` stays
NULL: the master's raw-mode state has not flipped and no longer agrees with the
parity of the RAWMODE packets sent. A following EXECVERB is not passed to a
callback: the master cuts the first word and looks it up as a verb. -/
theorem toggle_rawmode_null_does_not_flip :
    (hash_lookup st0.child_map 7).map (fun c => c.raw_mode_cb) = some none ∧
    (child_toggle_rawmode env0 st0 7 none).fault = false ∧
    (child_toggle_rawmode env0 st0 7 none).sent = [⟨7, [REQ_RAWMODE]⟩] ∧
    (hash_lookup (child_toggle_rawmode env0 st0 7 none).child_map 7).map
        (fun c => c.raw_mode_cb) = some none ∧
    (handle_child_req env0 (child_toggle_rawmode env0 st0 7 none)
        (some (mk_packet 7 REQ_EXECVERB (str "look")))).2.sent
      = [⟨7, [REQ_RAWMODE]⟩, ⟨7, REQ_BCASTMSG :: str "I don't know what that means.\n"⟩,
         ⟨7, [REQ_ALLDONE]⟩] := by
  decide

/-- With a callback that is not NULL the same toggle does flip: raw mode is on, an
EXECVERB is passed to the callback (which here sends nothing), and a second
toggle leaves raw mode. -/
theorem toggle_rawmode_example :
    (hash_lookup (child_toggle_rawmode env0 st0 7 (some 1)).child_map 7).map
        (fun c => c.raw_mode_cb) = some (some 1) ∧
    (handle_child_req env0 (child_toggle_rawmode env0 st0 7 (some 1))
        (some (mk_packet 7 REQ_EXECVERB (str "look")))).2.sent
      = [⟨7, [REQ_RAWMODE]⟩, ⟨7, [REQ_ALLDONE]⟩] ∧
    (hash_lookup (child_toggle_rawmode env0 (child_toggle_rawmode env0 st0 7 (some 1)) 7
        (some 1)).child_map 7).map (fun c => c.raw_mode_cb) = some none ∧
    (child_toggle_rawmode env0 (child_toggle_rawmode env0 st0 7 (some 1)) 7 (some 1)).sent
      = [⟨7, [REQ_RAWMODE]⟩, ⟨7, [REQ_RAWMODE]⟩] := by
  decide

/-! ### C19: the direction of a MOVE -/

/-- A direction outside the adjacency array of the sender's room: `req_move_room`
indexes the array with it all the same, and the master stops there. -/
theorem req_move_room_out_of_range (env : Env) (data : List Nat) (datalen : Nat)
    (sender : Int) (st : Master) (s : child_data) (current : room_t)
    (hs : hash_lookup st.child_map sender = some s)
    (hr : room_get st.world s.room = some current)
    (hd : le_int32 data < 0 ∨ (current.adjacent.length : Int) ≤ le_int32 data) :
    req_move_room env data datalen sender st = die st := by
  unfold req_move_room
  simp only [hs, hr]
  have : (if 0 ≤ le_int32 data then current.adjacent[(le_int32 data).toNat]? else none)
      = none := by
    split
    · rename_i h0
      rcases hd with h | h
      · omega
      · apply List.getElem?_eq_none
        omega
    · rfl
  rw [this]

/-- C19 (failing input): worker 7 is in room 0, whose adjacency array has two entries
(directions 0 and 1), and sends MOVE with the direction 2, or with the direction
-1. `req_move_room` does not validate the direction (`/* TODO: bounds checking on
dir */`): the lookup `current->adjacent[dir]` is out of bounds, and the master
stops without a MOVE reply and without ALLDONE. -/
theorem move_direction_not_validated :
    (hash_lookup st0.child_map 7).map (fun c => c.room) = some 0 ∧
    (room_get st0.world 0).map (fun r => r.adjacent.length) = some 2 ∧
    (handle_child_req env0 st0 (some (mk_packet 7 REQ_MOVE (int32_bytes 2)))).2.fault = true ∧
    sent_since st0.sent.length
      (handle_child_req env0 st0 (some (mk_packet 7 REQ_MOVE (int32_bytes 2)))).2 = [] ∧
    (handle_child_req env0 st0 (some (mk_packet 7 REQ_MOVE (int32_bytes (-1))))).2.fault = true ∧
    sent_since st0.sent.length
      (handle_child_req env0 st0 (some (mk_packet 7 REQ_MOVE (int32_bytes (-1))))).2 = [] := by
  decide

/-! ### C23: the command line -/

/-- The loop of `parse_args` ends: the bound on the number of rounds is never used
up. -/
theorem parse_loop_total (strtol : List Nat → Int) (argv : List (List Nat)) :
    ∀ (fuel i : Nat) (c : cmdline), 0 < fuel → argv.length < fuel + i →
      parse_loop strtol argv fuel i c ≠ parse_result.out_of_fuel := by
  intro fuel
  induction fuel with
  | zero => intro i c h0 _; omega
  | succ fuel ih =>
    intro i c _ h
    unfold parse_loop
    by_cases hi : i < argv.length
    · have hn : ¬ ¬ i < argv.length := fun hh => hh hi
      rw [if_neg hn]
      simp only []
      repeat' split
      all_goals first
        | (intro hh; cases hh)
        | (apply ih <;> omega)
    · rw [if_pos hi]
      intro hh; cases hh

theorem parse_args_total (strtol : List Nat → Int) (argv : List (List Nat)) :
    parse_args strtol argv ≠ parse_result.out_of_fuel :=
  parse_loop_total strtol argv _ _ _ (by omega) (by omega)

/-- The reads `argv[++i]` that fetch the value of an option never go beyond
`argv[argc]`. -/
theorem parse_reads_in_array (strtol : List Nat → Int) (argv : List (List Nat)) :
    ∀ (fuel i : Nat) (c : cmdline), (∀ k ∈ c.arg_reads, k ≤ argv.length) →
      ∀ c', result_cmdline (parse_loop strtol argv fuel i c) = some c' →
        ∀ k ∈ c'.arg_reads, k ≤ argv.length := by
  intro fuel
  induction fuel with
  | zero =>
    intro i c _ c' h
    simp [parse_loop, result_cmdline] at h
  | succ fuel ih =>
    intro i c hc c' h
    unfold parse_loop at h
    by_cases hi : i < argv.length
    · have hn : ¬ ¬ i < argv.length := fun hh => hh hi
      rw [if_neg hn] at h
      simp only [] at h
      repeat' split at h
      all_goals first
        | (simp only [result_cmdline, Option.some.injEq] at h
           subst h
           intro k hk
           try simp only [log_read, List.mem_append, List.mem_singleton] at hk
           first
             | exact hc k hk
             | (rcases hk with hk | hk
                · exact hc k hk
                · omega)
             | (rcases hk with (hk | hk) | hk
                · exact hc k hk
                · omega
                · omega))
        | (refine ih _ _ ?_ c' h
           intro k hk
           try simp only [log_read, List.mem_append, List.mem_singleton] at hk
           first
             | exact hc k hk
             | (rcases hk with hk | hk
                · exact hc k hk
                · omega)
             | (rcases hk with (hk | hk) | hk
                · exact hc k hk
                · omega
                · omega))
    · rw [if_pos hi] at h
      simp only [result_cmdline, Option.some.injEq] at h
      subst h
      exact hc

/-- The option `-d` followed by a word: the word becomes the data prefix, and the
loop goes on behind it. -/
theorem parse_option_d (strtol : List Nat → Int) (argv : List (List Nat)) (fuel i : Nat)
    (c : cmdline) (v : List Nat) (hi : i < argv.length)
    (ho : is_option (argv.getD i []) 100) (hv : argv[i + 1]? = some v) :
    parse_loop strtol argv (fuel + 1) i c
      = parse_loop strtol argv fuel (i + 2) { log_read c (i + 1) with data_prefix := some v } := by
  have h1 : i + 1 < argv.length := by
    by_contra hh
    rw [List.getElem?_eq_none (by omega)] at hv
    cases hv
  have h2 : ¬ i + 1 > argv.length := by omega
  rw [parse_loop]
  generalize argv.getD i [] = arg at ho ⊢
  obtain ⟨a1, a2, a3⟩ := ho
  simp only [List.headD_eq_head?_getD, List.getD_eq_getElem?_getD] at a1 a3
  simp [hi, a1, a2, a3, argv_read, h1, h2, hv]

/-- The option `-w` followed by a word: the word becomes the world module. -/
theorem parse_option_w (strtol : List Nat → Int) (argv : List (List Nat)) (fuel i : Nat)
    (c : cmdline) (v : List Nat) (hi : i < argv.length)
    (ho : is_option (argv.getD i []) 119) (hv : argv[i + 1]? = some v) :
    parse_loop strtol argv (fuel + 1) i c
      = parse_loop strtol argv fuel (i + 2) { log_read c (i + 1) with world_module := some v } := by
  have h1 : i + 1 < argv.length := by
    by_contra hh
    rw [List.getElem?_eq_none (by omega)] at hv
    cases hv
  have h2 : ¬ i + 1 > argv.length := by omega
  rw [parse_loop]
  generalize argv.getD i [] = arg at ho ⊢
  obtain ⟨a1, a2, a3⟩ := ho
  simp only [List.headD_eq_head?_getD, List.getD_eq_getElem?_getD] at a1 a3
  simp [hi, a1, a2, a3, argv_read, h1, h2, hv]

/-- The option `-p` followed by a word: `strtol` of the word becomes the port. -/
theorem parse_option_p (strtol : List Nat → Int) (argv : List (List Nat)) (fuel i : Nat)
    (c : cmdline) (v : List Nat) (hi : i < argv.length)
    (ho : is_option (argv.getD i []) 112) (hv : argv[i + 1]? = some v) :
    parse_loop strtol argv (fuel + 1) i c
      = parse_loop strtol argv fuel (i + 2)
          { log_read c (i + 1) with port := to_uint16 (strtol v) } := by
  have h1 : i + 1 < argv.length := by
    by_contra hh
    rw [List.getElem?_eq_none (by omega)] at hv
    cases hv
  have h2 : ¬ i + 1 > argv.length := by omega
  rw [parse_loop]
  generalize argv.getD i [] = arg at ho ⊢
  obtain ⟨a1, a2, a3⟩ := ho
  simp only [List.headD_eq_head?_getD, List.getD_eq_getElem?_getD] at a1 a3
  simp [hi, a1, a2, a3, argv_read, h1, h2, hv]

/-- The option `-a` followed by two words: they become user name and password. -/
theorem parse_option_a (strtol : List Nat → Int) (argv : List (List Nat)) (fuel i : Nat)
    (c : cmdline) (u p : List Nat) (hi : i < argv.length)
    (ho : is_option (argv.getD i []) 97) (hu : argv[i + 1]? = some u)
    (hp : argv[i + 2]? = some p) :
    parse_loop strtol argv (fuel + 1) i c
      = parse_loop strtol argv fuel (i + 3)
          { log_read (log_read { c with autoconfig := true } (i + 1)) (i + 2) with
            autouser := some u, autopass := some p } := by
  have h1 : i + 2 < argv.length := by
    by_contra hh
    rw [List.getElem?_eq_none (by omega)] at hp
    cases hp
  have h2 : ¬ i + 2 > argv.length := by omega
  have h3 : i + 1 < argv.length := by omega
  rw [parse_loop]
  generalize argv.getD i [] = arg at ho ⊢
  obtain ⟨a1, a2, a3⟩ := ho
  simp only [List.headD_eq_head?_getD, List.getD_eq_getElem?_getD] at a1 a3
  simp [hi, a1, a2, a3, argv_read, h1, h2, h3, hu, hp]

/-- An option letter other than `a`, `d`, `p`, `w` (`h` and `?` included): the usage
text is printed and the process exits with status 0; no variable changes. -/
theorem parse_option_unknown (strtol : List Nat → Int) (argv : List (List Nat)) (fuel i : Nat)
    (c : cmdline) (ch : Nat) (hi : i < argv.length)
    (ho : is_option (argv.getD i []) ch)
    (h1 : ch ≠ 97) (h2 : ch ≠ 100) (h3 : ch ≠ 112) (h4 : ch ≠ 119) :
    parse_loop strtol argv (fuel + 1) i c = parse_result.usage c := by
  rw [parse_loop]
  generalize argv.getD i [] = arg at ho ⊢
  obtain ⟨a1, a2, a3⟩ := ho
  simp only [List.headD_eq_head?_getD, List.getD_eq_getElem?_getD] at a1 a3
  simp [hi, a1, a2, a3, h1, h2, h3, h4]

/-- The option `-a` as the last word: the usage text is printed. -/
theorem parse_option_a_last (strtol : List Nat → Int) (argv : List (List Nat)) (fuel i : Nat)
    (c : cmdline) (hi : i + 1 = argv.length) (ho : is_option (argv.getD i []) 97) :
    parse_loop strtol argv (fuel + 1) i c
      = parse_result.usage { c with autoconfig := true } := by
  have h0 : i < argv.length := by omega
  have h2 : i + 2 > argv.length := by omega
  rw [parse_loop]
  generalize argv.getD i [] = arg at ho ⊢
  obtain ⟨a1, a2, a3⟩ := ho
  simp only [List.headD_eq_head?_getD, List.getD_eq_getElem?_getD] at a1 a3
  simp [h0, a1, a2, a3, h2]

/-- The option `-a` with one word behind it, the last: the test `i + 2 > argc` does
not hold, no usage text is printed; the word becomes the user name and the
password is read from `argv[argc]`, the NULL pointer that ends the array. -/
theorem parse_option_a_one_word (strtol : List Nat → Int) (argv : List (List Nat))
    (fuel i : Nat) (c : cmdline) (u : List Nat) (hi : i + 2 = argv.length)
    (ho : is_option (argv.getD i []) 97) (hu : argv[i + 1]? = some u) :
    parse_loop strtol argv (fuel + 2) i c
      = parse_result.returned
          { log_read (log_read { c with autoconfig := true } (i + 1)) (i + 2) with
            autouser := some u, autopass := none } := by
  have h0 : i < argv.length := by omega
  have h2 : ¬ i + 2 > argv.length := by omega
  have h3 : i + 1 < argv.length := by omega
  have h4 : ¬ i + 2 < argv.length := by omega
  have h5 : ¬ i + 3 < argv.length := by omega
  rw [parse_loop]
  generalize argv.getD i [] = arg at ho ⊢
  obtain ⟨a1, a2, a3⟩ := ho
  simp only [List.headD_eq_head?_getD, List.getD_eq_getElem?_getD] at a1 a3
  simp [h0, a1, a2, a3, argv_read, h2, h3, h4, hu, hi]
  rw [parse_loop]
  simp [h5]

/-- The option `-d` as the last word: the test `i + 1 > argc` does not hold, no usage
text is printed; the data prefix is read from `argv[argc]`, the NULL pointer. -/
theorem parse_option_d_last (strtol : List Nat → Int) (argv : List (List Nat)) (fuel i : Nat)
    (c : cmdline) (hi : i + 1 = argv.length) (ho : is_option (argv.getD i []) 100) :
    parse_loop strtol argv (fuel + 2) i c
      = parse_result.returned { log_read c (i + 1) with data_prefix := none } := by
  have h0 : i < argv.length := by omega
  have h2 : ¬ i + 1 > argv.length := by omega
  have h3 : ¬ i + 1 < argv.length := by omega
  have h5 : ¬ i + 2 < argv.length := by omega
  rw [parse_loop]
  generalize argv.getD i [] = arg at ho ⊢
  obtain ⟨a1, a2, a3⟩ := ho
  simp only [List.headD_eq_head?_getD, List.getD_eq_getElem?_getD] at a1 a3
  simp [h0, a1, a2, a3, argv_read, h2, h3, hi]
  rw [parse_loop]
  simp [h5]

/-- The option `-w` as the last word: no usage text is printed; the world module
is read from `argv[argc]`, the NULL pointer. -/
theorem parse_option_w_last (strtol : List Nat → Int) (argv : List (List Nat)) (fuel i : Nat)
    (c : cmdline) (hi : i + 1 = argv.length) (ho : is_option (argv.getD i []) 119) :
    parse_loop strtol argv (fuel + 2) i c
      = parse_result.returned { log_read c (i + 1) with world_module := none } := by
  have h0 : i < argv.length := by omega
  have h2 : ¬ i + 1 > argv.length := by omega
  have h3 : ¬ i + 1 < argv.length := by omega
  have h5 : ¬ i + 2 < argv.length := by omega
  rw [parse_loop]
  generalize argv.getD i [] = arg at ho ⊢
  obtain ⟨a1, a2, a3⟩ := ho
  simp only [List.headD_eq_head?_getD, List.getD_eq_getElem?_getD] at a1 a3
  simp [h0, a1, a2, a3, argv_read, h2, h3, hi]
  rw [parse_loop]
  simp [h5]

/-- The option `-p` as the last word: no usage text is printed; `strtol` is called
with `argv[argc]`, the NULL pointer, and the process stops there. -/
theorem parse_option_p_last (strtol : List Nat → Int) (argv : List (List Nat)) (fuel i : Nat)
    (c : cmdline) (hi : i + 1 = argv.length) (ho : is_option (argv.getD i []) 112) :
    parse_loop strtol argv (fuel + 1) i c = parse_result.fault (log_read c (i + 1)) := by
  have h0 : i < argv.length := by omega
  have h2 : ¬ i + 1 > argv.length := by omega
  have h3 : ¬ i + 1 < argv.length := by omega
  rw [parse_loop]
  generalize argv.getD i [] = arg at ho ⊢
  obtain ⟨a1, a2, a3⟩ := ho
  simp only [List.headD_eq_head?_getD, List.getD_eq_getElem?_getD] at a1 a3
  simp [h0, a1, a2, a3, argv_read, h2, h3, hi]

/-- C23 (failing input): the command lines `netcosm -a alice`, `netcosm -d`,
`netcosm -w` and `netcosm -p`, in which an option lacks an argument. The tests
`i + 2 > argc` and `i + 1 > argc` are off by one: no usage text is printed, and
the value of the option is read from `argv[argc]` (the read with index 3 for `-a`,
with index 2 for the others), the NULL pointer that ends the array. The password,
the data prefix and the world module become NULL, and for `-p` the process stops
in `strtol(NULL, NULL, 10)`. -/
theorem parse_args_reads_argv_argc :
    parse_args (fun _ => 0) [str "netcosm", str "-a", str "alice"]
      = parse_result.returned { cmdline_init with
          autoconfig := true, autouser := some (str "alice"), autopass := none,
          arg_reads := [2, 3] } ∧
    parse_args (fun _ => 0) [str "netcosm", str "-d"]
      = parse_result.returned { cmdline_init with data_prefix := none, arg_reads := [2] } ∧
    parse_args (fun _ => 0) [str "netcosm", str "-w"]
      = parse_result.returned { cmdline_init with world_module := none, arg_reads := [2] } ∧
    parse_args (fun _ => 0) [str "netcosm", str "-p"]
      = parse_result.fault { cmdline_init with arg_reads := [2] } := by
  decide

/-- Command lines on which `parse_args` does what the usage text says: every option
with its arguments; `-a` as the last word; an unknown option letter; a word that
is not an option. -/
theorem parse_args_examples :
    parse_args (fun _ => 4000)
        [str "netcosm", str "-a", str "alice", str "hunter2", str "-d", str "data", str "-p",
         str "4000", str "-w", str "world.so"]
      = parse_result.returned
          { autoconfig := true, autouser := some (str "alice"), autopass := some (str "hunter2"),
            data_prefix := some (str "data"), port := 4000,
            world_module := some (str "world.so"), arg_reads := [2, 3, 5, 7, 9] } ∧
    parse_args (fun _ => 0) [str "netcosm", str "-a"]
      = parse_result.usage { cmdline_init with autoconfig := true } ∧
    parse_args (fun _ => 0) [str "netcosm", str "-x"] = parse_result.usage cmdline_init ∧
    parse_args (fun _ => 0) [str "netcosm", str "x"]
      = parse_result.unknown_argument cmdline_init := by
  decide

/-! ### C21: the description of a room -/

theorem cstr_of_no_nul (s : List Nat) (h : 0 ∉ s) : cstr s = s := by
  unfold cstr
  apply List.takeWhile_eq_self_iff.mpr
  intro b hb
  have : b ≠ 0 := fun e => h (e ▸ hb)
  simpa using this

/-- Function `strlcat` appends the whole of `src` when the result fits the buffer. -/
theorem strlcat_fit (dst src : List Nat) (siz : Nat) (h0 : 0 ∉ src)
    (hfit : dst.length + src.length < siz) : strlcat dst src siz = dst ++ src := by
  unfold strlcat
  rw [if_pos (by omega), cstr_of_no_nul src h0]
  apply List.take_of_length_le
  simp only [List.length_append]
  omega

/-- Function `strlcat` never fills the buffer beyond `siz - 1` bytes. -/
theorem strlcat_length_lt (dst src : List Nat) (siz : Nat) (h : dst.length < siz) :
    (strlcat dst src siz).length < siz := by
  unfold strlcat
  rw [if_pos h]
  simp only [List.length_take]
  omega

theorem digitChar_toNat_ne_zero (d : Nat) : (Nat.digitChar d).toNat ≠ 0 := by
  rcases Nat.lt_or_ge d 16 with h | h
  · interval_cases d <;> decide
  · have hne : ∀ k, k < 16 → ¬ d = k := fun k hk e => by omega
    unfold Nat.digitChar
    rw [if_neg (hne 0 (by norm_num)), if_neg (hne 1 (by norm_num)), if_neg (hne 2 (by norm_num)), if_neg (hne 3 (by norm_num)), if_neg (hne 4 (by norm_num)), if_neg (hne 5 (by norm_num)), if_neg (hne 6 (by norm_num)), if_neg (hne 7 (by norm_num)), if_neg (hne 8 (by norm_num)), if_neg (hne 9 (by norm_num)), if_neg (hne 10 (by norm_num)), if_neg (hne 11 (by norm_num)), if_neg (hne 12 (by norm_num)), if_neg (hne 13 (by norm_num)), if_neg (hne 14 (by norm_num)), if_neg (hne 15 (by norm_num))]
    decide

theorem toDigitsCore_no_nul (fuel : Nat) :
    ∀ (n : Nat) (acc : List Char), (∀ c ∈ acc, c.toNat ≠ 0) →
      ∀ c ∈ Nat.toDigitsCore 10 fuel n acc, c.toNat ≠ 0 := by
  induction fuel with
  | zero => intro n acc h; simpa [Nat.toDigitsCore] using h
  | succ fuel ih =>
    intro n acc h
    have hcons : ∀ c ∈ Nat.digitChar (n % 10) :: acc, c.toNat ≠ 0 := by
      intro c hc
      rcases List.mem_cons.mp hc with e | e
      · rw [e]; exact digitChar_toNat_ne_zero _
      · exact h c e
    unfold Nat.toDigitsCore
    simp only []
    split
    · exact hcons
    · exact ih _ _ hcons

theorem fmt_u_no_nul (n : Nat) : 0 ∉ fmt_u n := by
  unfold fmt_u Nat.toDigits
  intro h
  obtain ⟨c, hc, hz⟩ := List.mem_map.mp h
  exact toDigitsCore_no_nul _ _ [] (by intro c hc; cases hc) c hc hz

theorem fmt_u_length (n : Nat) (h : n < 2 ^ 64) : (fmt_u n).length ≤ 20 := by
  unfold fmt_u Nat.toDigits
  rw [List.length_map]
  exact Nat.toDigitsCore_length 10 (by norm_num) _ n 20 (by omega) (by norm_num)

/-- The line that `req_send_desc` builds always fits one packet. -/
theorem desc_line_length (env : Env) (hM : 0 < env.MSG_MAX) (name : List Nat) (obj : object_t)
    (n : Nat) : (desc_line env name obj n).length < env.MSG_MAX := by
  have h0 : ([] : List Nat).length < env.MSG_MAX := hM
  unfold desc_line
  simp only []
  split
  · split
    · apply strlcat_length_lt
      apply strlcat_length_lt
      split
      · apply strlcat_length_lt
        apply strlcat_length_lt
        exact strlcat_length_lt _ _ _ h0
      · exact strlcat_length_lt _ _ _ h0
    · apply strlcat_length_lt
      apply strlcat_length_lt
      apply strlcat_length_lt
      exact strlcat_length_lt _ _ _ h0
  · exact hM

/-- For a key that differs from the name of its object the line is empty. -/
theorem desc_line_alias (env : Env) (key : List Nat) (obj : object_t) (n : Nat)
    (h : key ≠ obj.name) : desc_line env key obj n = [] := by
  simp [desc_line, h]

/-- For a key that is the name of its object, the line that `req_send_desc` builds is
the line of the spec, as long as that line fits the buffer of `MSG_MAX` bytes. -/
theorem desc_line_eq_spec (env : Env) (obj : object_t) (n : Nat) (h0 : 0 ∉ obj.name)
    (hn : n < 2 ^ 64)
    (hfit : (spec_listing_line env.is_vowel obj.name obj.default_article n).length
      < env.MSG_MAX) :
    desc_line env obj.name obj n
      = spec_listing_line env.is_vowel obj.name obj.default_article n := by
  have z1 : 0 ∉ str "There is " := by decide
  have z2 : 0 ∉ str "an" := by decide
  have z3 : 0 ∉ str "a" := by decide
  have z4 : 0 ∉ str " " := by decide
  have z5 : 0 ∉ str " here.\n" := by decide
  have z6 : 0 ∉ str "There are " := by decide
  have z7 : 0 ∉ str "s here.\n" := by decide
  have l1 : (str "There is ").length = 9 := rfl
  have l2 : (str "an").length = 2 := rfl
  have l3 : (str "a").length = 1 := rfl
  have l4 : (str " ").length = 1 := rfl
  have l5 : (str " here.\n").length = 7 := rfl
  have l6 : (str "There are ").length = 10 := rfl
  have l7 : (str "s here.\n").length = 8 := rfl
  have l8 : (str "an ").length = 3 := rfl
  have l9 : (str "a ").length = 2 := rfl
  unfold desc_line spec_listing_line at *
  simp only [if_true]
  by_cases h1 : n = 1
  · simp only [h1, if_true] at hfit ⊢
    by_cases ha : obj.default_article = true
    · simp only [ha, if_true] at hfit ⊢
      by_cases hv : env.is_vowel (obj.name.headD 0) = true
      · simp only [hv, if_true, List.length_append, l1, l8, l5] at hfit ⊢
        rw [strlcat_fit [] _ _ z1 (by simp only [List.length_nil, l1]; omega)]
        rw [strlcat_fit _ _ _ z2 (by simp only [List.length_append, List.length_nil, l1, l2]; omega)]
        rw [strlcat_fit _ _ _ z4
          (by simp only [List.length_append, List.length_nil, l1, l2, l4]; omega)]
        rw [strlcat_fit _ _ _ h0
          (by simp only [List.length_append, List.length_nil, l1, l2, l4]; omega)]
        rw [strlcat_fit _ _ _ z5
          (by simp only [List.length_append, List.length_nil, l1, l2, l4, l5]; omega)]
        simp only [List.nil_append, List.append_assoc]
        rfl
      · simp only [hv, if_false, Bool.false_eq_true, List.length_append, l1, l9, l5] at hfit ⊢
        rw [strlcat_fit [] _ _ z1 (by simp only [List.length_nil, l1]; omega)]
        rw [strlcat_fit _ _ _ z3 (by simp only [List.length_append, List.length_nil, l1, l3]; omega)]
        rw [strlcat_fit _ _ _ z4
          (by simp only [List.length_append, List.length_nil, l1, l3, l4]; omega)]
        rw [strlcat_fit _ _ _ h0
          (by simp only [List.length_append, List.length_nil, l1, l3, l4]; omega)]
        rw [strlcat_fit _ _ _ z5
          (by simp only [List.length_append, List.length_nil, l1, l3, l4, l5]; omega)]
        simp only [List.nil_append, List.append_assoc]
        rfl
    · simp only [ha, if_false, Bool.false_eq_true, List.length_append, l1, l5, List.length_nil,
        List.append_nil] at hfit ⊢
      rw [strlcat_fit [] _ _ z1 (by simp only [List.length_nil, l1]; omega)]
      rw [strlcat_fit _ _ _ h0
        (by simp only [List.length_append, List.length_nil, l1]; omega)]
      rw [strlcat_fit _ _ _ z5
        (by simp only [List.length_append, List.length_nil, l1, l5]; omega)]
      simp only [List.nil_append, List.append_assoc]
  · simp only [h1, if_false, List.length_append, l6, l4, l7] at hfit ⊢
    have hd := fmt_u_length n hn
    have ht : (fmt_u n ++ str " ").take 31 = fmt_u n ++ str " " := by
      apply List.take_of_length_le
      simp only [List.length_append, l4]
      omega
    have zn : 0 ∉ fmt_u n ++ str " " := by
      intro h
      rcases List.mem_append.mp h with e | e
      · exact fmt_u_no_nul n e
      · exact z4 e
    rw [ht]
    rw [strlcat_fit [] _ _ z6 (by simp only [List.length_nil, l6]; omega)]
    rw [strlcat_fit _ _ _ zn
      (by simp only [List.length_append, List.length_nil, l6, l4]; omega)]
    rw [strlcat_fit _ _ _ h0
      (by simp only [List.length_append, List.length_nil, l6, l4]; omega)]
    rw [strlcat_fit _ _ _ z7
      (by simp only [List.length_append, List.length_nil, l6, l4, l7]; omega)]
    simp only [List.nil_append, List.append_assoc]

theorem request_lookup_getroomdesc :
    request_lookup REQ_GETROOMDESC
      = some ⟨REQ_GETROOMDESC, false, which_t.CHILD_NONE, none, some req_send_desc⟩ := rfl

/-- The loop of `req_send_desc`: one message for every key whose object is not hidden,
none for a hidden one. -/
theorem send_desc_fold (env : Env) (sender : Int) (hM : 0 < env.MSG_MAX)
    (L : List (multimap_list × Nat)) :
    ∀ a : Master, a.fault = false →
      L.foldl (fun acc it =>
          if !it.1.val.hidden then send_msg env acc sender (desc_line env it.1.key it.1.val it.2)
          else acc) a
        = { a with sent := (a.sent ++ List.map
              (fun it => ⟨sender, REQ_BCASTMSG :: desc_line env it.1.key it.1.val it.2⟩)
              (L.filter (fun it => !it.1.val.hidden))) } := by
  induction L with
  | nil => intro a _; simp
  | cons u L ih =>
    intro a hf
    rw [List.foldl_cons]
    by_cases hh : (!u.1.val.hidden) = true
    · rw [if_pos hh, send_msg_small env a sender _ hf (desc_line_length env hM _ _ _),
        ih _ (by exact hf)]
      simp [List.filter_cons, hh]
    · rw [if_neg hh, ih _ hf]
      simp [List.filter_cons, hh]

/-- The packets of the listing in the words of the spec, with the packet of an alias
key: for every distinct key whose object is not hidden one BCASTMSG packet, which
holds the listing line when the key is the name of the object and is empty
otherwise. -/
theorem send_desc_lines (env : Env) (sender : Int) (L : List (multimap_list × Nat))
    (hline : ∀ it ∈ L, it.1.val.hidden = false → it.1.key = it.1.val.name →
      0 ∉ it.1.val.name ∧ it.2 < 2 ^ 64 ∧
      (spec_listing_line env.is_vowel it.1.val.name it.1.val.default_article it.2).length
        < env.MSG_MAX) :
    (L.filter (fun it => !it.1.val.hidden)).map
        (fun it => (⟨sender, REQ_BCASTMSG :: desc_line env it.1.key it.1.val it.2⟩ : sent_packet))
      = (L.filter (fun it => !it.1.val.hidden)).map
        (fun it => ⟨sender, REQ_BCASTMSG ::
          (if it.1.key = it.1.val.name then
            spec_listing_line env.is_vowel it.1.val.name it.1.val.default_article it.2
           else [])⟩) := by
  apply List.map_congr_left
  intro it hit
  rw [List.mem_filter] at hit
  obtain ⟨hmem, hh⟩ := hit
  have hh' : it.1.val.hidden = false := by simpa using hh
  by_cases hk : it.1.key = it.1.val.name
  · obtain ⟨h0, hn, hfit⟩ := hline it hmem hh' hk
    rw [if_pos hk, hk, desc_line_eq_spec env it.1.val it.2 h0 hn hfit]
  · rw [if_neg hk, desc_line_alias env _ _ _ hk]

/-- What the master sends for GETROOMDESC. For a request from a known
sender whose room exists, with a description and listing lines that fit a packet,
the sender is sent the description of the room, then one print-newline packet,
then, for every distinct key of the object multimap of the room whose object is
not hidden, one BCASTMSG packet, then ALLDONE. The packet of a key that is the
name of its object holds the listing line: "There is X here." for the count 1,
with "a " or "an " (by `is_vowel` of the first letter) before X only when the flag
`default_article` of the object is set, and "There are N Xs here." for another
count N. The packet of a key that differs from the name of its object is a
BCASTMSG packet with an empty payload. A hidden object produces no packet. -/
theorem getroomdesc_request (env : Env) (st : Master) (sender : Int) (payload : List Nat)
    (s : child_data) (room : room_t)
    (hf : st.fault = false)
    (hlen : sizeof_pid_t + 1 + payload.length ≤ env.MSG_MAX) (hM : env.MSG_MAX < 2 ^ 64)
    (hlo : -2 ^ 31 ≤ sender) (hhi : sender < 2 ^ 31)
    (hs : hash_lookup st.child_map sender = some s)
    (hroom : room_get st.world s.room = some room)
    (hdesc : room.desc.length < env.MSG_MAX)
    (hline : ∀ it ∈ multimap_iterate room.objects,
      it.1.val.hidden = false → it.1.key = it.1.val.name →
      0 ∉ it.1.val.name ∧ it.2 < 2 ^ 64 ∧
      (spec_listing_line env.is_vowel it.1.val.name it.1.val.default_article it.2).length
        < env.MSG_MAX) :
    sent_since st.sent.length
        (handle_child_req env st (some (mk_packet sender REQ_GETROOMDESC payload))).2
      = [⟨sender, REQ_BCASTMSG :: room.desc⟩, ⟨sender, [REQ_PRINTNEWLINE]⟩]
        ++ ((multimap_iterate room.objects).filter (fun it => !it.1.val.hidden)).map
            (fun it => ⟨sender, REQ_BCASTMSG ::
              (if it.1.key = it.1.val.name then
                spec_listing_line env.is_vowel it.1.val.name it.1.val.default_article it.2
               else [])⟩)
        ++ [⟨sender, [REQ_ALLDONE]⟩] := by
  have hM0 : 0 < env.MSG_MAX := by unfold sizeof_pid_t at hlen; omega
  rw [handle_child_req_known env st sender REQ_GETROOMDESC payload _ s hlo hhi hs hlen hM
    request_lookup_getroomdesc]
  have hf' : (recv st (mk_packet sender REQ_GETROOMDESC payload)).fault = false := hf
  rw [run_request_finalize env _ _ _ _ _ _ hf']
  unfold req_send_desc
  have hcm : (log_call (recv st (mk_packet sender REQ_GETROOMDESC payload))
      (call.finalize REQ_GETROOMDESC sender)).child_map = st.child_map := rfl
  have hw : (log_call (recv st (mk_packet sender REQ_GETROOMDESC payload))
      (call.finalize REQ_GETROOMDESC sender)).world = st.world := rfl
  simp only [hcm, hs, hw, hroom]
  rw [send_packet_small env _ sender REQ_BCASTMSG room.desc room.desc.length (by exact hf) hdesc
    (le_refl _)]
  rw [send_packet_none env _ sender REQ_PRINTNEWLINE (by exact hf) (by omega)]
  rw [send_desc_fold env sender hM0 _ _ (by exact hf)]
  rw [send_packet_none env _ sender REQ_ALLDONE (by exact hf) (by omega)]
  rw [send_desc_lines env sender _ hline]
  simp only [sent_since, List.take_length]
  have : (log_call (recv st (mk_packet sender REQ_GETROOMDESC payload))
      (call.finalize REQ_GETROOMDESC sender)).sent = st.sent := rfl
  rw [this]
  simp only [List.append_assoc, List.drop_left]
  rfl

theorem getroomdesc_request_witness :
    sent_since st0.sent.length
        (handle_child_req env0 st0 (some (mk_packet 7 REQ_GETROOMDESC []))).2
      = [⟨7, REQ_BCASTMSG :: hall.desc⟩, ⟨7, [REQ_PRINTNEWLINE]⟩]
        ++ ((multimap_iterate hall.objects).filter (fun it => !it.1.val.hidden)).map
            (fun it => ⟨7, REQ_BCASTMSG ::
              (if it.1.key = it.1.val.name then
                spec_listing_line env0.is_vowel it.1.val.name it.1.val.default_article it.2
               else [])⟩)
        ++ [⟨7, [REQ_ALLDONE]⟩] :=
  getroomdesc_request env0 st0 7 [] ⟨7, 0, 0, none, 0, none⟩ hall (by decide) (by decide)
    (by decide) (by decide) (by decide) (by decide) (by decide) (by decide) (by decide)

/-- C21 (failing input): in room 0 the lamp is filed under its name "lamp" and under
the alias "light", and there is a hidden object "key". Worker 7 sends GETROOMDESC:
after the description, the print-newline packet and the line of the lamp, the
master sends a BCASTMSG packet with an empty payload for the key "light", which
differs from the name of its object; the hidden object produces no packet. -/
theorem getroomdesc_alias_key_empty_packet :
    (multimap_iterate hall_alias.objects).map
        (fun it => (it.1.key, it.1.val.name, it.1.val.hidden))
      = [(str "lamp", str "lamp", false), (str "light", str "lamp", false),
         (str "key", str "key", true)] ∧
    sent_since st_alias.sent.length
        (handle_child_req env0 st_alias (some (mk_packet 7 REQ_GETROOMDESC []))).2
      = [⟨7, REQ_BCASTMSG :: str "A hall."⟩,
         ⟨7, [REQ_PRINTNEWLINE]⟩,
         ⟨7, REQ_BCASTMSG :: str "There is a lamp here.\n"⟩,
         ⟨7, [REQ_BCASTMSG]⟩,
         ⟨7, [REQ_ALLDONE]⟩] := by
  decide

/-- The listing for two lamps and an apple: the count and the article. -/
theorem getroomdesc_examples :
    desc_line env0 (str "lamp") lamp 2 = str "There are 2 lamps here.\n" ∧
    desc_line env0 (str "apple") ⟨102, str "apple", 0, true, false, true, 0⟩ 1
      = str "There is an apple here.\n" ∧
    desc_line env0 (str "apple") ⟨102, str "apple", 0, true, false, false, 0⟩ 1
      = str "There is apple here.\n" ∧
    desc_line env0 (str "light") lamp 1 = [] := by
  decide

/-! ### C22: LISTCLIENTS -/

theorem request_lookup_listclients :
    request_lookup REQ_LISTCLIENTS
      = some ⟨REQ_LISTCLIENTS, false, which_t.CHILD_ALL, some req_send_clientinfo,
          some req_send_geninfo⟩ := rfl

/-- The buffer of `req_send_clientinfo` holds the whole line and the whole tail when
the two have at most 127 bytes. -/
theorem clientinfo_buf (line tail : List Nat) (h : line.length + tail.length ≤ 127) :
    line.take 127 ++ tail.take (128 - (line.take 127).length - 1) = line ++ tail := by
  rw [List.take_of_length_le (by omega : line.length ≤ 127)]
  rw [List.take_of_length_le (by omega : tail.length ≤ 128 - line.length - 1)]

/-- Function `req_send_clientinfo` for a session in one of the six states, with a
descriptor of at most 127 bytes: the descriptor is sent to the sender. -/
theorem req_send_clientinfo_valid (env : Env) (d : List Nat) (n : Nat) (sender child : Int)
    (a : Master) (c : child_data)
    (hf : a.fault = false) (hc : hash_lookup a.child_map child = some c)
    (h0 : 0 ≤ c.state) (h6 : c.state < 6)
    (h127 : (client_descriptor env (decide (sender = c.pid)) c).length ≤ 127)
    (hM : (client_descriptor env (decide (sender = c.pid)) c).length < env.MSG_MAX) :
    req_send_clientinfo env d n sender child a
      = { a with sent := a.sent ++
            [⟨sender, REQ_BCASTMSG :: client_descriptor env (decide (sender = c.pid)) c⟩] } := by
  have hk : c.state.toNat < state_names.length := by
    have : state_names.length = 6 := rfl
    omega
  have hnm : state_names[c.state.toNat]? = some (state_names.getD c.state.toNat []) := by
    rw [List.getD_eq_getElem?_getD, List.getElem?_eq_getElem hk]
    rfl
  have hrd : state_read env c.state = some (state_names.getD c.state.toNat []) := by
    unfold state_read
    rw [if_pos ⟨h0, hk⟩, hnm]
  unfold req_send_clientinfo
  simp only [hc, hrd]
  have hbuf : ∀ line tail : List Nat,
      line ++ tail = client_descriptor env (decide (sender = c.pid)) c →
      send_packet env a sender REQ_BCASTMSG
          (some (line.take 127 ++ tail.take (128 - (line.take 127).length - 1)))
          (line.take 127 ++ tail.take (128 - (line.take 127).length - 1)).length
        = { a with sent := a.sent ++
            [⟨sender, REQ_BCASTMSG :: client_descriptor env (decide (sender = c.pid)) c⟩] } := by
    intro line tail e
    have hl : line.length + tail.length ≤ 127 := by
      rw [← List.length_append, e]; exact h127
    rw [clientinfo_buf line tail hl, e,
      send_packet_small env a sender REQ_BCASTMSG _ _ hf hM (le_refl _), List.take_length]
  apply hbuf
  unfold client_descriptor
  cases c.user with
  | none => by_cases hy : sender = c.pid <;> simp [hy]
  | some u => by_cases hy : sender = c.pid <;> simp [hy]

theorem hash_lookup_of_mem (m : List child_data) (c : child_data)
    (hnd : (m.map (fun c => c.pid)).Nodup) (hc : c ∈ m) : hash_lookup m c.pid = some c := by
  induction m with
  | nil => simp at hc
  | cons x m ih =>
    simp only [List.map_cons, List.nodup_cons] at hnd
    unfold hash_lookup
    rcases List.mem_cons.mp hc with e | e
    · subst e; simp
    · have hx : x.pid ≠ c.pid := fun h => hnd.1 (h ▸ List.mem_map_of_mem _ e)
      rw [List.find?_cons_of_neg _ (by simpa using hx)]
      exact ih hnd.2 e

/-- The loop of LISTCLIENTS over the client table: one descriptor, without the mark,
for every session other than the sender. -/
theorem iterate_children_clientinfo (env : Env) (sender : Int) (n : Nat) (m : List child_data)
    (L : List child_data) :
    (∀ c ∈ L, hash_lookup m c.pid = some c) →
    (∀ c ∈ L, 0 ≤ c.state ∧ c.state < 6 ∧
      (client_descriptor env (decide (c.pid = sender)) c).length ≤ 127 ∧
      (client_descriptor env (decide (c.pid = sender)) c).length < env.MSG_MAX) →
    ∀ a : Master, a.fault = false → a.child_map = m →
      L.foldl (iterate_step env
          ⟨REQ_LISTCLIENTS, false, which_t.CHILD_ALL, some req_send_clientinfo,
            some req_send_geninfo⟩ n sender) a
      = { a with
          sent := a.sent ++ List.map
            (fun c => ⟨sender, REQ_BCASTMSG :: client_descriptor env false c⟩)
            (L.filter (fun c => c.pid != sender))
          calls := a.calls ++ List.map (fun c => call.handle_child REQ_LISTCLIENTS sender c.pid)
            (L.filter (fun c => c.pid != sender)) } := by
  induction L with
  | nil => intro _ _ a _ _; simp
  | cons c L ih =>
    intro hl hd a hf hm
    rw [List.foldl_cons]
    have ihL := ih (fun x hx => hl x (List.mem_cons_of_mem _ hx))
      (fun x hx => hd x (List.mem_cons_of_mem _ hx))
    by_cases hc : c.pid = sender
    · have : iterate_step env ⟨REQ_LISTCLIENTS, false, which_t.CHILD_ALL,
          some req_send_clientinfo, some req_send_geninfo⟩ n sender a c = a := by
        simp [iterate_step, hc]
      rw [this, ihL a hf hm]
      simp [List.filter_cons, hc]
    · have hne : ¬ sender = c.pid := fun e => hc e.symm
      obtain ⟨h0, h6, h127, hM⟩ := hd c (List.mem_cons_self _ _)
      have hdec : decide (c.pid = sender) = decide (sender = c.pid) := by simp [hc, hne]
      rw [hdec] at h127 hM
      have hstep : iterate_step env ⟨REQ_LISTCLIENTS, false, which_t.CHILD_ALL,
          some req_send_clientinfo, some req_send_geninfo⟩ n sender a c
          = { a with
              sent := a.sent ++ [⟨sender, REQ_BCASTMSG :: client_descriptor env false c⟩]
              calls := a.calls ++ [call.handle_child REQ_LISTCLIENTS sender c.pid] } := by
        simp only [iterate_step, if_neg hc, call_handle_child]
        rw [if_neg (by rw [hf]; decide)]
        rw [req_send_clientinfo_valid env _ n sender c.pid _ c (by exact hf)
          (by rw [← hm] at hl; exact hl c (List.mem_cons_self _ _)) h0 h6 h127 hM]
        have hd0 : decide (sender = c.pid) = false := by simp [hne]
        rw [hd0]
        rfl
      rw [hstep, ihL _ (by exact hf) (by exact hm)]
      simp [List.filter_cons, hc]

theorem filter_other_sessions_length (m : List child_data) (sender : Int)
    (hnd : (m.map (fun c => c.pid)).Nodup) (hs : sender ∈ m.map (fun c => c.pid)) :
    (m.filter (fun c => c.pid != sender)).length + 1 = m.length := by
  have h := filter_ne_length (m.map (fun c => c.pid)) sender hnd hs
  rw [List.filter_map, List.length_map, List.length_map] at h
  exact h

/-- What the master does with LISTCLIENTS when every session of the client table is in
one of the six states and every descriptor has at most 127 bytes and fits a
packet (pids unique): the sender is sent its own descriptor, marked "[YOU]", then
one descriptor without the mark for every other session, in the order of the
table, then the line "Total clients: N" with the counter `num_clients`, then
ALLDONE. There is one descriptor per session of the table. -/
theorem listclients_valid_states (env : Env) (st : Master) (sender : Int) (payload : List Nat)
    (s : child_data)
    (hf : st.fault = false)
    (hlen : sizeof_pid_t + 1 + payload.length ≤ env.MSG_MAX) (hM : env.MSG_MAX < 2 ^ 64)
    (hlo : -2 ^ 31 ≤ sender) (hhi : sender < 2 ^ 31)
    (hs : hash_lookup st.child_map sender = some s)
    (hnd : (st.child_map.map (fun c => c.pid)).Nodup)
    (hdesc : ∀ c ∈ st.child_map, 0 ≤ c.state ∧ c.state < 6 ∧
      (client_descriptor env (decide (c.pid = sender)) c).length ≤ 127 ∧
      (client_descriptor env (decide (c.pid = sender)) c).length < env.MSG_MAX)
    (htot : (str "Total clients: " ++ fmt_d st.num_clients ++ str "\n").length < env.MSG_MAX) :
    sent_since st.sent.length
        (handle_child_req env st (some (mk_packet sender REQ_LISTCLIENTS payload))).2
      = [⟨sender, REQ_BCASTMSG :: client_descriptor env true s⟩]
        ++ (st.child_map.filter (fun c => c.pid != sender)).map
            (fun c => ⟨sender, REQ_BCASTMSG :: client_descriptor env false c⟩)
        ++ [⟨sender, REQ_BCASTMSG :: (str "Total clients: " ++ fmt_d st.num_clients ++ str "\n")⟩,
            ⟨sender, [REQ_ALLDONE]⟩] ∧
    (st.child_map.filter (fun c => c.pid != sender)).length + 1 = st.child_map.length := by
  refine ⟨?_, filter_other_sessions_length _ _ hnd (hash_lookup_mem hs)⟩
  have hM1 : 1 ≤ env.MSG_MAX := by omega
  have hspid := hash_lookup_pid hs
  have hsmem : s ∈ st.child_map := by
    unfold hash_lookup at hs
    exact List.mem_of_find?_eq_some hs
  rw [handle_child_req_known env st sender REQ_LISTCLIENTS payload _ s hlo hhi hs hlen hM
    request_lookup_listclients]
  obtain ⟨st1, hst1⟩ : ∃ st1 : Master, st1 = recv st (mk_packet sender REQ_LISTCLIENTS payload) :=
    ⟨_, rfl⟩
  rw [← hst1]
  have hf1 : st1.fault = false := by rw [hst1]; exact hf
  have hs1 : st1.sent = st.sent := by rw [hst1]; rfl
  have hc1 : st1.child_map = st.child_map := by rw [hst1]; rfl
  have hn1 : st1.num_clients = st.num_clients := by rw [hst1]; rfl
  obtain ⟨h0, h6, h127, hfit⟩ := hdesc s hsmem
  have hdec : decide (s.pid = sender) = decide (sender = s.pid) := by simp [hspid]
  rw [hdec] at h127 hfit
  have hyou : decide (sender = s.pid) = true := by simp [hspid]
  have hfirst : call_handle_child env
      ⟨REQ_LISTCLIENTS, false, which_t.CHILD_ALL, some req_send_clientinfo,
        some req_send_geninfo⟩ payload.length sender sender st1
      = { st1 with
          sent := st1.sent ++ [⟨sender, REQ_BCASTMSG :: client_descriptor env true s⟩]
          calls := st1.calls ++ [call.handle_child REQ_LISTCLIENTS sender sender] } := by
    simp only [call_handle_child]
    rw [if_neg (by rw [hf1]; decide)]
    rw [req_send_clientinfo_valid env _ payload.length sender sender _ s (by exact hf1)
      (by rw [← hc1] at hs; exact hs) h0 h6 h127 hfit, hyou]
    rfl
  have hrun : run_request env
      ⟨REQ_LISTCLIENTS, false, which_t.CHILD_ALL, some req_send_clientinfo,
        some req_send_geninfo⟩ payload.length sender st1
      = { st1 with
          sent := st1.sent ++ [⟨sender, REQ_BCASTMSG :: client_descriptor env true s⟩]
            ++ List.map (fun c => ⟨sender, REQ_BCASTMSG :: client_descriptor env false c⟩)
                (st1.child_map.filter (fun c => c.pid != sender))
            ++ [⟨sender, REQ_BCASTMSG ::
                  (str "Total clients: " ++ fmt_d st1.num_clients ++ str "\n")⟩]
          calls := st1.calls ++ [call.handle_child REQ_LISTCLIENTS sender sender]
            ++ List.map (fun c => call.handle_child REQ_LISTCLIENTS sender c.pid)
                (st1.child_map.filter (fun c => c.pid != sender))
            ++ [call.finalize REQ_LISTCLIENTS sender] } := by
    simp only [run_request, fan_out]
    rw [hfirst]
    simp only [iterate_children]
    rw [iterate_children_clientinfo env sender payload.length st.child_map st1.child_map
      (by rw [hc1]; exact fun c hc => hash_lookup_of_mem _ c hnd hc)
      (by rw [hc1]; exact hdesc) _ (by exact hf1) (by exact hc1)]
    simp only [call_finalize]
    rw [if_neg (by rw [hf1]; decide)]
    simp only [req_send_geninfo]
    rw [send_msg_small env _ sender _ (by exact hf1) (by rw [hn1]; exact htot)]
    rfl
  rw [hrun, send_packet_none env _ sender REQ_ALLDONE (by exact hf1) hM1]
  simp only [sent_since, hs1, hc1, hn1, List.append_assoc, List.drop_left]
  rfl

theorem listclients_valid_states_witness :
    sent_since st0.sent.length
        (handle_child_req env0 st0 (some (mk_packet 7 REQ_LISTCLIENTS []))).2
      = [⟨7, REQ_BCASTMSG :: client_descriptor env0 true ⟨7, 0, 0, none, 0, none⟩⟩]
        ++ (st0.child_map.filter (fun c => c.pid != 7)).map
            (fun c => ⟨7, REQ_BCASTMSG :: client_descriptor env0 false c⟩)
        ++ [⟨7, REQ_BCASTMSG :: (str "Total clients: " ++ fmt_d st0.num_clients ++ str "\n")⟩,
            ⟨7, [REQ_ALLDONE]⟩] ∧
    (st0.child_map.filter (fun c => c.pid != 7)).length + 1 = st0.child_map.length :=
  listclients_valid_states env0 st0 7 [] ⟨7, 0, 0, none, 0, none⟩ (by decide) (by decide)
    (by decide) (by decide) (by decide) (by decide) (by decide) (by decide) (by decide)

/-- The listing in a concrete table: worker 7 is logged in as "alice", worker 9 is
fresh. Worker 7 is sent its descriptor with the mark, the descriptor of worker 9,
the total, and ALLDONE. -/
theorem listclients_example :
    sent_since st_alice.sent.length
        (handle_child_req env0 st_alice (some (mk_packet 7 REQ_LISTCLIENTS []))).2
      = [⟨7, REQ_BCASTMSG :: str "Client 10.0.0.1 PID 7 [LOGGED IN AS USER] USER alice [YOU]\n"⟩,
         ⟨7, REQ_BCASTMSG :: str "Client 10.0.0.1 PID 9 [INIT]\n"⟩,
         ⟨7, REQ_BCASTMSG :: str "Total clients: 2\n"⟩,
         ⟨7, [REQ_ALLDONE]⟩] := by
  decide

/-- C22 (failing input): worker 9 sets its state to 6 with CHANGESTATE; then worker 7
sends LISTCLIENTS. The master sends worker 7 its own descriptor, then indexes the
six-entry table `state[]` at 6 for the descriptor of worker 9; in the build
`env0` the read outside the table stops the master: worker 7 is sent no
descriptor of worker 9, no "Total clients" line and no ALLDONE. -/
theorem listclients_state_lookup_out_of_bounds :
    st_peer6.fault = false ∧
    st_peer6.child_map = [⟨7, 0, 0, none, 0, none⟩, ⟨9, 0, 6, none, 0, none⟩] ∧
    state_names.length = 6 ∧
    (handle_child_req env0 st_peer6 (some (mk_packet 7 REQ_LISTCLIENTS []))).2.fault = true ∧
    sent_since st_peer6.sent.length
        (handle_child_req env0 st_peer6 (some (mk_packet 7 REQ_LISTCLIENTS []))).2
      = [⟨7, REQ_BCASTMSG :: str "Client 10.0.0.1 PID 7 [INIT] [YOU]\n"⟩] := by
  decide

set_option maxRecDepth 100000 in
/-- A long user name: worker 7 has set a user name of 100 letters with CHANGEUSER (the
build has `MSG_MAX = 256`) and sends LISTCLIENTS. Its descriptor is cut at the 127
bytes of `buf`, and `strncat` has no room left: the descriptor of the sender
carries neither the mark "[YOU]" nor a newline. -/
theorem listclients_long_name_cut :
    st_longname.fault = false ∧
    st_longname.child_map
      = [⟨7, 0, 0, some (List.replicate 100 120), 0, none⟩, ⟨9, 0, 0, none, 0, none⟩] ∧
    sent_since st_longname.sent.length
        (handle_child_req env_wide st_longname (some (mk_packet 7 REQ_LISTCLIENTS []))).2
      = [⟨7, REQ_BCASTMSG :: (str "Client 10.0.0.1 PID 7 [INIT] USER " ++ List.replicate 93 120)⟩,
         ⟨7, REQ_BCASTMSG :: str "Client 10.0.0.1 PID 9 [INIT]\n"⟩,
         ⟨7, REQ_BCASTMSG :: str "Total clients: 2\n"⟩,
         ⟨7, [REQ_ALLDONE]⟩] := by
  decide

/-! ### C4: the scope of a request -/

/-- The four scopes in a concrete table with workers 7 and 9: KICKALL (scope
ALL_BUT_SENDER) from worker 7 invokes the handler on 9 only, CHANGEUSER (scope
SENDER) on 7 only, BCASTMSG (scope ALL) on 7 and then on 9, and NOP and
GETROOMDESC (scope NONE) on no session. -/
theorem dispatch_scope_examples :
    invocations env0 st0 (mk_packet 7 REQ_KICKALL (str "bye"))
      = [call.handle_child REQ_KICKALL 7 9] ∧
    invocations env0 st0 (mk_packet 7 REQ_CHANGEUSER (str "bob"))
      = [call.handle_child REQ_CHANGEUSER 7 7] ∧
    invocations env0 st0 (mk_packet 7 REQ_BCASTMSG (str "hi"))
      = [call.handle_child REQ_BCASTMSG 7 7, call.handle_child REQ_BCASTMSG 7 9] ∧
    invocations env0 st0 (mk_packet 9 REQ_BCASTMSG (str "hi"))
      = [call.handle_child REQ_BCASTMSG 9 9, call.handle_child REQ_BCASTMSG 9 7] ∧
    invocations env0 st0 (mk_packet 7 REQ_NOP []) = [] ∧
    invocations env0 st0 (mk_packet 7 REQ_GETROOMDESC []) = [] := by
  decide

/-! ### Supporting examples: aliases and reads outside the state table -/

/-- A build where the read outside the table goes on: worker 9 is in the state 6 and
worker 7 sends LISTCLIENTS. The descriptor of worker 9 carries
whatever the read found in place of a state name; the listing goes on to the
total and ALLDONE. -/
theorem listclients_out_of_table_read_goes_on :
    state_read env_reads 6 = some (str "?") ∧
    (handle_child_req env_reads st_peer6 (some (mk_packet 7 REQ_LISTCLIENTS []))).2.fault = false ∧
    sent_since st_peer6.sent.length
        (handle_child_req env_reads st_peer6 (some (mk_packet 7 REQ_LISTCLIENTS []))).2
      = [⟨7, REQ_BCASTMSG :: str "Client 10.0.0.1 PID 7 [INIT] [YOU]\n"⟩,
         ⟨7, REQ_BCASTMSG :: str "Client 10.0.0.1 PID 9 [?]\n"⟩,
         ⟨7, REQ_BCASTMSG :: str "Total clients: 2\n"⟩,
         ⟨7, [REQ_ALLDONE]⟩] := by
  decide

/-- The sibling loop of `req_inventory` sends inside the test of the key: with the lamp
filed in the inventory under its name and under the alias "light", PRINTINVENTORY
is answered with the heading, the line of the lamp and ALLDONE, and with no
packet for the key "light". -/
theorem inventory_alias_key_no_packet :
    (userdb_lookup st_carry_alias.userdb (some (str "alice"))).map
        (fun u => (multimap_iterate u.objects).map (fun it => (it.1.key, it.1.val.name)))
      = some [(str "lamp", str "lamp"), (str "light", str "lamp")] ∧
    sent_since st_carry_alias.sent.length
        (handle_child_req env0 st_carry_alias (some (mk_packet 7 REQ_PRINTINVENTORY []))).2
      = [⟨7, REQ_BCASTMSG :: str "You currently have:\n"⟩,
         ⟨7, REQ_BCASTMSG :: str "lamp\n"⟩,
         ⟨7, [REQ_ALLDONE]⟩] := by
  decide

end NetCosm
